import Mathlib

/-!
Git-PushTool: the repository synchronization engine (`GitManager`)

A shallow embedding of `src/gitmanager.cpp` and theorems about it.

Text model.  A `QString` is its sequence of UTF-16 code units (`QChar`), a
`QByteArray` its sequence of bytes; both are lists of natural numbers.
Library functions of Qt that the source calls (`QString::replace`,
`QString::section`, `QString::fromUtf8`, ...) are modelled next to their first
use, each with a note.
-/

namespace GitPushTool

/-- One UTF-16 code unit. -/
abbrev QChar := Nat

/-- A string of UTF-16 code units. -/
abbrev QString := List Nat

/-- A byte string. -/
abbrev QByteArray := List Nat

/-- UTF-16 encoding of one code point. -/
def utf16 (cp : Nat) : QString :=
  if cp < 0x10000 then [cp]
  else [0xD800 + (cp - 0x10000) / 0x400, 0xDC00 + (cp - 0x10000) % 0x400]

/-- A string literal of the source as a `QString`. -/
def qs (s : String) : QString :=
  (s.toList.map (fun c => utf16 c.toNat)).flatten

/-- The character `"`. -/
def chQuote : Nat := 34

/-- The character `\`. -/
def chBackslash : Nat := 92

/-- Model of `QChar::toLatin1`: the Latin-1 byte of a code unit, 0 when there is none. -/
def toLatin1 (c : Nat) : Nat :=
  if c > 0xff then 0 else c

/-- Model of `QString::startsWith(QChar)`. -/
def startsWithChar (s : QString) (c : Nat) : Bool :=
  match s with
  | [] => false
  | x :: _ => x == c

/-- Model of `QString::endsWith(QChar)`. -/
def endsWithChar (s : QString) (c : Nat) : Bool :=
  match s.getLast? with
  | none => false
  | some x => x == c

/-- Model of `QString::contains(const QString &)`: substring test. -/
def contains (s p : QString) : Bool :=
  s.tails.any (fun t => p.isPrefixOf t)

/-- Model of `QString::replace(before, after)` for a non-empty `before`: every
occurrence found scanning left to right, without overlap, is replaced.  The
first argument counts the characters of a match still to be skipped. -/
def replaceAux (before after : QString) : Nat → QString → QString
  | _, [] => []
  | skip + 1, _ :: t => replaceAux before after skip t
  | 0, c :: t =>
    if before.isPrefixOf (c :: t) then after ++ replaceAux before after (before.length - 1) t
    else c :: replaceAux before after 0 t

/-- Model of `QString::replace(before, after)`. -/
def replace (s before after : QString) : QString :=
  replaceAux before after 0 s

/-- The fields of `QString::split(sep)` for a non-empty `sep` (empty fields
kept).  `cur` holds the current field reversed. -/
def splitAux (sep : QString) : Nat → QString → QString → List QString
  | _, [], cur => [cur.reverse]
  | skip + 1, _ :: t, cur => splitAux sep skip t cur
  | 0, c :: t, cur =>
    if sep.isPrefixOf (c :: t) then cur.reverse :: splitAux sep (sep.length - 1) t []
    else splitAux sep 0 t (c :: cur)

/-- Model of `QString::split(sep)` with the default `Qt::KeepEmptyParts`. -/
def split (s sep : QString) : List QString :=
  splitAux sep 0 s []

/-- Model of `QString::split(sep, Qt::SkipEmptyParts)`. -/
def splitSkipEmpty (s sep : QString) : List QString :=
  (split s sep).filter (fun f => !f.isEmpty)

/-- Model of `QString::section(sep, -1)`: the last field. -/
def sectionLast (s sep : QString) : QString :=
  (split s sep).getLastD []

/-! ## UTF-8 -/

/-- A UTF-8 continuation byte. -/
def isCont (b : Nat) : Bool := 0x80 ≤ b && b < 0xC0

/-- Decode the character that starts with byte `b0` and continues in `t`:
the code point and the number of continuation bytes used, or `none` when the
sequence is malformed (truncated, overlong, a surrogate or beyond U+10FFFF). -/
def decodeOne (b0 : Nat) (t : QByteArray) : Option (Nat × Nat) :=
  if b0 < 0x80 then some (b0, 0)
  else if 0xC2 ≤ b0 && b0 < 0xE0 then
    match t with
    | b1 :: _ => if isCont b1 then some ((b0 - 0xC0) * 64 + (b1 - 0x80), 1) else none
    | _ => none
  else if 0xE0 ≤ b0 && b0 < 0xF0 then
    match t with
    | b1 :: b2 :: _ =>
      let cp := (b0 - 0xE0) * 4096 + (b1 - 0x80) * 64 + (b2 - 0x80)
      if isCont b1 && isCont b2 && 0x800 ≤ cp && !(0xD800 ≤ cp && cp < 0xE000) then some (cp, 2)
      else none
    | _ => none
  else if 0xF0 ≤ b0 && b0 < 0xF5 then
    match t with
    | b1 :: b2 :: b3 :: _ =>
      let cp := (b0 - 0xF0) * 262144 + (b1 - 0x80) * 4096 + (b2 - 0x80) * 64 + (b3 - 0x80)
      if isCont b1 && isCont b2 && isCont b3 && 0x10000 ≤ cp && cp < 0x110000 then some (cp, 3)
      else none
    | _ => none
  else none

/-- The decoding loop of `QString::fromUtf8`: a malformed byte becomes
U+FFFD and decoding resumes at the next byte.  The first argument counts the
continuation bytes still to be skipped. -/
def fromUtf8Aux : Nat → QByteArray → QString
  | _, [] => []
  | skip + 1, _ :: t => fromUtf8Aux skip t
  | 0, b0 :: t =>
    match decodeOne b0 t with
    | some (cp, n) => utf16 cp ++ fromUtf8Aux n t
    | none => 0xFFFD :: fromUtf8Aux 0 t

/-- Model of `QString::fromUtf8(const QByteArray &)` (Qt library, modelled): standard
UTF-8 decoding to UTF-16, U+FFFD for malformed input, a leading byte order mark
skipped. -/
def fromUtf8 (bytes : QByteArray) : QString :=
  match bytes with
  | 0xEF :: 0xBB :: 0xBF :: rest => fromUtf8Aux 0 rest
  | _ => fromUtf8Aux 0 bytes

/-- Model of `QString(c).toUtf8()` for a single code unit `c ≥ 128`: two or three
bytes, and `?` for a lone surrogate, which has no UTF-8 encoding. -/
def toUtf8Char (c : Nat) : QByteArray :=
  if c < 0x80 then [c]
  else if c < 0x800 then [0xC0 + c / 64, 0x80 + c % 64]
  else if 0xD800 ≤ c && c < 0xE000 then [63]
  else [0xE0 + c / 4096 % 16, 0x80 + c / 64 % 64, 0x80 + c % 64]

/-! ## Escape decoder (`GitManager::decodeOctalEscapes`) -/

/-- A character in `'0'..'7'`. -/
def isOctalDigit (c : Nat) : Bool := 48 ≤ c && c ≤ 55

/-- The test `octalPattern.match(str).hasMatch()` for the pattern
`\\[0-7]{3}`: a backslash followed by three octal digits occurs in `str`. -/
def hasOctalEscape : QString → Bool
  | [] => false
  | c :: t =>
    (c == chBackslash && 3 ≤ t.length && (t.take 3).all isOctalDigit) || hasOctalEscape t

/-- Model of `octalStr.toInt(&ok, 8)` on three octal digits. -/
def octalValue (ds : QString) : Nat :=
  ds.foldl (fun acc d => acc * 8 + (d - 48)) 0

/-- The byte-by-byte loop of `decodeOctalEscapes`; the first argument is the
number of characters the loop index still has to move past (`i += 3`, `i++`). -/
def decodeLoop : Nat → QString → QByteArray
  | _, [] => []
  | skip + 1, _ :: t => decodeLoop skip t
  | 0, c :: t =>
    if c == chBackslash && !t.isEmpty then
      let next := t.headD 0
      if isOctalDigit next && 3 ≤ t.length && (t.take 3).all isOctalDigit then
        (octalValue (t.take 3) % 256) :: decodeLoop 3 t
      else if next == 110 then 10 :: decodeLoop 1 t
      else if next == 116 then 9 :: decodeLoop 1 t
      else if next == 114 then 13 :: decodeLoop 1 t
      else if next == chQuote then 34 :: decodeLoop 1 t
      else if next == chBackslash then 92 :: decodeLoop 1 t
      else 92 :: toLatin1 next :: decodeLoop 1 t
    else if c < 128 then c :: decodeLoop 0 t
    else toUtf8Char c ++ decodeLoop 0 t

/-- The quote stripping at the head of `decodeOctalEscapes`:
`str.mid(1, str.length() - 2)` when `str` starts and ends with `"`. -/
def stripQuotes (str : QString) : QString :=
  if startsWithChar str chQuote && endsWithChar str chQuote then
    (str.drop 1).take (str.length - 2)
  else str

/-- The five replacements of the path without octal escapes. -/
def simpleEscapes (str : QString) : QString :=
  let s1 := replace str [92, 110] [10]
  let s2 := replace s1 [92, 116] [9]
  let s3 := replace s2 [92, 114] [13]
  let s4 := replace s3 [92, 34] [34]
  replace s4 [92, 92] [92]

/-- Model of `GitManager::decodeOctalEscapes`. -/
def decodeOctalEscapes (input : QString) : QString :=
  let str := stripQuotes input
  if !hasOctalEscape str then simpleEscapes str
  else fromUtf8 (decodeLoop 0 str)

/-- A byte written as the escape `\NNN`, three octal digits. -/
def octalEscape (b : Nat) : QString :=
  [chBackslash, 48 + b / 64 % 8, 48 + b / 8 % 8, 48 + b % 8]

/-- Every byte of `bs` written as `\NNN`. -/
def octalEscapeAll (bs : QByteArray) : QString :=
  (bs.map octalEscape).flatten

/-- The double-quoted string in which every byte of `bs` is written as `\NNN`. -/
def quoteOctal (bs : QByteArray) : QString :=
  chQuote :: (octalEscapeAll bs ++ [chQuote])

/-! ## Error classifier (`GitManager::translateGitError`) -/

/-- The message of the push-rejection rule for `failed to push some refs`. -/
def msgPushFailed : QString := qs "推送失败：远程仓库有更新，请先拉取再推送"

/-- The message of the rule for `Could not resolve host`. -/
def msgResolveHost : QString := qs "网络错误：无法解析主机名，请检查网络连接"

/-- The text put before an unclassified `fatal:` / `error:` text. -/
def msgGitError : QString := qs "Git错误："

/-- Model of `GitManager::translateGitError`: ordered substring rules, the first rule
that matches decides. -/
def translateGitError (error : QString) : QString :=
  if contains error (qs "unmerged files") || contains error (qs "MERGE_HEAD exists") then
    qs "有未完成的合并：请先提交合并结果，或点击工具栏的「取消合并」按钮"
  else if contains error (qs "unfinished merge") || contains error (qs "conclude your merge") then
    qs "有未完成的合并：请先提交或取消当前合并"
  else if contains error (qs "failed to push some refs") then
    msgPushFailed
  else if contains error
      (qs "Updates were rejected because the tip of your current branch is behind") then
    qs "推送被拒绝：本地分支落后于远程分支，请先拉取更新"
  else if contains error (qs "Updates were rejected because the remote contains work") then
    qs "推送被拒绝：远程仓库包含本地没有的提交，请先拉取"
  else if contains error (qs "non-fast-forward") then
    qs "非快进推送被拒绝：请先拉取远程更新，或使用强制推送"
  else if contains error (qs "Could not resolve host") then
    msgResolveHost
  else if contains error (qs "Connection refused")
      || contains error (qs "Connection timed out") then
    qs "连接失败：服务器拒绝连接或连接超时"
  else if contains error (qs "fatal: unable to access") then
    qs "无法访问远程仓库：请检查网络或仓库地址"
  else if contains error (qs "Permission denied")
      || contains error (qs "Authentication failed") then
    qs "认证失败：请检查用户名和密码/令牌是否正确"
  else if contains error (qs "CONFLICT") || contains error (qs "Automatic merge failed") then
    qs "合并冲突：请手动解决冲突后再提交"
  else if contains error (qs "Please commit your changes or stash them") then
    qs "有未提交的更改：请先提交或暂存当前更改"
  else if contains error (qs "Your local changes would be overwritten") then
    qs "本地更改会被覆盖：请先提交或暂存当前更改"
  else if contains error (qs "File size limit") || contains error (qs "this exceeds")
      || contains error (qs "large file") then
    qs "文件过大：超过平台限制（Gitee限制100MB），请清理大文件"
  else if contains error (qs "RPC failed") || contains error (qs "curl") then
    qs "传输失败：文件可能过大或网络不稳定，请重试"
  else if contains error (qs "branch") && contains error (qs "already exists") then
    qs "分支已存在：该分支名称已被使用"
  else if contains error (qs "not a valid branch name") then
    qs "无效的分支名：分支名称格式不正确"
  else if contains error (qs "Cannot delete branch") && contains error (qs "checked out") then
    qs "无法删除分支：不能删除当前所在的分支"
  else if contains error (qs "not a git repository") then
    qs "不是Git仓库：当前目录未初始化为Git仓库"
  else if contains error (qs "repository not found")
      || contains error (qs "does not exist") then
    qs "仓库不存在：请检查仓库地址是否正确"
  else if contains error (qs "destination path") && contains error (qs "already exists") then
    qs "目标路径已存在：请选择其他位置或删除现有文件夹"
  else if contains error (qs "fatal:") || contains error (qs "error:") then
    msgGitError ++ error
  else error

/-- The substrings of the unfinished-merge rules, which precede the push rules. -/
def mergePatterns : List QString :=
  [qs "unmerged files", qs "MERGE_HEAD exists", qs "unfinished merge",
   qs "conclude your merge"]

/-- The substrings of the rules that precede the `Could not resolve host`
rule: the unfinished-merge rules and the push rules. -/
def beforeResolveHostPatterns : List QString :=
  mergePatterns ++
  [qs "failed to push some refs",
   qs "Updates were rejected because the tip of your current branch is behind",
   qs "Updates were rejected because the remote contains work", qs "non-fast-forward"]

/-! ## Status parser (`GitManager::parseStatusAsync`) -/

/-- What a finished `QProcess` reports: exit code and the two output streams. -/
structure ProcResult where
  exitCode : Int
  stdout : QByteArray
  stderr : QByteArray
  deriving DecidableEq, Repr

/-- What the code takes from its surroundings: the legacy decoding
`QString::fromLocal8Bit`, the `QFileInfo` query of a path (`none` when the file
does not exist, else its size), `GitManager::formatFileSize` (its
floating-point formatting is not modelled), the outcome of a git command run
to completion in a working directory, `QUrl::fromPercentEncoding`,
`QDir::toNativeSeparators`, the directories that
`watchDirectoryRecursively` finds below a root, and the text of a file read
through `QTextStream` (`none` when it cannot be opened). -/
structure Platform where
  fromLocal8Bit : QByteArray → QString
  fileSize : QString → Option Nat
  formatFileSize : Nat → QString
  git : QString → List QString → ProcResult
  fromPercentEncoding : QString → QString
  toNativeSeparators : QString → QString
  watchDirectoryRecursively : QString → List QString
  readTextFile : QString → Option QString

/-- One entry of a file collection: the `QVariantMap` with the keys `path`,
`name`, `status`, `size`, `sizeStr` and `staged` (`none`: key not set). -/
structure FileInfo where
  path : QString
  name : QString
  status : QString
  size : Option Nat
  sizeStr : Option QString
  staged : Bool
  deriving DecidableEq, Repr

/-- A byte string of an ASCII literal. -/
def asciiBytes (s : String) : QByteArray :=
  s.toList.map (fun c => c.toNat)

/-- The C `isspace` test used by `QByteArray::trimmed`. -/
def isSpaceByte (b : Nat) : Bool :=
  b == 32 || (9 ≤ b && b ≤ 13)

/-- Model of `QByteArray::trimmed`. -/
def trimmedBytes (bytes : QByteArray) : QByteArray :=
  ((bytes.dropWhile isSpaceByte).reverse.dropWhile isSpaceByte).reverse

/-- The test `rawOutput.isEmpty() || rawOutput.trimmed().isEmpty()`. -/
def isBlankOutput (rawOutput : QByteArray) : Bool :=
  rawOutput.isEmpty || (trimmedBytes rawOutput).isEmpty

/-- The decoding policy: UTF-8 first, the local 8-bit encoding when the
result contains U+FFFD. -/
def decodeOutput (env : Platform) (raw : QByteArray) : QString :=
  let output := fromUtf8 raw
  if output.contains 0xFFFD then env.fromLocal8Bit raw else output

/-- The display name: `filePath.section('/', -1)` when the path contains `/`. -/
def fileNameOf (filePath : QString) : QString :=
  if filePath.contains 47 then sectionLast filePath [47] else filePath

/-- The status chain of `parseStatusAsync` on the two status characters (as
`char`, after `toLatin1`). -/
def statusOf (indexStatus workTreeStatus : Nat) : QString :=
  if indexStatus == 65 || workTreeStatus == 65 then qs "added"
  else if indexStatus == 77 || workTreeStatus == 77 then qs "modified"
  else if indexStatus == 68 || workTreeStatus == 68 then qs "deleted"
  else if indexStatus == 82 then qs "renamed"
  else if indexStatus == 63 || workTreeStatus == 63 then qs "untracked"
  else qs "modified"

/-- The status chain of the synchronous sibling `parseStatus` (`statusType`). -/
def statusTypeOf (indexStatus workTreeStatus : Nat) : QString :=
  if indexStatus == 65 || workTreeStatus == 63 then qs "added"
  else if indexStatus == 68 || workTreeStatus == 68 then qs "deleted"
  else if indexStatus == 82 then qs "renamed"
  else qs "modified"

/-- The `fileInfo` map that `parseStatusAsync` builds for a status line with
status characters `x`, `y` and path field `pathField` (`line.mid(3)`), before
the `staged` key is set. -/
def statusFileInfo (env : Platform) (repoPath : QString) (x y : Nat) (pathField : QString)
    ( staged : Bool) : FileInfo :=
  let indexStatus := toLatin1 x
  let workTreeStatus := toLatin1 y
  let filePath0 :=
    if contains pathField (qs " -> ") then sectionLast pathField (qs " -> ") else pathField
  let filePath := decodeOctalEscapes filePath0
  let fileName := fileNameOf filePath
  let status := statusOf indexStatus workTreeStatus
  let fileInfoObj := env.fileSize (repoPath ++ qs "/" ++ filePath)
  if fileInfoObj.isSome && status != qs "deleted" then
    { path := filePath, name := fileName, status := status, size := some (fileInfoObj.getD 0),
      sizeStr := some (env.formatFileSize (fileInfoObj.getD 0)), staged := staged }
  else
    { path := filePath, name := fileName, status := status, size := some 0,
      sizeStr := some (if status == qs "deleted" then qs "已删除" else qs "0 B"),
      staged := staged }

/-- The loop of `parseStatusAsync` over the status lines; the accumulator is
`(changedFiles, stagedFiles)`. -/
def statusLoop (env : Platform) (repoPath : QString) :
    List QString → List FileInfo × List FileInfo → List FileInfo × List FileInfo
  | [], acc => acc
  | line :: rest, (changedFiles, stagedFiles) =>
    match line with
    | x :: y :: _ :: pathField =>
      let stagedFiles1 :=
        if toLatin1 x != 32 && toLatin1 x != 63 then
          stagedFiles ++ [statusFileInfo env repoPath x y pathField true]
        else stagedFiles
      let changedFiles1 :=
        if toLatin1 y != 32 then
          changedFiles ++ [statusFileInfo env repoPath x y pathField false]
        else changedFiles
      statusLoop env repoPath rest (changedFiles1, stagedFiles1)
    | _ => statusLoop env repoPath rest (changedFiles, stagedFiles)

/-- The status lines the parser iterates over:
`output.split('\\n', Qt::SkipEmptyParts)` of the decoded output. -/
def statusLines (env : Platform) (rawOutput : QByteArray) : List QString :=
  splitSkipEmpty (decodeOutput env rawOutput) [10]

/-- The entry of the fallback for an untracked path listed by `git ls-files`. -/
def untrackedFileInfo (env : Platform) (repoPath filePath : QString) : FileInfo :=
  match env.fileSize (repoPath ++ qs "/" ++ filePath) with
  | some size =>
    { path := filePath, name := fileNameOf filePath, status := qs "added", size := some size,
      sizeStr := some (env.formatFileSize size), staged := false }
  | none =>
    { path := filePath, name := fileNameOf filePath, status := qs "added", size := some 0,
      sizeStr := some (qs "0 B"), staged := false }

/-- The worker of `parseStatusAsync`, from the bytes it reads from
`git status --porcelain=v1 -uall` and (when the status is blank) from
`git ls-files --others --exclude-standard`: the pair
`(changedFiles, stagedFiles)`. -/
def parseStatusOutput (env : Platform) (repoPath : QString) (rawOutput untrackedOutput : QByteArray) :
    List FileInfo × List FileInfo :=
  if isBlankOutput rawOutput then
    if !untrackedOutput.isEmpty then
      let untrackedFiles := splitSkipEmpty (decodeOutput env untrackedOutput) [10]
      ((untrackedFiles.filter (fun f => !f.isEmpty)).map (untrackedFileInfo env repoPath), [])
    else ([], [])
  else
    statusLoop env repoPath (statusLines env rawOutput) ([], [])

/-- A platform for the concrete examples: Latin-1 as the local encoding, one
file `/r/a.txt` of 12 bytes on disk, every size formatted in bytes, every git
command succeeding with no output, paths left as they are, no subdirectory. -/
def examplePlatform : Platform :=
  { fromLocal8Bit := fun bytes => bytes
    fileSize := fun p => if p == qs "/r/a.txt" then some 12 else none
    formatFileSize := fun n => (Nat.toDigits 10 n).map (fun c => c.toNat) ++ qs " B"
    git := fun _ _ => { exitCode := 0, stdout := [], stderr := [] }
    fromPercentEncoding := fun p => p
    toNativeSeparators := fun p => p
    watchDirectoryRecursively := fun _ => []
    readTextFile := fun _ => none }

/-- The index character of a status line (`line[0]`). -/
def indexChar (line : QString) : Nat := line.headD 0

/-- The worktree character of a status line (`line[1]`). -/
def workTreeChar (line : QString) : Nat := (line.drop 1).headD 0

/-- The entry a status line contributes, with the given `staged` flag. -/
def lineFileInfo (env : Platform) (repoPath : QString) ( staged : Bool) (line : QString) :
    FileInfo :=
  statusFileInfo env repoPath (indexChar line) (workTreeChar line) (line.drop 3) staged

/-- A status line contributes to the staged collection: it has the two status
characters and the separator, and its index character is neither blank nor `?`. -/
def contributesStaged (line : QString) : Bool :=
  3 ≤ line.length && indexChar line != 32 && indexChar line != 63

/-- A status line contributes to the unstaged collection: it has the two
status characters and the separator, and its worktree character is not blank. -/
def contributesUnstaged (line : QString) : Bool :=
  3 ≤ line.length && workTreeChar line != 32

/-! ## The manager state, signals and the async executor -/

/-- Model of `QProcess::ProcessState`. -/
inductive ProcessState where
  | NotRunning
  | Starting
  | Running
  deriving DecidableEq, Repr

/-- The signals of `GitManager` that the modelled code emits. -/
inductive Signal where
  | repoPathChanged
  | currentBranchChanged
  | branchesChanged
  | changedFilesChanged
  | stagedFilesChanged
  | isLoadingChanged
  | lastErrorChanged
  | isValidRepoChanged
  | userInfoChanged
  | operationSuccess (message : QString)
  | operationFailed (message : QString)
  | recentReposChanged
  | remoteFilesNeedRefresh
  | lastCommitTimeChanged
  deriving DecidableEq, Repr

/-- A git subprocess: `process.setWorkingDirectory(dir); process.start("git", args)`. -/
structure GitCommand where
  workingDirectory : QString
  args : List QString
  deriving DecidableEq, Repr

/-- Work handed to the thread pool (`QtConcurrent::run`) or to a single-shot
timer, to run after the current handler returns. -/
inductive Task where
  | refreshWorker (repoPath : QString)
  | stageFileWorker (repoPath filePath : QString) (fileExists : Bool)
  | bulkModeTimer
  | parseStatusWorker (repoPath : QString) (showLoading : Bool)
  | loadingTimeout
  | watcherSetupTimer
  | watcherCheckTimer (path : QString)
  | unstageFileWorker (repoPath filePath : QString)
  deriving DecidableEq, Repr

/-- The members of `GitManager` (names as in `gitmanager.h`) followed by the
modelled surroundings: the state and current command of `m_asyncProcess`,
whether the single-shot debounce timer `m_refreshTimer` is running, the
paths held by `m_watcher`, the stored recent-repository list, and three logs in
order of occurrence: the signals emitted, the git processes started, the tasks
scheduled. -/
structure GitManager where
  m_repoPath : QString
  m_currentBranch : QString
  m_branches : List QString
  m_localBranches : List QString
  m_remoteBranches : List QString
  m_changedFiles : List FileInfo
  m_stagedFiles : List FileInfo
  m_userName : QString
  m_userEmail : QString
  m_isLoading : Bool
  m_lastError : QString
  m_bulkOperationMode : Bool
  m_isValidRepo : Bool
  m_pendingRefresh : Bool
  m_asyncSuccessMsg : QString
  m_asyncErrorPrefix : QString
  m_cloneTargetPath : QString
  m_settingUpWatcher : Bool
  asyncState : ProcessState
  asyncCommand : Option GitCommand
  refreshTimerActive : Bool
  watched : List QString
  recentRepos : List QString
  emitted : List Signal
  started : List GitCommand
  tasks : List Task
  deriving DecidableEq, Repr

/-- Append one signal to the log. -/
def emit (sig : Signal) (s : GitManager) : GitManager :=
  { s with emitted := s.emitted ++ [sig] }

/-- The two operation notifications. -/
def isNotification : Signal → Bool
  | Signal.operationSuccess _ => true
  | Signal.operationFailed _ => true
  | _ => false

/-- The operation notifications emitted so far, in order. -/
def notifications (s : GitManager) : List Signal :=
  s.emitted.filter isNotification

/-- Model of `GitManager::setLoading`. -/
def setLoading (loading : Bool) (s : GitManager) : GitManager :=
  if s.m_isLoading != loading then
    emit Signal.isLoadingChanged { s with m_isLoading := loading }
  else s

/-- Model of `GitManager::setError`. -/
def setError (error : QString) (s : GitManager) : GitManager :=
  let translatedError := translateGitError error
  let s1 := emit Signal.lastErrorChanged { s with m_lastError := translatedError }
  if !translatedError.isEmpty then emit (Signal.operationFailed translatedError) s1
  else s1

/-- Model of `GitManager::setBulkOperationMode`. -/
def setBulkOperationMode (enabled : Bool) (s : GitManager) : GitManager :=
  if s.m_bulkOperationMode != enabled then
    let s1 := { s with m_bulkOperationMode := enabled }
    if !enabled then { s1 with tasks := s1.tasks ++ [Task.bulkModeTimer] }
    else s1
  else s

/-- Model of `GitManager::refresh` up to the hand-over to the worker thread. -/
def refresh (s : GitManager) : GitManager :=
  if s.m_repoPath.isEmpty then
    emit Signal.isValidRepoChanged { s with m_isValidRepo := false }
  else
    let s1 := setLoading true s
    let s2 := setError [] s1
    { s2 with tasks := s2.tasks ++ [Task.refreshWorker s2.m_repoPath] }

/-- The busy error of the async executor. -/
def msgBusy : QString := qs "有操作正在进行中，请稍候"

/-- Model of `GitManager::runAsyncGitCommand`. -/
def runAsyncGitCommand (args : List QString) (successMsg errorPrefix : QString)
    (s : GitManager) : GitManager :=
  if s.m_repoPath.isEmpty then
    setError (qs "未选择仓库") (setLoading false s)
  else if s.asyncState != ProcessState.NotRunning then
    setError msgBusy (setLoading false s)
  else
    { s with
      m_asyncSuccessMsg := successMsg
      m_asyncErrorPrefix := errorPrefix
      asyncState := ProcessState.Starting
      asyncCommand := some { workingDirectory := s.m_repoPath, args := args }
      started := s.started ++ [{ workingDirectory := s.m_repoPath, args := args }] }

/-- Model of `GitManager::pull`. -/
def pull (s : GitManager) : GitManager :=
  runAsyncGitCommand [qs "pull"] (qs "拉取成功") (qs "拉取失败") (setLoading true s)

/-- Model of `GitManager::forcePush`. -/
def forcePush (s : GitManager) : GitManager :=
  if s.m_repoPath.isEmpty then s
  else
    let s1 := setLoading true s
    runAsyncGitCommand [qs "push", qs "--force", qs "origin", s1.m_currentBranch]
      (qs "强制推送成功") (qs "强制推送失败") s1

/-- Model of `QChar::isSpace`: the separator characters and U+0009..U+000D, U+0085. -/
def isSpaceChar (c : Nat) : Bool :=
  c == 32 || (9 ≤ c && c ≤ 13) || c == 0x85 || c == 0xA0 || c == 0x1680
    || (0x2000 ≤ c && c ≤ 0x200A) || c == 0x2028 || c == 0x2029 || c == 0x202F
    || c == 0x205F || c == 0x3000

/-- Model of `QString::trimmed`. -/
def trimmed (str : QString) : QString :=
  ((str.dropWhile isSpaceChar).reverse.dropWhile isSpaceChar).reverse

/-- Model of `QString::number(int)`. -/
def numberInt (n : Int) : QString :=
  if n < 0 then 45 :: (Nat.toDigits 10 n.natAbs).map (fun c => c.toNat)
  else (Nat.toDigits 10 n.natAbs).map (fun c => c.toNat)

/-- The validation error of `commit` for a blank message. -/
def msgEmptyCommitMessage : QString := qs "提交信息不能为空"

/-- The validation error of `commit` for an empty staged collection. -/
def msgNothingStaged : QString := qs "没有已暂存的文件，请先暂存要提交的文件"

/-- The error asking for the git identity (`user.name`, `user.email`). -/
def msgConfigureUser : QString :=
  qs "请先配置 Git 用户信息:\ngit config user.name " ++ [chQuote] ++ qs "你的名字" ++ [chQuote]
    ++ qs "\ngit config user.email " ++ [chQuote] ++ qs "你的邮箱" ++ [chQuote]

/-- Model of `GitManager::commit`. -/
def commit (env : Platform) (message : QString) (s : GitManager) : GitManager :=
  if (trimmed message).isEmpty then setError msgEmptyCommitMessage s
  else if s.m_stagedFiles.isEmpty then setError msgNothingStaged s
  else
    let s1 := setLoading true s
    let cmd : GitCommand :=
      { workingDirectory := s1.m_repoPath, args := [qs "commit", qs "-m", message] }
    let result := env.git cmd.workingDirectory cmd.args
    let s2 := { s1 with started := s1.started ++ [cmd] }
    let errorOutput := trimmed (fromUtf8 result.stderr)
    let output := trimmed (fromUtf8 result.stdout)
    let exitCode := result.exitCode
    if exitCode != 0 then
      let s3 := setLoading false s2
      if contains errorOutput (qs "user.email") || contains errorOutput (qs "user.name")
          || contains errorOutput (qs "Please tell me who you are") then
        setError msgConfigureUser s3
      else if contains errorOutput (qs "nothing to commit")
          || contains output (qs "nothing to commit") then
        setError (qs "没有需要提交的更改") s3
      else if errorOutput.isEmpty && output.isEmpty then
        setError (qs "提交失败 (exitCode: " ++ numberInt exitCode ++ qs ")") s3
      else
        setError (qs "提交失败: " ++ (if errorOutput.isEmpty then output else errorOutput)) s3
    else
      refresh (emit (Signal.operationSuccess (qs "提交成功")) (setLoading false s2))

/-- Model of `GitManager::stageFile` up to the hand-over to the worker thread.  The
worker starts `git add -- filePath` (`git add -u -- filePath` when the file
does not exist) at once; that first process is logged with the task. -/
def stageFile (env : Platform) (filePath : QString) (s : GitManager) : GitManager :=
  if s.m_repoPath.isEmpty || filePath.isEmpty then s
  else
    let s1 := setLoading true s
    let repoPath := s1.m_repoPath
    let fullPath := repoPath ++ qs "/" ++ filePath
    let fileExists := (env.fileSize fullPath).isSome
    let cmd : GitCommand :=
      { workingDirectory := repoPath
        args := if fileExists then [qs "add", qs "--", filePath]
                else [qs "add", qs "-u", qs "--", filePath] }
    { s1 with
      tasks := s1.tasks ++ [Task.stageFileWorker repoPath filePath fileExists]
      started := s1.started ++ [cmd] }

/-- Model of `GitManager::setupFileWatcher`: the watch set is rebuilt from the
repository root, its `.git/index` when it exists, and the directories found by
`watchDirectoryRecursively`; the guard flag is set during the call and reset
at its end. -/
def setupFileWatcher (env : Platform) (s : GitManager) : GitManager :=
  if s.m_settingUpWatcher then s
  else if s.m_repoPath.isEmpty then
    { s with watched := [], m_settingUpWatcher := false }
  else
    let gitIndex := s.m_repoPath ++ qs "/.git/index"
    { s with
      watched := [s.m_repoPath] ++ (if (env.fileSize gitIndex).isSome then [gitIndex] else [])
        ++ env.watchDirectoryRecursively s.m_repoPath
      m_settingUpWatcher := false }

/-- Model of `GitManager::addRecentRepo`. -/
def addRecentRepo (path : QString) (s : GitManager) : GitManager :=
  if path.isEmpty then s
  else
    let repos := path :: s.recentRepos.filter (fun r => r != path)
    emit Signal.recentReposChanged { s with recentRepos := repos.take 10 }

/-- The path clean-up at the head of `setRepoPath`: the `file:///` prefix is
removed, the path is percent-decoded and put in native form, trailing `/` and
`\` are chopped. -/
def cleanRepoPath (env : Platform) (path : QString) : QString :=
  let p0 := if (qs "file:///").isPrefixOf path then path.drop 8 else path
  let p1 := env.toNativeSeparators (env.fromPercentEncoding p0)
  (p1.reverse.dropWhile (fun c => c == 47 || c == chBackslash)).reverse

/-- Model of `GitManager::setRepoPath`. -/
def setRepoPath (env : Platform) (path : QString) (s : GitManager) : GitManager :=
  let cleanPath := cleanRepoPath env path
  if s.m_repoPath != cleanPath then
    let s1 := emit Signal.repoPathChanged { s with m_repoPath := cleanPath }
    let s2 := setupFileWatcher env s1
    let s3 := refresh s2
    if !cleanPath.isEmpty && s3.m_isValidRepo then addRecentRepo cleanPath s3
    else if cleanPath.isEmpty then emit Signal.recentReposChanged s3
    else s3
  else s

/-- The text a failed async operation reports: standard error, or standard
output when standard error is empty (both decoded and trimmed). -/
def asyncErrorText (stderrBytes stdoutBytes : QByteArray) : QString :=
  let errorOutput := trimmed (fromUtf8 stderrBytes)
  let output := trimmed (fromUtf8 stdoutBytes)
  if errorOutput.isEmpty then output else errorOutput

/-- The handler connected to `m_asyncProcess`'s `finished` signal, for the
exit code and the bytes the process wrote; the process is `NotRunning` when
the signal arrives. -/
def onAsyncFinished (env : Platform) (exitCode : Int) (stderrBytes stdoutBytes : QByteArray)
    (s : GitManager) : GitManager :=
  let s0 := { s with asyncState := ProcessState.NotRunning }
  let s1 := setLoading false s0
  let s2 := if s1.m_bulkOperationMode then setBulkOperationMode false s1 else s1
  let s3 :=
    if exitCode != 0 then
      setError (s2.m_asyncErrorPrefix ++ qs ": " ++ asyncErrorText stderrBytes stdoutBytes) s2
    else
      let s4 :=
        if s2.m_asyncSuccessMsg == qs "克隆成功" && !s2.m_cloneTargetPath.isEmpty then
          { setRepoPath env s2.m_cloneTargetPath s2 with m_cloneTargetPath := [] }
        else s2
      let s5 := emit (Signal.operationSuccess s4.m_asyncSuccessMsg) s4
      if contains s5.m_asyncSuccessMsg (qs "已保存并推送")
          || contains s5.m_asyncSuccessMsg (qs "已删除")
          || contains s5.m_asyncSuccessMsg (qs "已重命名") then
        emit Signal.remoteFilesNeedRefresh s5
      else s5
  refresh s3

/-- A state for the concrete examples: repository `/r` on branch `main`, one
staged entry, and a push in flight on the async process. -/
def busyExample : GitManager :=
  { m_repoPath := qs "/r"
    m_currentBranch := qs "main"
    m_branches := [qs "main"]
    m_localBranches := [qs "main"]
    m_remoteBranches := []
    m_changedFiles := []
    m_stagedFiles := [{ path := qs "a.txt", name := qs "a.txt", status := qs "added",
                        size := some 12, sizeStr := some (qs "12 B"), staged := true }]
    m_userName := qs "dev"
    m_userEmail := qs "dev@example.com"
    m_isLoading := true
    m_lastError := []
    m_bulkOperationMode := false
    m_isValidRepo := true
    m_pendingRefresh := false
    m_asyncSuccessMsg := qs "推送成功"
    m_asyncErrorPrefix := qs "推送失败"
    m_cloneTargetPath := []
    m_settingUpWatcher := false
    asyncState := ProcessState.Running
    asyncCommand := some { workingDirectory := qs "/r",
                           args := [qs "push", qs "-u", qs "origin", qs "main"] }
    refreshTimerActive := false
    watched := [qs "/r"]
    recentRepos := [qs "/r"]
    emitted := []
    started := [{ workingDirectory := qs "/r",
                  args := [qs "push", qs "-u", qs "origin", qs "main"] }]
    tasks := [] }

/-! ## Watcher events, debounce timer and the completions of refresh -/

/-- Model of `GitManager::parseStatusAsync` up to the hand-over to the worker
thread: with `showLoading` the loading flag is set and the 10 s guard timer is
armed; the worker is queued with the repository path of the moment. -/
def parseStatusAsync (showLoading : Bool) (s : GitManager) : GitManager :=
  let s1 :=
    if showLoading then
      let s0 := setLoading true s
      { s0 with tasks := s0.tasks ++ [Task.loadingTimeout] }
    else s
  { s1 with tasks := s1.tasks ++ [Task.parseStatusWorker s.m_repoPath showLoading] }

/-- The main-thread completion of `parseStatusAsync`, for the two lists the
worker computed. -/
def onParseStatusFinished (changedFiles stagedFiles : List FileInfo) (showLoading : Bool)
    (s : GitManager) : GitManager :=
  let s1 := { s with m_changedFiles := changedFiles, m_stagedFiles := stagedFiles }
  let s2 := emit Signal.stagedFilesChanged (emit Signal.changedFilesChanged s1)
  if showLoading then setLoading false s2 else s2

/-- The 10 s guard timer armed by `parseStatusAsync(true)`. -/
def onLoadingTimeout (s : GitManager) : GitManager :=
  if s.m_isLoading then setLoading false s else s

/-- What the worker of `refresh` hands to its main-thread completion. -/
structure RefreshResult where
  isValidRepo : Bool
  currentBranch : QString
  userName : QString
  userEmail : QString
  localBranches : List QString
  remoteBranches : List QString
  deriving DecidableEq, Repr

/-- The error of a refresh that finds no repository. -/
def msgInvalidRepo : QString := qs "不是有效的 Git 仓库"

/-- The main-thread completion of `refresh`. -/
def onRefreshFinished (r : RefreshResult) (s : GitManager) : GitManager :=
  let s1 := emit Signal.isValidRepoChanged { s with m_isValidRepo := r.isValidRepo }
  if !r.isValidRepo then
    setLoading false (setError msgInvalidRepo s1)
  else
    let s2 :=
      if s1.m_currentBranch != r.currentBranch then
        emit Signal.currentBranchChanged { s1 with m_currentBranch := r.currentBranch }
      else s1
    let s3 :=
      if s2.m_userName != r.userName || s2.m_userEmail != r.userEmail then
        emit Signal.userInfoChanged { s2 with m_userName := r.userName, m_userEmail := r.userEmail }
      else s2
    let s4 := emit Signal.branchesChanged
      { s3 with
        m_localBranches := r.localBranches
        m_remoteBranches := r.remoteBranches
        m_branches := r.localBranches ++ r.remoteBranches }
    emit Signal.lastCommitTimeChanged (parseStatusAsync true s4)

/-- The handler of `QFileSystemWatcher::fileChanged`. -/
def onFileChanged (_path : QString) (s : GitManager) : GitManager :=
  { s with m_pendingRefresh := true, refreshTimerActive := true }

/-- The handler of `QFileSystemWatcher::directoryChanged`; the two delayed
re-derivations of the watch set are queued as timers. -/
def onDirectoryChanged (path : QString) (s : GitManager) : GitManager :=
  if s.m_settingUpWatcher || s.m_bulkOperationMode then s
  else
    let s1 :=
      if !s.refreshTimerActive then { s with m_pendingRefresh := true, refreshTimerActive := true }
      else s
    if path == s1.m_repoPath && !s1.m_settingUpWatcher then
      { s1 with tasks := s1.tasks ++ [Task.watcherSetupTimer] }
    else if (s1.m_repoPath ++ qs "/").isPrefixOf path && !s1.m_settingUpWatcher then
      { s1 with tasks := s1.tasks ++ [Task.watcherCheckTimer path] }
    else s1

/-- The handler of `m_refreshTimer`'s `timeout` signal. -/
def onRefreshTimeout (s : GitManager) : GitManager :=
  if s.m_pendingRefresh && !s.m_isLoading && !s.m_settingUpWatcher then
    parseStatusAsync false { s with m_pendingRefresh := false }
  else s

/-- The single-shot debounce timer reaching its interval: it fires only when
it is running, stops, and its handler runs. -/
def fireRefreshTimer (s : GitManager) : GitManager :=
  if s.refreshTimerActive then onRefreshTimeout { s with refreshTimerActive := false }
  else s

/-- The completion of `setupFileWatcherAsync`: the watch set is replaced and
the setting-up guard is cleared. -/
def onWatcherSetupFinished (pathsToWatch : List QString) (s : GitManager) : GitManager :=
  { s with watched := pathsToWatch, m_settingUpWatcher := false }

/-- A change event delivered by the watcher. -/
inductive WatchEvent where
  | fileChanged (path : QString)
  | directoryChanged (path : QString)
  deriving DecidableEq, Repr

/-- Dispatch of one change event to its handler. -/
def onWatchEvent (e : WatchEvent) (s : GitManager) : GitManager :=
  match e with
  | WatchEvent.fileChanged path => onFileChanged path s
  | WatchEvent.directoryChanged path => onDirectoryChanged path s

/-- A burst of change events handled in order of arrival. -/
def onWatchEvents (events : List WatchEvent) (s : GitManager) : GitManager :=
  events.foldl (fun st e => onWatchEvent e st) s

/-- The status parses issued so far (`parseStatusAsync` calls), each with its
repository path and its `showLoading` argument. -/
def statusParses (s : GitManager) : List (QString × Bool) :=
  s.tasks.filterMap (fun t =>
    match t with
    | Task.parseStatusWorker repoPath showLoading => some (repoPath, showLoading)
    | _ => none)

/-- The state after construction: no repository selected, nothing running. -/
def initialState : GitManager :=
  { m_repoPath := []
    m_currentBranch := []
    m_branches := []
    m_localBranches := []
    m_remoteBranches := []
    m_changedFiles := []
    m_stagedFiles := []
    m_userName := []
    m_userEmail := []
    m_isLoading := false
    m_lastError := []
    m_bulkOperationMode := false
    m_isValidRepo := false
    m_pendingRefresh := false
    m_asyncSuccessMsg := []
    m_asyncErrorPrefix := []
    m_cloneTargetPath := []
    m_settingUpWatcher := false
    asyncState := ProcessState.NotRunning
    asyncCommand := none
    refreshTimerActive := false
    watched := []
    recentRepos := []
    emitted := []
    started := []
    tasks := [] }

/-- A state for the concrete examples: repository `/r` open and idle (nothing
loading, no guard set, debounce timer stopped). -/
def idleExample : GitManager :=
  { initialState with
    m_repoPath := qs "/r"
    m_currentBranch := qs "main"
    m_branches := [qs "main"]
    m_localBranches := [qs "main"]
    m_isValidRepo := true
    watched := [qs "/r", qs "/r/.git/index"] }

/-- A state for the concrete examples: a refresh of `/r` is in progress
(loading flag set), change events have set the pending flag and started the
debounce timer. -/
def refreshingExample : GitManager :=
  { idleExample with m_isLoading := true, m_pendingRefresh := true, refreshTimerActive := true }

/-- A state for the concrete examples: repository `/r` idle, bulk-operation
mode switched on. -/
def bulkExample : GitManager :=
  { idleExample with m_bulkOperationMode := true }

/-- A state for the concrete examples: repository `/r`, the watcher being set
up by `setupFileWatcherAsync`. -/
def settingUpExample : GitManager :=
  { idleExample with m_settingUpWatcher := true }

/-- A refresh result for the concrete examples: a valid repository on `main`. -/
def validResult : RefreshResult :=
  { isValidRepo := true
    currentBranch := qs "main"
    userName := qs "dev"
    userEmail := qs "dev@example.com"
    localBranches := [qs "main"]
    remoteBranches := [] }

/-- A file entry for the concrete examples. -/
def exampleEntry (path : QString) : FileInfo :=
  { path := path, name := path, status := qs "modified", size := some 0,
    sizeStr := some (qs "0 B"), staged := false }

/-! ## Diff parser (`GitManager::getFileDiff`) -/

/-- One entry of the diff view: the `QVariantMap` with the keys `type`,
`content` and `lineNum`. -/
structure DiffLine where
  type : QString
  content : QString
  lineNum : Int
  deriving DecidableEq, Repr

/-- The value of an `int` (32 bits, two's complement) after an arithmetic
result `v`: `v` itself inside `-2147483648 .. 2147483647`, wrapped around
outside. -/
def wrapInt32 (v : Int) : Int :=
  (v + 2147483648) % 4294967296 - 2147483648

/-- A character in `'0'..'9'` (what `\d` matches). -/
def isDigit (c : Nat) : Bool := 48 ≤ c && c ≤ 57

/-- Model of `QString::toInt()` on a string of decimal digits: the value, or 0
when it does not fit an `int`. -/
def toIntDec (ds : QString) : Nat :=
  let v := ds.foldl (fun acc d => acc * 10 + (d - 48)) 0
  if v ≤ 2147483647 then v else 0

/-- The optional group `(?:,\d+)?` of the hunk pattern: the rest of the text
after the group, or the text itself when the group does not match. -/
def skipCount (s : QString) : QString :=
  match s with
  | 44 :: t => if (t.takeWhile isDigit).isEmpty then s else t.dropWhile isDigit
  | _ => s

/-- The hunk pattern `@@ -(\d+)(?:,\d+)? \+(\d+)(?:,\d+)? @@` matched at the
start of `s`: the two captured digit strings. -/
def matchHunkAt (s : QString) : Option (QString × QString) :=
  if (qs "@@ -").isPrefixOf s then
    let s1 := s.drop 4
    let d1 := s1.takeWhile isDigit
    if d1.isEmpty then none
    else
      let s2 := skipCount (s1.dropWhile isDigit)
      if (qs " +").isPrefixOf s2 then
        let s3 := s2.drop 2
        let d2 := s3.takeWhile isDigit
        if d2.isEmpty then none
        else
          let s4 := skipCount (s3.dropWhile isDigit)
          if (qs " @@").isPrefixOf s4 then some (d1, d2) else none
      else none
  else none

/-- The start numbers `re.match(line)` yields: the leftmost match of the hunk
pattern in the line, its two captures converted with `toInt()`. -/
def hunkStart (line : QString) : Option (Nat × Nat) :=
  match line.tails.findSome? matchHunkAt with
  | some (d1, d2) => some (toIntDec d1, toIntDec d2)
  | none => none

/-- The lines the parser skips as file header. -/
def isDiffHeaderLine (line : QString) : Bool :=
  (qs "diff --git").isPrefixOf line || (qs "index ").isPrefixOf line
    || (qs "---").isPrefixOf line || (qs "+++").isPrefixOf line

/-- The loop of `getFileDiff` over the lines of the diff, from the counters
`oldLineNum` and `newLineNum`.  Both are `int` in the source: an increment
past 2147483647 wraps around to -2147483648. -/
def diffLoop : List QString → Int → Int → List DiffLine
  | [], _, _ => []
  | line :: rest, oldLineNum, newLineNum =>
    if isDiffHeaderLine line then diffLoop rest oldLineNum newLineNum
    else if (qs "@@").isPrefixOf line then
      let entry : DiffLine := { type := qs "header", content := line, lineNum := 0 }
      match hunkStart line with
      | some (a, c) => entry :: diffLoop rest (a : Int) (c : Int)
      | none => entry :: diffLoop rest oldLineNum newLineNum
    else if (qs "-").isPrefixOf line then
      { type := qs "delete", content := line.drop 1, lineNum := oldLineNum }
        :: diffLoop rest (wrapInt32 (oldLineNum + 1)) newLineNum
    else if (qs "+").isPrefixOf line then
      { type := qs "add", content := line.drop 1, lineNum := newLineNum }
        :: diffLoop rest oldLineNum (wrapInt32 (newLineNum + 1))
    else if (qs " ").isPrefixOf line then
      { type := qs "context", content := line.drop 1, lineNum := newLineNum }
        :: diffLoop rest (wrapInt32 (oldLineNum + 1)) (wrapInt32 (newLineNum + 1))
    else diffLoop rest oldLineNum newLineNum

/-- The fallback of `getFileDiff` for a file without diff output: every line
of the file as an `add` entry, numbered `i + 1` from the `int` index `i` of
the source loop. -/
def allLinesAdded : List QString → Int → List DiffLine
  | [], _ => []
  | line :: rest, i =>
    { type := qs "add", content := line, lineNum := wrapInt32 (i + 1) }
      :: allLinesAdded rest (wrapInt32 (i + 1))

/-- Model of `GitManager::getFileDiff`. -/
def getFileDiff (env : Platform) (filePath : QString) ( staged : Bool) (s : GitManager) :
    List DiffLine :=
  if s.m_repoPath.isEmpty || filePath.isEmpty then []
  else
    let args :=
      if staged then [qs "diff", qs "--cached", qs "--", filePath]
      else [qs "diff", qs "--", filePath]
    let output := fromUtf8 (env.git s.m_repoPath args).stdout
    if output.isEmpty then
      if !staged then
        match env.readTextFile (s.m_repoPath ++ qs "/" ++ filePath) with
        | some content => allLinesAdded (split content [10]) 0
        | none => []
      else []
    else diffLoop (split output [10]) 0 0

/-- An entry numbered on the new side: an `add` or a `context` entry. -/
def isNewSide (e : DiffLine) : Bool := e.type == qs "add" || e.type == qs "context"

/-- A `delete` entry. -/
def isDeleteEntry (e : DiffLine) : Bool := e.type == qs "delete"

/-- A line that opens a hunk: not skipped as file header and starting with `@@`. -/
def isHunkHeaderLine (line : QString) : Bool :=
  !isDiffHeaderLine line && (qs "@@").isPrefixOf line

/-- A platform for the concrete examples whose `git diff -- a.txt` prints a diff
with one hunk; everything else as in `examplePlatform`. -/
def diffPlatform : Platform :=
  { examplePlatform with
    git := fun _ args =>
      if args == [qs "diff", qs "--", qs "a.txt"] then
        { exitCode := 0
          stdout := asciiBytes
            "diff --git a/a.txt b/a.txt\nindex 1a2b..3c4d 100644\n--- a/a.txt\n+++ b/a.txt\n@@ -5,4 +5,4 @@ int main()\n-old one\n keep\n-old two\n+new one\n+new two"
          stderr := [] }
      else { exitCode := 0, stdout := [], stderr := [] } }

/-- An entry that advances the old-side counter: a `delete` or a `context`
entry. -/
def isOldSide (e : DiffLine) : Bool := e.type == qs "delete" || e.type == qs "context"

/-- The text of an optional count `,b` of a hunk header. -/
def optCount : Option QString → QString
  | none => []
  | some ds => 44 :: ds

/-- A hunk header `@@ -a[,b] +c[,d] @@tail` written from its digit strings. -/
def hunkHeaderText (a : QString) (b : Option QString) (c : QString) (d : Option QString)
    (tail : QString) : QString :=
  qs "@@ -" ++ (a ++ (optCount b ++ (qs " +" ++ (c ++ (optCount d ++ (qs " @@" ++ tail))))))

/-- A non-empty string of decimal digits. -/
def isNumber (ds : QString) : Bool := !ds.isEmpty && ds.all isDigit

/-- An optional count is absent or a non-empty string of digits. -/
def isOptNumber : Option QString → Bool
  | none => true
  | some ds => isNumber ds

/-! ## Compound operation `quickSync` -/

/-- The loop at the end of `runGitCommand`: trailing `\n`, `\r` and blanks are
chopped. -/
def chopTrailing (output : QString) : QString :=
  (output.reverse.dropWhile (fun c => c == 10 || c == 13 || c == 32)).reverse

/-- Model of `GitManager::runGitCommand`: the returned text and the state with
the started process logged. -/
def runGitCommand (env : Platform) (args : List QString) (s : GitManager) :
    QString × GitManager :=
  if s.m_repoPath.isEmpty then ([], s)
  else
    let result := env.git s.m_repoPath args
    let s1 := { s with started := s.started ++ [{ workingDirectory := s.m_repoPath, args := args }] }
    if result.exitCode != 0 then ([], s1)
    else (chopTrailing (decodeOutput env result.stdout), s1)

/-- The local branch names `updateBranches` reads from the output of
`git branch`. -/
def localBranchesOf (localOutput : QString) : List QString :=
  (splitSkipEmpty localOutput [10]).foldl (fun acc line =>
    let branch := trimmed line
    let branch1 := if (qs "* ").isPrefixOf branch then branch.drop 2 else branch
    if !branch1.isEmpty then acc ++ [branch1] else acc) []

/-- The remote branch names `updateBranches` reads from the output of
`git branch -r`, given the local names. -/
def remoteBranchesOf (remoteOutput : QString) (localBranches : List QString) : List QString :=
  (splitSkipEmpty remoteOutput [10]).foldl (fun acc line =>
    let branch := trimmed line
    if !contains branch (qs "->") && !branch.isEmpty then
      let branch1 := if (qs "origin/").isPrefixOf branch then branch.drop 7 else branch
      if !acc.contains branch1 && !localBranches.contains branch1 then acc ++ [branch1]
      else acc
    else acc) []

/-- Model of `GitManager::updateBranches`. -/
def updateBranches (env : Platform) (s : GitManager) : GitManager :=
  let (localOutput, s1) := runGitCommand env [qs "branch"] s
  let localBranches := localBranchesOf localOutput
  let (remoteOutput, s2) := runGitCommand env [qs "branch", qs "-r"] s1
  let remoteBranches := remoteBranchesOf remoteOutput localBranches
  emit Signal.branchesChanged
    { s2 with
      m_localBranches := localBranches
      m_remoteBranches := remoteBranches
      m_branches := localBranches ++ remoteBranches }

/-- The loop of the synchronous `parseStatus` over the status lines; the
accumulator is `(m_changedFiles, m_stagedFiles)`. -/
def parseStatusLoop : List QString → List FileInfo × List FileInfo → List FileInfo × List FileInfo
  | [], acc => acc
  | line :: rest, (changedFiles, stagedFiles) =>
    match line with
    | indexStatus :: workTreeStatus :: _ :: c :: more =>
      let filePath0 := c :: more
      let filePath1 :=
        if startsWithChar filePath0 chQuote && endsWithChar filePath0 chQuote then
          decodeOctalEscapes filePath0
        else filePath0
      let filePath :=
        if contains filePath1 (qs " -> ") then (split filePath1 (qs " -> ")).getLastD []
        else filePath1
      if filePath.isEmpty then parseStatusLoop rest (changedFiles, stagedFiles)
      else
        let fileInfo : FileInfo :=
          { path := filePath, name := fileNameOf filePath
            status := statusTypeOf indexStatus workTreeStatus
            size := none, sizeStr := none, staged := false }
        let stagedFiles1 :=
          if indexStatus != 32 && indexStatus != 63 then
            stagedFiles ++ [{ fileInfo with staged := true }]
          else stagedFiles
        let changedFiles1 :=
          if workTreeStatus != 32 then changedFiles ++ [{ fileInfo with staged := false }]
          else changedFiles
        parseStatusLoop rest (changedFiles1, stagedFiles1)
    | _ => parseStatusLoop rest (changedFiles, stagedFiles)

/-- Model of `GitManager::parseStatus`, the synchronous status parser. -/
def parseStatus (env : Platform) (s : GitManager) : GitManager :=
  let configCmd : GitCommand :=
    { workingDirectory := s.m_repoPath, args := [qs "config", qs "core.quotepath", qs "false"] }
  let statusCmd : GitCommand :=
    { workingDirectory := s.m_repoPath, args := [qs "status", qs "--porcelain=v1", qs "-uall"] }
  let rawOutput := (env.git statusCmd.workingDirectory statusCmd.args).stdout
  let s1 := { s with started := s.started ++ [configCmd, statusCmd] }
  if isBlankOutput rawOutput then
    let lsCmd : GitCommand :=
      { workingDirectory := s.m_repoPath
        args := [qs "ls-files", qs "--others", qs "--exclude-standard"] }
    let untrackedOutput := (env.git lsCmd.workingDirectory lsCmd.args).stdout
    let untracked :=
      if !untrackedOutput.isEmpty then
        ((splitSkipEmpty (decodeOutput env untrackedOutput) [10]).filter
            (fun f => !f.isEmpty)).map
          (fun filePath =>
            ({ path := filePath, name := fileNameOf filePath, status := qs "added"
               size := none, sizeStr := none, staged := false } : FileInfo))
      else []
    emit Signal.stagedFilesChanged (emit Signal.changedFilesChanged
      { s1 with started := s1.started ++ [lsCmd], m_changedFiles := untracked, m_stagedFiles := [] })
  else
    let lists := parseStatusLoop (splitSkipEmpty (decodeOutput env rawOutput) [10]) ([], [])
    emit Signal.stagedFilesChanged (emit Signal.changedFilesChanged
      { s1 with m_changedFiles := lists.1, m_stagedFiles := lists.2 })

/-- The tail of `switchBranch`, reached when control leaves the error
handling without `return`. -/
def switchBranchTail (env : Platform) (s : GitManager) : GitManager :=
  let (currentBranch, s1) := runGitCommand env [qs "branch", qs "--show-current"] s
  let s2 := emit Signal.currentBranchChanged { s1 with m_currentBranch := currentBranch }
  let s3 := parseStatus env (updateBranches env s2)
  let s4 := setLoading false s3
  emit (Signal.operationSuccess (qs "已切换到分支: " ++ s4.m_currentBranch)) s4

/-- The error of `switchBranch` for uncommitted changes. -/
def msgSwitchUncommitted : QString := qs "切换失败：有未提交的更改，请先提交或撤销"

/-- Model of `GitManager::switchBranch`. -/
def switchBranch (env : Platform) (branchName : QString) (s : GitManager) : GitManager :=
  let s1 := setLoading true s
  let cmd : GitCommand := { workingDirectory := s1.m_repoPath, args := [qs "checkout", branchName] }
  let result := env.git cmd.workingDirectory cmd.args
  let s2 := { s1 with started := s1.started ++ [cmd] }
  let errorOutput := trimmed (fromUtf8 result.stderr)
  if result.exitCode != 0 then
    let s3 := setLoading false s2
    if contains errorOutput (qs "uncommitted changes")
        || contains errorOutput (qs "would be overwritten") then
      switchBranchTail env (setError msgSwitchUncommitted s3)
    else if contains errorOutput (qs "did not match") then
      let cmd2 : GitCommand :=
        { workingDirectory := s3.m_repoPath
          args := [qs "checkout", qs "-b", branchName, qs "origin/" ++ branchName] }
      let result2 := env.git cmd2.workingDirectory cmd2.args
      let s4 := { s3 with started := s3.started ++ [cmd2] }
      if result2.exitCode != 0 then setError (qs "切换失败: " ++ errorOutput) s4
      else switchBranchTail env s4
    else setError (qs "切换失败: " ++ errorOutput) s3
  else switchBranchTail env s2

/-- Model of `GitManager::discardChanges`. -/
def discardChanges (env : Platform) (filePath : QString) (s : GitManager) : GitManager :=
  let s1 := setLoading true s
  let (_, s2) := runGitCommand env [qs "checkout", qs "--", filePath] s1
  emit (Signal.operationSuccess (qs "已撤销更改: " ++ filePath)) (refresh s2)

/-- Model of `GitManager::unstageFile` up to the hand-over to the worker
thread, which runs `git reset HEAD -- filePath`. -/
def unstageFile (filePath : QString) (s : GitManager) : GitManager :=
  if s.m_repoPath.isEmpty || filePath.isEmpty then s
  else
    let s1 := setLoading true s
    { s1 with
      tasks := s1.tasks ++ [Task.unstageFileWorker s1.m_repoPath filePath]
      started := s1.started
        ++ [{ workingDirectory := s1.m_repoPath
              args := [qs "reset", qs "HEAD", qs "--", filePath] }] }

/-- The completion of `unstageFile`'s worker; the worker hands over no result,
so the handler is the same for every exit code of `git reset`. -/
def onUnstageFileFinished (filePath : QString) (s : GitManager) : GitManager :=
  emit (Signal.operationSuccess (qs "已取消暂存: " ++ filePath)) (refresh s)

/-- A platform for the concrete examples: `/r` is on `main` with a modified
`a.txt`; checking out `dev` and restoring `a.txt` both fail with exit code 1. -/
def conflictPlatform : Platform :=
  { examplePlatform with
    git := fun _ args =>
      if args == [qs "checkout", qs "dev"] then
        { exitCode := 1, stdout := []
          stderr := asciiBytes
            "error: Your local changes to the following files would be overwritten by checkout:\n\ta.txt\nAborting" }
      else if args == [qs "checkout", qs "--", qs "a.txt"] then
        { exitCode := 1, stdout := []
          stderr := asciiBytes "error: unable to unlink old a.txt: Permission denied" }
      else if args == [qs "branch", qs "--show-current"] then
        { exitCode := 0, stdout := asciiBytes "main\n", stderr := [] }
      else if args == [qs "branch"] then
        { exitCode := 0, stdout := asciiBytes "  dev\n* main\n", stderr := [] }
      else if args == [qs "status", qs "--porcelain=v1", qs "-uall"] then
        { exitCode := 0, stdout := asciiBytes " M a.txt\n", stderr := [] }
      else { exitCode := 0, stdout := [], stderr := [] } }

/-! ## Command outcomes, the worker of refresh, clone and unstage-all -/

/-- How a git process stands when `waitForFinished` returns: it has exited
with a code, or the wait has timed out with the process still running. -/
inductive ProcOutcome where
  | exited (exitCode : Int) (stdout stderr : QByteArray)
  | timedOut (stdout stderr : QByteArray)
  deriving DecidableEq, Repr

/-- Model of what the `QProcess` object reports for an outcome: after a
time-out `exitCode()` is still the 0 set by `start()`, and the streams hold
what the process has written so far. -/
def reported : ProcOutcome → ProcResult
  | ProcOutcome.exited exitCode stdout stderr =>
    { exitCode := exitCode, stdout := stdout, stderr := stderr }
  | ProcOutcome.timedOut stdout stderr =>
    { exitCode := 0, stdout := stdout, stderr := stderr }

/-- A platform on which every git command has the given outcome. -/
def outcomePlatform (env : Platform) (outcome : ProcOutcome) : Platform :=
  { env with git := fun _ _ => reported outcome }

/-- A character chopped by `runGitCommand`: newline, carriage return, blank. -/
def isChopped (c : Nat) : Bool := c == 10 || c == 13 || c == 32

/-- The text of a command run by the worker of `refresh`: standard output
decoded and trimmed when the exit code is 0, else empty. -/
def trimmedOutputOf (result : ProcResult) : QString :=
  if result.exitCode == 0 then trimmed (fromUtf8 result.stdout) else []

/-- The worker of `refresh` (the lambda run by `QtConcurrent::run`): the
validity probe and, for a valid repository, the current branch (short hash
when empty), the user identity and the two branch lists. -/
def refreshWorker (env : Platform) (repoPath : QString) : RefreshResult :=
  let isValidRepo := (env.git repoPath [qs "rev-parse", qs "--git-dir"]).exitCode == 0
  if isValidRepo then
    let currentBranch0 := trimmedOutputOf (env.git repoPath [qs "branch", qs "--show-current"])
    let currentBranch :=
      if currentBranch0.isEmpty then
        let r := env.git repoPath [qs "rev-parse", qs "--short", qs "HEAD"]
        if r.exitCode == 0 then trimmed (fromUtf8 r.stdout) else currentBranch0
      else currentBranch0
    let userName := trimmedOutputOf (env.git repoPath [qs "config", qs "user.name"])
    let userEmail := trimmedOutputOf (env.git repoPath [qs "config", qs "user.email"])
    let localResult := env.git repoPath [qs "branch"]
    let localBranches :=
      if localResult.exitCode == 0 then localBranchesOf (fromUtf8 localResult.stdout) else []
    let remoteResult := env.git repoPath [qs "branch", qs "-r"]
    let remoteBranches :=
      if remoteResult.exitCode == 0 then
        remoteBranchesOf (fromUtf8 remoteResult.stdout) localBranches
      else []
    { isValidRepo := true, currentBranch := currentBranch, userName := userName
      userEmail := userEmail, localBranches := localBranches, remoteBranches := remoteBranches }
  else
    { isValidRepo := false, currentBranch := [], userName := [], userEmail := []
      localBranches := [], remoteBranches := [] }

/-- A line of the remote listing that is taken: not the symbolic HEAD pointer
(no `->`) and not blank. -/
def isRemoteEntry (line : QString) : Bool :=
  !contains (trimmed line) (qs "->") && !(trimmed line).isEmpty

/-- The name published for a line of the remote listing: the trimmed line
without a leading `origin/`. -/
def remoteNameOf (line : QString) : QString :=
  if (qs "origin/").isPrefixOf (trimmed line) then (trimmed line).drop 7 else trimmed line

/-- The candidate names of a remote listing, in listing order: the names of
the lines taken that are not local branch names. -/
def remoteCandidates (lines : List QString) (localBranches : List QString) : List QString :=
  ((lines.filter isRemoteEntry).map remoteNameOf).filter (fun b => !localBranches.contains b)

/-- Model of `GitManager::cloneRepo`. -/
def cloneRepo (url targetPath : QString) (s : GitManager) : GitManager :=
  if (trimmed url).isEmpty then setError (qs "仓库地址不能为空") s
  else
    let cleanPath := if (qs "file:///").isPrefixOf targetPath then targetPath.drop 8 else targetPath
    if cleanPath.isEmpty then setError (qs "请选择目标文件夹") s
    else
      let repoName0 := (split url [47]).getLastD []
      let repoName :=
        if (qs ".git").isSuffixOf repoName0 then repoName0.take (repoName0.length - 4)
        else repoName0
      let s1 := { s with m_cloneTargetPath := cleanPath ++ qs "/" ++ repoName }
      let s2 := setError [] (setLoading true s1)
      if s2.asyncState != ProcessState.NotRunning then
        setError msgBusy (setLoading false s2)
      else
        { s2 with
          m_asyncSuccessMsg := qs "克隆成功"
          m_asyncErrorPrefix := qs "克隆失败"
          asyncState := ProcessState.Starting
          asyncCommand := some { workingDirectory := cleanPath, args := [qs "clone", url] }
          started := s2.started ++ [{ workingDirectory := cleanPath, args := [qs "clone", url] }] }

/-- Model of `GitManager::unstageAll`. -/
def unstageAll (env : Platform) (s : GitManager) : GitManager :=
  if s.m_repoPath.isEmpty then setError (qs "未选择仓库") s
  else if s.m_stagedFiles.isEmpty then
    emit (Signal.operationSuccess (qs "没有已暂存的文件")) (setBulkOperationMode false s)
  else
    let s1 := setLoading true s
    let checkCmd : GitCommand :=
      { workingDirectory := s1.m_repoPath, args := [qs "rev-parse", qs "--verify", qs "HEAD"] }
    let checkResult := env.git checkCmd.workingDirectory checkCmd.args
    let s2 := { s1 with started := s1.started ++ [checkCmd] }
    let args :=
      if checkResult.exitCode == 0 then [qs "reset", qs "HEAD"]
      else [qs "rm", qs "--cached", qs "-r", qs "."]
    if s2.asyncState != ProcessState.NotRunning then
      setError msgBusy (setBulkOperationMode false (setLoading false s2))
    else
      { s2 with
        m_asyncSuccessMsg := qs "已取消暂存所有文件"
        m_asyncErrorPrefix := qs "取消暂存失败"
        asyncState := ProcessState.Starting
        asyncCommand := some { workingDirectory := s2.m_repoPath, args := args }
        started := s2.started ++ [{ workingDirectory := s2.m_repoPath, args := args }] }

/-- A state for the concrete examples: no repository open, a clone of
`https://gitee.com/u/a.git` into `/home/u` in flight on the async process. -/
def cloningExample : GitManager :=
  { initialState with
    m_isLoading := true
    m_asyncSuccessMsg := qs "克隆成功"
    m_asyncErrorPrefix := qs "克隆失败"
    m_cloneTargetPath := qs "/home/u/a"
    asyncState := ProcessState.Running
    asyncCommand := some { workingDirectory := qs "/home/u"
                           args := [qs "clone", qs "https://gitee.com/u/a.git"] }
    started := [{ workingDirectory := qs "/home/u"
                  args := [qs "clone", qs "https://gitee.com/u/a.git"] }] }

/-- A platform for the concrete examples: as `examplePlatform`, with one
untracked file `a.txt` reported by `git status --porcelain=v1 -uall`. -/
def untrackedPlatform : Platform :=
  { examplePlatform with
    git := fun _ args =>
      if args == [qs "status", qs "--porcelain=v1", qs "-uall"] then
        { exitCode := 0, stdout := asciiBytes "?? a.txt\n", stderr := [] }
      else { exitCode := 0, stdout := [], stderr := [] } }

/-- The loop body of the remote listing in `refresh` and `updateBranches`,
with the names taken so far in `acc`. -/
def remoteStep (localBranches : List QString) (acc : List QString) (line : QString) :
    List QString :=
  if isRemoteEntry line then
    if !acc.contains (remoteNameOf line) && !localBranches.contains (remoteNameOf line) then
      acc ++ [remoteNameOf line]
    else acc
  else acc

/-- A platform for the concrete examples: `/r` is a repository on `main` with
the local branches `main` and `dev` and the remotes `origin` and `upstream`. -/
def branchPlatform : Platform :=
  { examplePlatform with
    git := fun _ args =>
      if args == [qs "branch", qs "--show-current"] then
        { exitCode := 0, stdout := asciiBytes "main\n", stderr := [] }
      else if args == [qs "branch"] then
        { exitCode := 0, stdout := asciiBytes "  dev\n* main\n", stderr := [] }
      else if args == [qs "branch", qs "-r"] then
        { exitCode := 0
          stdout := asciiBytes
            "  origin/HEAD -> origin/main\n  origin/main\n  origin/feature\n  upstream/dev\n  upstream/topic\n"
          stderr := [] }
      else { exitCode := 0, stdout := [], stderr := [] } }

/-- A platform for the concrete examples whose `git diff -- a.c` prints a diff
with one hunk that replaces the line `--x;` by the line `++x;`; everything
else as in `examplePlatform`. -/
def decrementDiffPlatform : Platform :=
  { examplePlatform with
    git := fun _ args =>
      if args == [qs "diff", qs "--", qs "a.c"] then
        { exitCode := 0
          stdout := asciiBytes
            "diff --git a/a.c b/a.c\nindex 1a2b..3c4d 100644\n--- a/a.c\n+++ b/a.c\n@@ -3,3 +3,3 @@\n x = 0;\n---x;\n+++x;\n return x;"
          stderr := [] }
      else { exitCode := 0, stdout := [], stderr := [] } }

/-! ## The two status parsers side by side -/

/-- The path the synchronous `parseStatus` derives from the path field of a
status line: the field is decoded only when it is wrapped in quotes, then the
text after the last ` -> ` is taken. -/
def syncPathOf (pathField : QString) : QString :=
  let filePath1 :=
    if startsWithChar pathField chQuote && endsWithChar pathField chQuote then
      decodeOctalEscapes pathField
    else pathField
  if contains filePath1 (qs " -> ") then (split filePath1 (qs " -> ")).getLastD []
  else filePath1

/-- The path `parseStatusAsync` derives from the path field of a status line:
the text after the last ` -> ` is taken, then decoded. -/
def asyncPathOf (pathField : QString) : QString :=
  decodeOctalEscapes
    (if contains pathField (qs " -> ") then sectionLast pathField (qs " -> ") else pathField)

/-- The entry the synchronous `parseStatus` builds for a status line. -/
def syncFileInfo ( staged : Bool) (line : QString) : FileInfo :=
  { path := syncPathOf (line.drop 3), name := fileNameOf (syncPathOf (line.drop 3))
    status := statusTypeOf (indexChar line) (workTreeChar line)
    size := none, sizeStr := none, staged := staged }

/-- A text the decoder leaves as it is: not wrapped in quotes and without a
backslash. -/
def needsNoDecoding (p : QString) : Bool :=
  !(startsWithChar p chQuote && endsWithChar p chQuote) && !p.contains chBackslash

/-- A path field on which the order of decoding and rename splitting does not
matter: a quoted field without ` -> ` whose decoding is not empty and has no
` -> `; or a rename `old -> new` that is not wrapped in quotes as a whole and
whose new name is not empty and needs no decoding; or a plain field that
needs no decoding. -/
def plainPathField (p : QString) : Bool :=
  if startsWithChar p chQuote && endsWithChar p chQuote then
    !contains p (qs " -> ") && !(decodeOctalEscapes p).isEmpty
      && !contains (decodeOctalEscapes p) (qs " -> ")
  else if contains p (qs " -> ") then
    !(sectionLast p (qs " -> ")).isEmpty && needsNoDecoding (sectionLast p (qs " -> "))
  else needsNoDecoding p

/-- A status line both parsers read the same way: shorter than three
characters (skipped by both), or with a non-empty path field that is a
`plainPathField`. -/
def plainStatusLine (line : QString) : Bool :=
  line.length < 3 || (4 ≤ line.length && plainPathField (line.drop 3))

/-- A pair of status characters on which the two status chains give the same
status: index `A`; or a worktree character other than `A` and `?` with, when
an `M` is present, no `D` and no index `R`, and otherwise a `D`, an index `R`
or an index character other than `?`. -/
def sameStatusPair (x y : Nat) : Bool :=
  x == 65 || (y != 65 && y != 63 &&
    (if x == 77 || y == 77 then !(x == 68 || y == 68 || x == 82)
     else (x == 68 || y == 68 || x == 82 || x != 63)))

/-- The fields of an entry that identify it: path, display name, staged flag. -/
def entryKey (f : FileInfo) : QString × QString × Bool := (f.path, f.name, f.staged)

/-- The fields of an entry shared by both parsers: path, display name, status,
staged flag. -/
def entryView (f : FileInfo) : QString × QString × QString × Bool :=
  (f.path, f.name, f.status, f.staged)

/-- A platform for the concrete examples: as `examplePlatform`, with a status
of four lines: a staged modification, an unstaged deletion in a subdirectory,
a staged rename and a staged new file whose name is quoted. -/
def mixedStatusPlatform : Platform :=
  { examplePlatform with
    git := fun _ args =>
      if args == [qs "status", qs "--porcelain=v1", qs "-uall"] then
        { exitCode := 0
          stdout := asciiBytes "M  a.txt\n D src/b.txt\nR  old.txt -> new.txt\nA  "
            ++ [34] ++ asciiBytes "c d.txt" ++ [34, 10]
          stderr := [] }
      else { exitCode := 0, stdout := [], stderr := [] } }

/-! ## Theorems: escape decoder -/

theorem octalValue_octalEscape (b : Nat) (hb : b < 256) :
    octalValue [48 + b / 64 % 8, 48 + b / 8 % 8, 48 + b % 8] % 256 = b := by
  simp only [octalValue, List.foldl]
  omega

theorem isOctalDigit_digit (d : Nat) (hd : d < 8) : isOctalDigit (48 + d) = true := by
  unfold isOctalDigit
  simp only [Bool.and_eq_true, decide_eq_true_eq]
  omega

theorem decodeLoop_octalEscape (b : Nat) (hb : b < 256) (rest : QString) :
    decodeLoop 0 (octalEscape b ++ rest) = b :: decodeLoop 0 rest := by
  have hv := octalValue_octalEscape b hb
  have h1 := isOctalDigit_digit (b / 64 % 8) (Nat.mod_lt _ (by decide))
  have h2 := isOctalDigit_digit (b / 8 % 8) (Nat.mod_lt _ (by decide))
  have h3 := isOctalDigit_digit (b % 8) (Nat.mod_lt _ (by decide))
  simp [octalEscape, decodeLoop, chBackslash, h1, h2, h3, hv]

theorem decodeLoop_octalEscapeAll (bs : QByteArray) (hbs : ∀ b ∈ bs, b < 256) :
    decodeLoop 0 (octalEscapeAll bs) = bs := by
  induction bs with
  | nil => rfl
  | cons b bs ih =>
    have hb : b < 256 := hbs b (List.mem_cons_self b bs)
    have hrest : ∀ x ∈ bs, x < 256 := fun x hx => hbs x (List.mem_cons_of_mem b hx)
    have hstep := decodeLoop_octalEscape b hb (octalEscapeAll bs)
    simp only [octalEscapeAll, List.map_cons, List.flatten_cons] at hstep ⊢
    rw [hstep]
    exact congrArg (List.cons b) (ih hrest)

theorem stripQuotes_quoteOctal (bs : QByteArray) :
    stripQuotes (quoteOctal bs) = octalEscapeAll bs := by
  have hlast : (34 :: (octalEscapeAll bs ++ [34])).getLast? = some 34 := by
    rw [← List.cons_append, List.getLast?_append]
    rfl
  simp [stripQuotes, quoteOctal, startsWithChar, endsWithChar, chQuote, hlast]

theorem hasOctalEscape_octalEscapeAll_cons (b : Nat) (bs : QByteArray) :
    hasOctalEscape (octalEscapeAll (b :: bs)) = true := by
  have h1 := isOctalDigit_digit (b / 64 % 8) (Nat.mod_lt _ (by decide))
  have h2 := isOctalDigit_digit (b / 8 % 8) (Nat.mod_lt _ (by decide))
  have h3 := isOctalDigit_digit (b % 8) (Nat.mod_lt _ (by decide))
  simp [octalEscapeAll, octalEscape, hasOctalEscape, chBackslash, h1, h2, h3]

/-- C1: for every byte sequence `bs` (in particular every valid UTF-8 one),
`decodeOctalEscapes` applied to the double-quoted string in which every byte of
`bs` is written as a three-digit octal escape returns the UTF-8 decoding of
`bs`. -/
theorem decodeOctalEscapes_quoteOctal (bs : QByteArray) (hbs : ∀ b ∈ bs, b < 256) :
    decodeOctalEscapes (quoteOctal bs) = fromUtf8 bs := by
  unfold decodeOctalEscapes
  rw [stripQuotes_quoteOctal]
  cases bs with
  | nil => rfl
  | cons b bs =>
    simp only [hasOctalEscape_octalEscapeAll_cons, Bool.not_true, Bool.false_eq_true, if_false]
    rw [decodeLoop_octalEscapeAll (b :: bs) hbs]

/-- The spec's example for C1: the quoted input `\344\270\255\346\226\207`
is the escaped form of six bytes and decodes to the two characters 中文. -/
theorem decodeOctalEscapes_quoteOctal_witness :
    quoteOctal [228, 184, 173, 230, 150, 135]
        = chQuote :: (qs "\\344\\270\\255\\346\\226\\207" ++ [chQuote])
      ∧ (∀ b ∈ [228, 184, 173, 230, 150, 135], b < 256)
      ∧ decodeOctalEscapes (quoteOctal [228, 184, 173, 230, 150, 135]) = qs "中文"
      ∧ (qs "中文").length = 2 :=
  ⟨by decide, by decide,
    (decodeOctalEscapes_quoteOctal [228, 184, 173, 230, 150, 135] (by decide)).trans (by decide),
    by decide⟩

/-! ## Theorems: error classifier -/

/-- C4, as stated, fails: a text that contains `failed to push some refs` and
also a pattern of an earlier rule gets the message of the earlier rule. -/
theorem translateGitError_pushFailed_counterexample :
    contains (qs "error: failed to push some refs to origin: you have unmerged files")
        (qs "failed to push some refs") = true
      ∧ translateGitError
          (qs "error: failed to push some refs to origin: you have unmerged files")
        ≠ msgPushFailed := by
  decide

/-- C4 (amended): every error text that contains `failed to push some refs`
and none of the four unfinished-merge patterns is classified as a push
rejection: the result is the push-rejected message. -/
theorem translateGitError_pushFailed (error : QString)
    (hpush : contains error (qs "failed to push some refs") = true)
    (hmerge : ∀ p ∈ mergePatterns, contains error p = false) :
    translateGitError error = msgPushFailed := by
  simp only [mergePatterns, List.mem_cons, List.mem_singleton, forall_eq_or_imp, forall_eq,
    List.not_mem_nil, false_imp_iff, implies_true, and_true] at hmerge
  obtain ⟨h1, h2, h3, h4⟩ := hmerge
  simp only [translateGitError, h1, h2, h3, h4, hpush, Bool.or_self, Bool.false_eq_true,
    if_false, if_true]

theorem translateGitError_pushFailed_witness :
    translateGitError (qs "error: failed to push some refs to origin") = msgPushFailed :=
  translateGitError_pushFailed (qs "error: failed to push some refs to origin")
    (by decide) (by decide)

/-- C5, as stated, fails: a text that contains `Could not resolve host` and
also a pattern of an earlier rule gets the message of the earlier rule. -/
theorem translateGitError_resolveHost_counterexample :
    contains (qs "Could not resolve host: gitee.com; error: failed to push some refs")
        (qs "Could not resolve host") = true
      ∧ translateGitError
          (qs "Could not resolve host: gitee.com; error: failed to push some refs")
        ≠ msgResolveHost := by
  decide

/-- C5 (amended): every error text that contains `Could not resolve host` and
no pattern of the earlier rules (unfinished merge, push rejection) is classified
as a network failure: the result is the host-resolution message. -/
theorem translateGitError_resolveHost (error : QString)
    (hhost : contains error (qs "Could not resolve host") = true)
    (hbefore : ∀ p ∈ beforeResolveHostPatterns, contains error p = false) :
    translateGitError error = msgResolveHost := by
  simp only [beforeResolveHostPatterns, mergePatterns, List.cons_append, List.nil_append,
    List.mem_cons, List.mem_singleton, forall_eq_or_imp, forall_eq,
    List.not_mem_nil, false_imp_iff, implies_true, and_true] at hbefore
  obtain ⟨h1, h2, h3, h4, h5, h6, h7, h8⟩ := hbefore
  simp only [translateGitError, h1, h2, h3, h4, h5, h6, h7, h8, hhost, Bool.or_self,
    Bool.false_eq_true, if_false, if_true]

theorem translateGitError_resolveHost_witness :
    translateGitError (qs "fatal: unable to access: Could not resolve host: gitee.com")
      = msgResolveHost :=
  translateGitError_resolveHost
    (qs "fatal: unable to access: Could not resolve host: gitee.com") (by decide) (by decide)

theorem toLatin1_eq_iff (c k : Nat) (hk : 0 < k) (hk2 : k ≤ 255) : toLatin1 c = k ↔ c = k := by
  unfold toLatin1
  split <;> omega

theorem toLatin1_bne (c k : Nat) (hk : 0 < k) (hk2 : k ≤ 255) :
    (toLatin1 c != k) = (c != k) := by
  have h := toLatin1_eq_iff c k hk hk2
  by_cases hc : c = k
  · have ht : toLatin1 c = k := h.mpr hc
    rw [ht, hc]
  · have ht : ¬ toLatin1 c = k := fun e => hc (h.mp e)
    rw [bne_iff_ne.mpr ht, bne_iff_ne.mpr hc]

theorem statusLoop_eq_filter (env : Platform) (repoPath : QString) (lines : List QString) :
    ∀ changedFiles stagedFiles : List FileInfo,
      statusLoop env repoPath lines (changedFiles, stagedFiles)
        = (changedFiles ++ (lines.filter contributesUnstaged).map (lineFileInfo env repoPath false),
           stagedFiles ++ (lines.filter contributesStaged).map (lineFileInfo env repoPath true)) := by
  induction lines with
  | nil => intro c s; simp [statusLoop]
  | cons line rest ih =>
    intro c s
    match line with
    | [] => simp [statusLoop, ih, contributesUnstaged, contributesStaged]
    | [_] => simp [statusLoop, ih, contributesUnstaged, contributesStaged]
    | [_, _] => simp [statusLoop, ih, contributesUnstaged, contributesStaged]
    | x :: y :: z :: pathField =>
      have hx32 : (toLatin1 x != 32) = (x != 32) := toLatin1_bne x 32 (by decide) (by decide)
      have hx63 : (toLatin1 x != 63) = (x != 63) := toLatin1_bne x 63 (by decide) (by decide)
      have hy32 : (toLatin1 y != 32) = (y != 32) := toLatin1_bne y 32 (by decide) (by decide)
      simp only [statusLoop, ih, hx32, hx63, hy32]
      have hs : contributesStaged (x :: y :: z :: pathField) = (x != 32 && x != 63) := by
        simp [contributesStaged, indexChar]
      have hu : contributesUnstaged (x :: y :: z :: pathField) = (y != 32) := by
        simp [contributesUnstaged, workTreeChar]
      have hl : ∀ b, lineFileInfo env repoPath b (x :: y :: z :: pathField)
          = statusFileInfo env repoPath x y pathField b := by
        intro b; simp [lineFileInfo, indexChar, workTreeChar]
      simp only [List.filter_cons, hs, hu]
      cases (x != 32 && x != 63) <;> cases (y != 32) <;> simp [hl]

/-- C2: for every status output that is not blank, `parseStatusAsync` builds
the two collections as a line-by-line filter of the status lines: the staged
collection holds, in line order, one entry (staged = true) for each line whose
index character is neither blank nor `?`; the unstaged collection holds one
entry (staged = false) for each line whose worktree character is not blank;
nothing else is in either collection. -/
theorem parseStatusOutput_filter (env : Platform) (repoPath : QString)
    (rawOutput untrackedOutput : QByteArray) (hraw : isBlankOutput rawOutput = false) :
    parseStatusOutput env repoPath rawOutput untrackedOutput
        = (((statusLines env rawOutput).filter contributesUnstaged).map
              (lineFileInfo env repoPath false),
           ((statusLines env rawOutput).filter contributesStaged).map
              (lineFileInfo env repoPath true))
      ∧ (∀ e ∈ (parseStatusOutput env repoPath rawOutput untrackedOutput).2, e.staged = true)
      ∧ (∀ e ∈ (parseStatusOutput env repoPath rawOutput untrackedOutput).1, e.staged = false) := by
  have hflag : ∀ (b : Bool) (line : QString), (lineFileInfo env repoPath b line).staged = b := by
    intro b line
    unfold lineFileInfo statusFileInfo
    simp only []
    split <;> split <;> rfl
  have hmain : parseStatusOutput env repoPath rawOutput untrackedOutput
      = (((statusLines env rawOutput).filter contributesUnstaged).map
            (lineFileInfo env repoPath false),
         ((statusLines env rawOutput).filter contributesStaged).map
            (lineFileInfo env repoPath true)) := by
    unfold parseStatusOutput
    rw [hraw, statusLoop_eq_filter]
    simp
  refine ⟨hmain, ?_, ?_⟩
  · intro e he
    rw [hmain] at he
    obtain ⟨line, -, rfl⟩ := List.mem_map.mp he
    exact hflag true line
  · intro e he
    rw [hmain] at he
    obtain ⟨line, -, rfl⟩ := List.mem_map.mp he
    exact hflag false line

/-- The spec's scenario for C2: the single line `?? a.txt` yields one unstaged
entry for `a.txt` and no staged entry. -/
theorem parseStatusOutput_filter_witness :
    isBlankOutput (asciiBytes "?? a.txt\n") = false
      ∧ parseStatusOutput examplePlatform (qs "/r") (asciiBytes "?? a.txt\n") []
        = ([{ path := qs "a.txt", name := qs "a.txt", status := qs "untracked", size := some 12,
              sizeStr := some (qs "12 B"), staged := false }], []) :=
  ⟨by decide,
    (parseStatusOutput_filter examplePlatform (qs "/r") (asciiBytes "?? a.txt\n") []
      (by decide)).1.trans (by decide)⟩

/-- C3 fails on the code at the status line `MD a.txt` (modified in the index,
deleted in the worktree): `parseStatusAsync` tests `M` before `D` and labels
both entries `modified`, with the size label `0 B`; the rule table of the
claim, which the sibling `parseStatus` implements, gives `deleted`. -/
theorem parseStatusOutput_MD_modified :
    parseStatusOutput examplePlatform (qs "/w") (asciiBytes "MD a.txt\n") []
        = ([{ path := qs "a.txt", name := qs "a.txt", status := qs "modified", size := some 0,
              sizeStr := some (qs "0 B"), staged := false }],
           [{ path := qs "a.txt", name := qs "a.txt", status := qs "modified", size := some 0,
              sizeStr := some (qs "0 B"), staged := true }])
      ∧ statusOf (toLatin1 77) (toLatin1 68) = qs "modified"
      ∧ statusTypeOf 77 68 = qs "deleted" := by
  decide

/-! ## Theorems: async executor -/

theorem translateGitError_msgBusy : translateGitError msgBusy = msgBusy := by decide

theorem translateGitError_nil : translateGitError [] = [] := by decide

theorem isEmpty_eq_false_of_ne_nil (l : QString) (h : l ≠ []) : l.isEmpty = false := by
  cases l with
  | nil => exact absurd rfl h
  | cons a t => rfl

theorem runAsyncGitCommand_rejects (args : List QString) (successMsg errorPrefix : QString)
    (s : GitManager) (hrepo : s.m_repoPath ≠ [])
    (hbusy : s.asyncState ≠ ProcessState.NotRunning) :
    (runAsyncGitCommand args successMsg errorPrefix s).started = s.started
      ∧ (runAsyncGitCommand args successMsg errorPrefix s).tasks = s.tasks
      ∧ (runAsyncGitCommand args successMsg errorPrefix s).asyncCommand = s.asyncCommand
      ∧ (runAsyncGitCommand args successMsg errorPrefix s).asyncState = s.asyncState
      ∧ (runAsyncGitCommand args successMsg errorPrefix s).m_asyncSuccessMsg = s.m_asyncSuccessMsg
      ∧ (runAsyncGitCommand args successMsg errorPrefix s).m_asyncErrorPrefix
          = s.m_asyncErrorPrefix
      ∧ (runAsyncGitCommand args successMsg errorPrefix s).m_lastError = msgBusy
      ∧ notifications (runAsyncGitCommand args successMsg errorPrefix s)
          = notifications s ++ [Signal.operationFailed msgBusy] := by
  have hne : msgBusy ≠ [] := by decide
  have hrepo2 : s.m_repoPath.isEmpty = false := isEmpty_eq_false_of_ne_nil _ hrepo
  have hbusy2 : (s.asyncState != ProcessState.NotRunning) = true := by
    simpa using hbusy
  unfold runAsyncGitCommand
  simp only [hrepo2, hbusy2, Bool.false_eq_true, if_false, if_true]
  unfold setError
  simp only [translateGitError_msgBusy]
  cases hl : s.m_isLoading <;>
    simp [setLoading, emit, notifications, isNotification, hl, hne, List.filter_append]

/-- C7: a request dispatched through `runAsyncGitCommand` with a non-empty
repository path while the async process is not `NotRunning` starts no process,
leaves the in-flight command, the stored success message and the stored error
prefix unchanged, and fails with the busy error, delivered once through
`operationFailed`. -/
theorem runAsyncGitCommand_busy (args : List QString) (successMsg errorPrefix : QString)
    (s : GitManager) (hrepo : s.m_repoPath ≠ [])
    (hbusy : s.asyncState ≠ ProcessState.NotRunning) :
    (runAsyncGitCommand args successMsg errorPrefix s).started = s.started
      ∧ (runAsyncGitCommand args successMsg errorPrefix s).tasks = s.tasks
      ∧ (runAsyncGitCommand args successMsg errorPrefix s).asyncCommand = s.asyncCommand
      ∧ (runAsyncGitCommand args successMsg errorPrefix s).asyncState = s.asyncState
      ∧ (runAsyncGitCommand args successMsg errorPrefix s).m_asyncSuccessMsg = s.m_asyncSuccessMsg
      ∧ (runAsyncGitCommand args successMsg errorPrefix s).m_asyncErrorPrefix
          = s.m_asyncErrorPrefix
      ∧ (runAsyncGitCommand args successMsg errorPrefix s).m_lastError = msgBusy
      ∧ notifications (runAsyncGitCommand args successMsg errorPrefix s)
          = notifications s ++ [Signal.operationFailed msgBusy] :=
  runAsyncGitCommand_rejects args successMsg errorPrefix s hrepo hbusy

theorem runAsyncGitCommand_busy_witness :
    (runAsyncGitCommand [qs "pull"] (qs "拉取成功") (qs "拉取失败") busyExample).started
        = busyExample.started
      ∧ (runAsyncGitCommand [qs "pull"] (qs "拉取成功") (qs "拉取失败") busyExample).m_asyncSuccessMsg
        = qs "推送成功"
      ∧ notifications (runAsyncGitCommand [qs "pull"] (qs "拉取成功") (qs "拉取失败") busyExample)
        = [Signal.operationFailed msgBusy] :=
  have h := runAsyncGitCommand_busy [qs "pull"] (qs "拉取成功") (qs "拉取失败") busyExample
    (by decide) (by decide)
  ⟨h.1, h.2.2.2.2.1, h.2.2.2.2.2.2.2⟩

theorem setLoading_frame (b : Bool) (s : GitManager) :
    (setLoading b s).m_repoPath = s.m_repoPath
      ∧ (setLoading b s).asyncState = s.asyncState
      ∧ (setLoading b s).asyncCommand = s.asyncCommand
      ∧ (setLoading b s).started = s.started
      ∧ (setLoading b s).tasks = s.tasks
      ∧ (setLoading b s).m_currentBranch = s.m_currentBranch
      ∧ notifications (setLoading b s) = notifications s := by
  unfold setLoading
  split <;> simp [emit, notifications, isNotification, List.filter_append]

/-- C8, as stated, fails: with a push in flight on the async process, `commit`
is not rejected as busy and runs `git commit`, and `stageFile` is not rejected
and hands `git add` to a worker. -/
theorem commit_while_busy_counterexample :
    busyExample.asyncState = ProcessState.Running
      ∧ (commit examplePlatform (qs "msg") busyExample).started
          = busyExample.started
              ++ [{ workingDirectory := qs "/r", args := [qs "commit", qs "-m", qs "msg"] }]
      ∧ notifications (commit examplePlatform (qs "msg") busyExample)
          = [Signal.operationSuccess (qs "提交成功")]
      ∧ (stageFile examplePlatform (qs "a.txt") busyExample).started
          = busyExample.started
              ++ [{ workingDirectory := qs "/r", args := [qs "add", qs "--", qs "a.txt"] }]
      ∧ notifications (stageFile examplePlatform (qs "a.txt") busyExample) = [] := by
  decide

/-- C8 (amended): the single-flight guard is the one of the async process.
A `pull` or `forcePush` issued with a non-empty repository path while the async
process is not `NotRunning` is rejected synchronously with the busy error: no
process is started, nothing is scheduled, and the in-flight command is left as
it is. -/
theorem pull_forcePush_busy (s : GitManager) (hrepo : s.m_repoPath ≠ [])
    (hbusy : s.asyncState ≠ ProcessState.NotRunning) :
    ((pull s).started = s.started ∧ (pull s).tasks = s.tasks
        ∧ (pull s).asyncCommand = s.asyncCommand ∧ (pull s).asyncState = s.asyncState
        ∧ notifications (pull s) = notifications s ++ [Signal.operationFailed msgBusy])
      ∧ ((forcePush s).started = s.started ∧ (forcePush s).tasks = s.tasks
        ∧ (forcePush s).asyncCommand = s.asyncCommand ∧ (forcePush s).asyncState = s.asyncState
        ∧ notifications (forcePush s) = notifications s ++ [Signal.operationFailed msgBusy]) := by
  obtain ⟨f1, f2, f3, f4, f5, -, f7⟩ := setLoading_frame true s
  have hrepo1 : (setLoading true s).m_repoPath ≠ [] := by rw [f1]; exact hrepo
  have hbusy1 : (setLoading true s).asyncState ≠ ProcessState.NotRunning := by
    rw [f2]; exact hbusy
  constructor
  · obtain ⟨r1, r2, r3, r4, -, -, -, r8⟩ :=
      runAsyncGitCommand_rejects [qs "pull"] (qs "拉取成功") (qs "拉取失败")
        (setLoading true s) hrepo1 hbusy1
    unfold pull
    exact ⟨r1.trans f4, r2.trans f5, r3.trans f3, r4.trans f2, by rw [r8, f7]⟩
  · obtain ⟨r1, r2, r3, r4, -, -, -, r8⟩ :=
      runAsyncGitCommand_rejects
        [qs "push", qs "--force", qs "origin", (setLoading true s).m_currentBranch]
        (qs "强制推送成功") (qs "强制推送失败") (setLoading true s) hrepo1 hbusy1
    unfold forcePush
    simp only [isEmpty_eq_false_of_ne_nil _ hrepo, Bool.false_eq_true, if_false]
    exact ⟨r1.trans f4, r2.trans f5, r3.trans f3, r4.trans f2, by rw [r8, f7]⟩

theorem pull_forcePush_busy_witness :
    (pull busyExample).started = busyExample.started
      ∧ notifications (pull busyExample) = [Signal.operationFailed msgBusy]
      ∧ (forcePush busyExample).started = busyExample.started
      ∧ notifications (forcePush busyExample) = [Signal.operationFailed msgBusy] :=
  have h := pull_forcePush_busy busyExample (by decide) (by decide)
  ⟨h.1.1, h.1.2.2.2.2, h.2.1, h.2.2.2.2.2⟩

/-! ## Theorems: commit validation -/

theorem translateGitError_msgEmptyCommitMessage :
    translateGitError msgEmptyCommitMessage = msgEmptyCommitMessage := by decide

theorem translateGitError_msgNothingStaged :
    translateGitError msgNothingStaged = msgNothingStaged := by decide

theorem setError_fixed (msg : QString) (s : GitManager) (hfix : translateGitError msg = msg)
    (hne : msg ≠ []) :
    (setError msg s).started = s.started
      ∧ (setError msg s).tasks = s.tasks
      ∧ (setError msg s).asyncState = s.asyncState
      ∧ (setError msg s).asyncCommand = s.asyncCommand
      ∧ (setError msg s).m_isLoading = s.m_isLoading
      ∧ (setError msg s).m_changedFiles = s.m_changedFiles
      ∧ (setError msg s).m_stagedFiles = s.m_stagedFiles
      ∧ (setError msg s).m_lastError = msg
      ∧ notifications (setError msg s) = notifications s ++ [Signal.operationFailed msg] := by
  unfold setError
  simp [hfix, hne, emit, notifications, isNotification, List.filter_append]

/-- C10: `commit` with a blank message, or with an empty staged collection, is
rejected as a validation error before any subprocess runs: no process is
started, nothing is scheduled, the loading flag and both file collections are
unchanged, and exactly one failure notification is emitted, carrying the
validation message. -/
theorem commit_validation (env : Platform) (message : QString) (s : GitManager)
    (hinvalid : (trimmed message).isEmpty = true ∨ s.m_stagedFiles = []) :
    (commit env message s).started = s.started
      ∧ (commit env message s).tasks = s.tasks
      ∧ (commit env message s).asyncState = s.asyncState
      ∧ (commit env message s).asyncCommand = s.asyncCommand
      ∧ (commit env message s).m_isLoading = s.m_isLoading
      ∧ (commit env message s).m_changedFiles = s.m_changedFiles
      ∧ (commit env message s).m_stagedFiles = s.m_stagedFiles
      ∧ notifications (commit env message s)
          = notifications s
              ++ [Signal.operationFailed
                    (if (trimmed message).isEmpty then msgEmptyCommitMessage
                     else msgNothingStaged)] := by
  by_cases hblank : (trimmed message).isEmpty = true
  · obtain ⟨e1, e2, e3, e4, e5, e6, e7, -, e9⟩ :=
      setError_fixed msgEmptyCommitMessage s translateGitError_msgEmptyCommitMessage (by decide)
    unfold commit
    simp only [hblank, if_true]
    exact ⟨e1, e2, e3, e4, e5, e6, e7, e9⟩
  · have hstaged : s.m_stagedFiles = [] := hinvalid.resolve_left hblank
    obtain ⟨e1, e2, e3, e4, e5, e6, e7, -, e9⟩ :=
      setError_fixed msgNothingStaged s translateGitError_msgNothingStaged (by decide)
    have hblank2 : (trimmed message).isEmpty = false := by simpa using hblank
    have hse : s.m_stagedFiles.isEmpty = true := by rw [hstaged]; rfl
    unfold commit
    simp only [hblank2, hse, Bool.false_eq_true, if_true, if_false]
    exact ⟨e1, e2, e3, e4, e5, e6, e7, e9⟩

theorem commit_validation_witness :
    (commit examplePlatform (qs "fix the parser") { busyExample with m_stagedFiles := [] }).started
        = busyExample.started
      ∧ notifications
          (commit examplePlatform (qs "fix the parser") { busyExample with m_stagedFiles := [] })
        = [Signal.operationFailed msgNothingStaged]
      ∧ notifications (commit examplePlatform (qs "  ") busyExample)
        = [Signal.operationFailed msgEmptyCommitMessage] :=
  have h1 := commit_validation examplePlatform (qs "fix the parser")
    { busyExample with m_stagedFiles := [] } (Or.inr rfl)
  have h2 := commit_validation examplePlatform (qs "  ") busyExample (Or.inl (by decide))
  ⟨h1.1, h1.2.2.2.2.2.2.2, h2.2.2.2.2.2.2.2⟩

/-! ## Theorems: completion of the async process -/

theorem ite_ne_nil {c : Prop} [Decidable c] {a b : QString} (ha : a ≠ []) (hb : b ≠ []) :
    (if c then a else b) ≠ [] := by
  split <;> assumption

theorem translateGitError_ne_nil (error : QString) (herr : error ≠ []) :
    translateGitError error ≠ [] := by
  have hmsg : msgGitError ++ error ≠ [] := fun h => herr (List.append_eq_nil.mp h).2
  unfold translateGitError
  repeat' apply ite_ne_nil
  all_goals first
    | exact herr
    | exact hmsg
    | decide

theorem setError_props (error : QString) (s : GitManager) :
    notifications (setError error s)
        = notifications s ++ (if (translateGitError error).isEmpty then []
                              else [Signal.operationFailed (translateGitError error)])
      ∧ (setError error s).m_asyncSuccessMsg = s.m_asyncSuccessMsg
      ∧ (setError error s).m_repoPath = s.m_repoPath
      ∧ (setError error s).m_isLoading = s.m_isLoading := by
  unfold setError
  cases h : (translateGitError error).isEmpty <;>
    simp [h, emit, notifications, isNotification, List.filter_append]

theorem refresh_props (s : GitManager) :
    notifications (refresh s) = notifications s
      ∧ (refresh s).m_asyncSuccessMsg = s.m_asyncSuccessMsg
      ∧ (refresh s).m_repoPath = s.m_repoPath
      ∧ (refresh s).m_isLoading = (if s.m_repoPath.isEmpty then s.m_isLoading else true) := by
  unfold refresh
  cases hp : s.m_repoPath.isEmpty
  · obtain ⟨e1, e2, e3, e4⟩ := setError_props [] (setLoading true s)
    obtain ⟨f1, -, -, -, -, -, f7⟩ := setLoading_frame true s
    have hl : (setLoading true s).m_isLoading = true := by
      unfold setLoading
      cases h : s.m_isLoading <;> simp [h, emit]
    have hm : (setLoading true s).m_asyncSuccessMsg = s.m_asyncSuccessMsg := by
      unfold setLoading
      split <;> rfl
    simp only [Bool.false_eq_true, if_false]
    refine ⟨?_, e2.trans hm, e3.trans f1, e4.trans hl⟩
    show notifications (setError [] (setLoading true s)) = notifications s
    rw [e1, f7, translateGitError_nil]
    simp
  · simp [emit, notifications, isNotification, List.filter_append]

theorem setupFileWatcher_props (env : Platform) (s : GitManager) :
    (setupFileWatcher env s).emitted = s.emitted
      ∧ (setupFileWatcher env s).m_asyncSuccessMsg = s.m_asyncSuccessMsg
      ∧ (setupFileWatcher env s).m_repoPath = s.m_repoPath
      ∧ (setupFileWatcher env s).m_isLoading = s.m_isLoading := by
  unfold setupFileWatcher
  split
  · simp
  · split <;> simp

theorem addRecentRepo_props (path : QString) (s : GitManager) :
    notifications (addRecentRepo path s) = notifications s
      ∧ (addRecentRepo path s).m_asyncSuccessMsg = s.m_asyncSuccessMsg
      ∧ (addRecentRepo path s).m_repoPath = s.m_repoPath
      ∧ (addRecentRepo path s).m_isLoading = s.m_isLoading := by
  unfold addRecentRepo
  split <;> simp [emit, notifications, isNotification, List.filter_append]

theorem setRepoPath_props (env : Platform) (path : QString) (s : GitManager)
    (hl : s.m_isLoading = false) :
    notifications (setRepoPath env path s) = notifications s
      ∧ (setRepoPath env path s).m_asyncSuccessMsg = s.m_asyncSuccessMsg
      ∧ ((setRepoPath env path s).m_repoPath.isEmpty = true
          → (setRepoPath env path s).m_isLoading = false) := by
  unfold setRepoPath
  simp only []
  split
  · -- the path changes
    generalize hs1 : emit Signal.repoPathChanged { s with m_repoPath := cleanRepoPath env path }
      = s1
    have n1 : notifications s1 = notifications s := by
      rw [← hs1]; simp [emit, notifications, isNotification, List.filter_append]
    have m1 : s1.m_asyncSuccessMsg = s.m_asyncSuccessMsg := by rw [← hs1]; rfl
    have p1 : s1.m_repoPath = cleanRepoPath env path := by rw [← hs1]; rfl
    have l1 : s1.m_isLoading = false := by rw [← hs1]; exact hl
    obtain ⟨w1, w2, w3, w4⟩ := setupFileWatcher_props env s1
    have nw : notifications (setupFileWatcher env s1) = notifications s1 := by
      unfold notifications; rw [w1]
    obtain ⟨r1, r2, r3, r4⟩ := refresh_props (setupFileWatcher env s1)
    have hJ : (refresh (setupFileWatcher env s1)).m_repoPath.isEmpty = true
        → (refresh (setupFileWatcher env s1)).m_isLoading = false := by
      intro he
      rw [r3] at he
      rw [r4, he]
      simp only [if_true]
      rw [w4, l1]
    obtain ⟨a1, a2, a3, a4⟩ :=
      addRecentRepo_props (cleanRepoPath env path) (refresh (setupFileWatcher env s1))
    split
    · refine ⟨by rw [a1, r1, nw, n1], by rw [a2, r2, w2, m1], ?_⟩
      intro he
      rw [a3] at he
      rw [a4]
      exact hJ he
    · split
      · refine ⟨?_, by rw [← m1, ← w2, ← r2]; rfl, ?_⟩
        · rw [← n1, ← nw, ← r1]
          simp [emit, notifications, isNotification, List.filter_append]
        · intro he
          exact hJ he
      · exact ⟨by rw [r1, nw, n1], by rw [r2, w2, m1], hJ⟩
  · exact ⟨rfl, rfl, fun _ => hl⟩

theorem emit_notifications (sig : Signal) (s : GitManager) :
    notifications (emit sig s) = notifications s ++ (if isNotification sig then [sig] else []) := by
  unfold emit notifications
  cases h : isNotification sig <;> simp [List.filter_append, h]

theorem refresh_loading (s : GitManager)
    (hJ : s.m_repoPath.isEmpty = true → s.m_isLoading = false) :
    (refresh s).m_isLoading = !(refresh s).m_repoPath.isEmpty := by
  obtain ⟨-, -, r3, r4⟩ := refresh_props s
  rw [r4, r3]
  cases hp : s.m_repoPath.isEmpty
  · simp
  · simp [hJ hp]

theorem finished_prelude (s : GitManager) :
    ∀ s2, s2 = (if (setLoading false { s with asyncState := ProcessState.NotRunning }).m_bulkOperationMode
            then setBulkOperationMode false
              (setLoading false { s with asyncState := ProcessState.NotRunning })
            else setLoading false { s with asyncState := ProcessState.NotRunning }) →
      notifications s2 = notifications s
        ∧ s2.m_asyncSuccessMsg = s.m_asyncSuccessMsg
        ∧ s2.m_asyncErrorPrefix = s.m_asyncErrorPrefix
        ∧ s2.m_isLoading = false := by
  intro s2 hs2
  subst hs2
  unfold setBulkOperationMode setLoading
  cases hl : s.m_isLoading <;> cases hb : s.m_bulkOperationMode <;>
    simp [hl, hb, emit, notifications, isNotification, List.filter_append]

theorem finished_success_step (env : Platform) (s2 : GitManager) (hl : s2.m_isLoading = false) :
    ∀ s4, s4 = (if (s2.m_asyncSuccessMsg == qs "克隆成功" && !s2.m_cloneTargetPath.isEmpty) = true
            then { setRepoPath env s2.m_cloneTargetPath s2 with m_cloneTargetPath := [] }
            else s2) →
      notifications s4 = notifications s2
        ∧ s4.m_asyncSuccessMsg = s2.m_asyncSuccessMsg
        ∧ (s4.m_repoPath.isEmpty = true → s4.m_isLoading = false) := by
  intro s4 hs4
  subst hs4
  split
  · obtain ⟨p1, p2, p3⟩ := setRepoPath_props env s2.m_cloneTargetPath s2 hl
    exact ⟨p1, p2, p3⟩
  · exact ⟨rfl, rfl, fun _ => hl⟩

/-- C9, as stated, fails in its last part: the handler ends with `refresh()`,
which sets the loading flag again when a repository is selected.  After a
successful push in repository `/r` has been handled, one `operationSuccess`
has fired and the loading flag is true. -/
theorem onAsyncFinished_loading_counterexample :
    notifications (onAsyncFinished examplePlatform 0 [] [] busyExample)
        = [Signal.operationSuccess (qs "推送成功")]
      ∧ (onAsyncFinished examplePlatform 0 [] [] busyExample).m_isLoading = true := by
  decide

theorem onAsyncFinished_props (env : Platform) (exitCode : Int)
    (stderrBytes stdoutBytes : QByteArray) (s : GitManager) :
    notifications (onAsyncFinished env exitCode stderrBytes stdoutBytes s)
        = notifications s
            ++ [if exitCode = 0 then Signal.operationSuccess s.m_asyncSuccessMsg
                else Signal.operationFailed
                  (translateGitError
                    (s.m_asyncErrorPrefix ++ qs ": " ++ asyncErrorText stderrBytes stdoutBytes))]
      ∧ (onAsyncFinished env exitCode stderrBytes stdoutBytes s).m_isLoading
          = !(onAsyncFinished env exitCode stderrBytes stdoutBytes s).m_repoPath.isEmpty := by
  unfold onAsyncFinished
  simp only []
  generalize hs2 : (if (setLoading false { s with asyncState := ProcessState.NotRunning }).m_bulkOperationMode
            = true
            then setBulkOperationMode false
              (setLoading false { s with asyncState := ProcessState.NotRunning })
            else setLoading false { s with asyncState := ProcessState.NotRunning }) = s2
  obtain ⟨n2, m2, e2, l2⟩ := finished_prelude s s2 hs2.symm
  by_cases hx : exitCode = 0
  · -- success
    subst hx
    have hx2 : ((0 : Int) != 0) = false := by decide
    simp only [hx2, Bool.false_eq_true, if_false, eq_self_iff_true, if_true]
    generalize hs4 : (if (s2.m_asyncSuccessMsg == qs "克隆成功" && !s2.m_cloneTargetPath.isEmpty) = true
            then { setRepoPath env s2.m_cloneTargetPath s2 with m_cloneTargetPath := [] }
            else s2) = s4
    obtain ⟨n4, m4, j4⟩ := finished_success_step env s2 l2 s4 hs4.symm
    have r1 := fun t => (refresh_props t).1
    clear hs2 hs4
    have hsucc : notifications (emit (Signal.operationSuccess s4.m_asyncSuccessMsg) s4)
        = notifications s ++ [Signal.operationSuccess s.m_asyncSuccessMsg] := by
      rw [emit_notifications, n4, n2, m4, m2]
      rfl
    constructor
    · rw [r1]
      split
      · rw [emit_notifications, hsucc]
        simp [isNotification]
      · exact hsucc
    · apply refresh_loading
      split <;> exact j4
  · -- failure
    have hx2 : (exitCode != 0) = true := by simp [hx]
    simp only [hx2, if_true, if_neg hx]
    have hne : s2.m_asyncErrorPrefix ++ qs ": " ++ asyncErrorText stderrBytes stdoutBytes ≠ [] := by
      intro h
      have h1 := (List.append_eq_nil.mp h).1
      have h2 := (List.append_eq_nil.mp h1).2
      exact absurd h2 (by decide)
    have hne2 := translateGitError_ne_nil _ hne
    obtain ⟨q1, -, q3, q4⟩ := setError_props
      (s2.m_asyncErrorPrefix ++ qs ": " ++ asyncErrorText stderrBytes stdoutBytes) s2
    have r1 := fun t => (refresh_props t).1
    constructor
    · rw [r1, q1, n2, isEmpty_eq_false_of_ne_nil _ hne2, e2]
      simp
    · apply refresh_loading
      intro _
      rw [q4]
      exact l2

/-- C9 (amended): for every exit code and every captured output, the
completion handler fires exactly one of the two notifications:
`operationSuccess` with the stored success message when the exit code is 0,
otherwise `operationFailed` with the classified error.  The handler clears the
loading flag first and ends with `refresh()`: when it returns, the loading flag
is true exactly when the repository path is non-empty. -/
theorem onAsyncFinished_notifies_once (env : Platform) (exitCode : Int)
    (stderrBytes stdoutBytes : QByteArray) (s : GitManager) :
    notifications (onAsyncFinished env exitCode stderrBytes stdoutBytes s)
        = notifications s
            ++ [if exitCode = 0 then Signal.operationSuccess s.m_asyncSuccessMsg
                else Signal.operationFailed
                  (translateGitError
                    (s.m_asyncErrorPrefix ++ qs ": " ++ asyncErrorText stderrBytes stdoutBytes))]
      ∧ (onAsyncFinished env exitCode stderrBytes stdoutBytes s).m_isLoading
          = !(onAsyncFinished env exitCode stderrBytes stdoutBytes s).m_repoPath.isEmpty :=
  onAsyncFinished_props env exitCode stderrBytes stdoutBytes s

/-! ## Theorems: watcher events and the debounce timer -/

theorem statusParses_append_other (s : GitManager) (t : Task)
    (ht : ∀ p l, t ≠ Task.parseStatusWorker p l) :
    statusParses { s with tasks := s.tasks ++ [t] } = statusParses s := by
  unfold statusParses
  cases t <;> simp_all

theorem onWatchEvent_step (e : WatchEvent) (s : GitManager)
    (hsetup : s.m_settingUpWatcher = false) (hbulk : s.m_bulkOperationMode = false)
    (htimer : s.refreshTimerActive = true → s.m_pendingRefresh = true) :
    (onWatchEvent e s).m_pendingRefresh = true
      ∧ (onWatchEvent e s).refreshTimerActive = true
      ∧ (onWatchEvent e s).m_settingUpWatcher = false
      ∧ (onWatchEvent e s).m_bulkOperationMode = false
      ∧ (onWatchEvent e s).m_isLoading = s.m_isLoading
      ∧ (onWatchEvent e s).m_repoPath = s.m_repoPath
      ∧ statusParses (onWatchEvent e s) = statusParses s
      ∧ (onWatchEvent e s).emitted = s.emitted := by
  cases e with
  | fileChanged path =>
    simp [onWatchEvent, onFileChanged, hsetup, hbulk, statusParses]
  | directoryChanged path =>
    cases ha : s.refreshTimerActive
    · simp only [onWatchEvent, onDirectoryChanged, hsetup, hbulk, ha, Bool.or_self,
        Bool.false_eq_true, if_false, Bool.not_false, if_true, Bool.and_true]
      split
      · simp [statusParses, hsetup, hbulk]
      · split <;> simp [statusParses, hsetup, hbulk]
    · have hp := htimer ha
      simp only [onWatchEvent, onDirectoryChanged, hsetup, hbulk, ha, Bool.or_self,
        Bool.false_eq_true, if_false, Bool.not_true, Bool.not_false, Bool.and_true]
      split
      · simp [statusParses, hsetup, hbulk, ha, hp]
      · split <;> simp [statusParses, hsetup, hbulk, ha, hp]

theorem onWatchEvents_burst (events : List WatchEvent) :
    ∀ s : GitManager, events ≠ [] → s.m_settingUpWatcher = false → s.m_bulkOperationMode = false →
      (s.refreshTimerActive = true → s.m_pendingRefresh = true) →
      (onWatchEvents events s).m_pendingRefresh = true
        ∧ (onWatchEvents events s).refreshTimerActive = true
        ∧ (onWatchEvents events s).m_settingUpWatcher = false
        ∧ (onWatchEvents events s).m_bulkOperationMode = false
        ∧ (onWatchEvents events s).m_isLoading = s.m_isLoading
        ∧ (onWatchEvents events s).m_repoPath = s.m_repoPath
        ∧ statusParses (onWatchEvents events s) = statusParses s
        ∧ (onWatchEvents events s).emitted = s.emitted := by
  induction events with
  | nil => intro s h; exact absurd rfl h
  | cons e rest ih =>
    intro s _ hsetup hbulk htimer
    obtain ⟨a1, a2, a3, a4, a5, a6, a7, a8⟩ := onWatchEvent_step e s hsetup hbulk htimer
    cases rest with
    | nil => exact ⟨a1, a2, a3, a4, a5, a6, a7, a8⟩
    | cons e2 rest2 =>
      obtain ⟨b1, b2, b3, b4, b5, b6, b7, b8⟩ :=
        ih (onWatchEvent e s) (by simp) a3 a4 (fun _ => a1)
      have hfold : onWatchEvents (e :: e2 :: rest2) s
          = onWatchEvents (e2 :: rest2) (onWatchEvent e s) := rfl
      rw [hfold]
      exact ⟨b1, b2, b3, b4, b5.trans a5, b6.trans a6, b7.trans a7, b8.trans a8⟩

theorem fireRefreshTimer_armed (s : GitManager) (hp : s.m_pendingRefresh = true)
    (ha : s.refreshTimerActive = true) (hsetup : s.m_settingUpWatcher = false)
    (hload : s.m_isLoading = false) :
    statusParses (fireRefreshTimer s) = statusParses s ++ [(s.m_repoPath, false)]
      ∧ (fireRefreshTimer s).m_isLoading = false
      ∧ (fireRefreshTimer s).refreshTimerActive = false
      ∧ (fireRefreshTimer s).m_pendingRefresh = false
      ∧ (fireRefreshTimer s).emitted = s.emitted := by
  simp [fireRefreshTimer, onRefreshTimeout, parseStatusAsync, statusParses, hp, ha, hsetup, hload,
    List.filterMap_append]

/-- The hypothesis of the burst theorem on the timer is an invariant: it holds
after construction and is kept by every change event and by the timer firing
(no other modelled operation writes the two members). -/
theorem timer_pending_invariant :
    (initialState.refreshTimerActive = true → initialState.m_pendingRefresh = true)
      ∧ (∀ (e : WatchEvent) (s : GitManager),
          (s.refreshTimerActive = true → s.m_pendingRefresh = true) →
          ((onWatchEvent e s).refreshTimerActive = true
            → (onWatchEvent e s).m_pendingRefresh = true))
      ∧ (∀ s : GitManager, (fireRefreshTimer s).refreshTimerActive = true
          → (fireRefreshTimer s).m_pendingRefresh = true) := by
  refine ⟨by decide, ?_, ?_⟩
  · intro e s hinv
    cases e with
    | fileChanged path => intro _; rfl
    | directoryChanged path =>
      cases ha : s.refreshTimerActive
      · unfold onWatchEvent onDirectoryChanged
        simp only [ha, Bool.not_false, if_true]
        split
        · intro h; rw [ha] at h; exact absurd h (by decide)
        · split
          · intro _; rfl
          · split <;> (intro _; rfl)
      · have hp := hinv ha
        unfold onWatchEvent onDirectoryChanged
        simp only [ha, Bool.not_true, Bool.false_eq_true, if_false]
        split
        · intro _; exact hp
        · split
          · intro _; exact hp
          · split <;> (intro _; exact hp)
  · intro s
    unfold fireRefreshTimer
    cases ha : s.refreshTimerActive
    · intro h
      simp only [Bool.false_eq_true, if_false] at h
      rw [ha] at h
      exact absurd h (by decide)
    · intro h
      simp only [if_true, onRefreshTimeout, parseStatusAsync] at h
      split at h <;> simp at h

/-- C11: a burst of N ≥ 1 change events (file or directory, in any mix) that
arrive before the debounce timer fires, with no guard set and nothing loading,
triggers exactly one status parse when the timer fires; the timer does not fire
again; the parse is issued without the loading indicator, and neither its
dispatch nor its completion touches the loading flag or emits
`isLoadingChanged`. -/
theorem burst_triggers_one_refresh (events : List WatchEvent) (s : GitManager)
    (hN : events ≠ []) (hsetup : s.m_settingUpWatcher = false)
    (hbulk : s.m_bulkOperationMode = false) (hload : s.m_isLoading = false)
    (htimer : s.refreshTimerActive = true → s.m_pendingRefresh = true) :
    statusParses (fireRefreshTimer (onWatchEvents events s))
        = statusParses s ++ [(s.m_repoPath, false)]
      ∧ fireRefreshTimer (fireRefreshTimer (onWatchEvents events s))
          = fireRefreshTimer (onWatchEvents events s)
      ∧ (fireRefreshTimer (onWatchEvents events s)).m_isLoading = false
      ∧ (fireRefreshTimer (onWatchEvents events s)).emitted = s.emitted
      ∧ (∀ changedFiles stagedFiles,
          (onParseStatusFinished changedFiles stagedFiles false
              (fireRefreshTimer (onWatchEvents events s))).m_isLoading = false
            ∧ Signal.isLoadingChanged ∉
                ((onParseStatusFinished changedFiles stagedFiles false
                    (fireRefreshTimer (onWatchEvents events s))).emitted.drop
                  s.emitted.length)) := by
  obtain ⟨b1, b2, b3, -, b5, b6, b7, b8⟩ := onWatchEvents_burst events s hN hsetup hbulk htimer
  obtain ⟨f1, f2, f3, -, f5⟩ :=
    fireRefreshTimer_armed (onWatchEvents events s) b1 b2 b3 (b5.trans hload)
  refine ⟨by rw [f1, b7, b6], ?_, f2, f5.trans b8, ?_⟩
  · generalize fireRefreshTimer (onWatchEvents events s) = t at f3
    simp [fireRefreshTimer, f3]
  · intro changedFiles stagedFiles
    have he := f5.trans b8
    generalize fireRefreshTimer (onWatchEvents events s) = t at f2 he
    simp [onParseStatusFinished, emit, f2, he]

theorem burst_triggers_one_refresh_witness :
    statusParses (fireRefreshTimer (onWatchEvents
        [WatchEvent.fileChanged (qs "/r/.git/index"), WatchEvent.directoryChanged (qs "/r"),
         WatchEvent.fileChanged (qs "/r/.git/index")] idleExample))
      = [(qs "/r", false)] :=
  (burst_triggers_one_refresh
    [WatchEvent.fileChanged (qs "/r/.git/index"), WatchEvent.directoryChanged (qs "/r"),
     WatchEvent.fileChanged (qs "/r/.git/index")] idleExample
    (by decide) rfl rfl rfl (by decide)).1

/-- C12, as stated, fails: the timer fires during a refresh (loading flag
set) with the pending flag set; nothing is started.  When the refresh's status
parse completes and clears the loading flag, the pending flag is still set but
the single-shot timer is stopped, and no follow-up parse has been or will be
issued. -/
theorem timer_under_guard_counterexample :
    (fireRefreshTimer refreshingExample).m_pendingRefresh = true
      ∧ (onParseStatusFinished [] [] true (fireRefreshTimer refreshingExample)).m_isLoading = false
      ∧ (onParseStatusFinished [] [] true (fireRefreshTimer refreshingExample)).m_pendingRefresh
          = true
      ∧ (onParseStatusFinished [] [] true (fireRefreshTimer refreshingExample)).refreshTimerActive
          = false
      ∧ statusParses (onParseStatusFinished [] [] true (fireRefreshTimer refreshingExample)) = []
      ∧ statusParses (fireRefreshTimer
          (onParseStatusFinished [] [] true (fireRefreshTimer refreshingExample))) = [] := by
  decide

/-- C12 (amended): when the debounce timer fires with the pending flag set
while the loading flag or the setting-up flag is set, no parse is started and
the pending flag stays set, but the timer is not re-armed: the guard clearing
(the refresh's status parse completing, or the watcher setup completing)
triggers nothing.  The follow-up happens when a further change event re-arms
the timer, and then exactly one parse is issued. -/
theorem timer_under_guard (s : GitManager) (hp : s.m_pendingRefresh = true)
    (ha : s.refreshTimerActive = true)
    (hguard : s.m_isLoading = true ∨ s.m_settingUpWatcher = true) :
    fireRefreshTimer s = { s with refreshTimerActive := false }
      ∧ (∀ changedFiles stagedFiles,
          statusParses (fireRefreshTimer
              (onParseStatusFinished changedFiles stagedFiles true (fireRefreshTimer s)))
            = statusParses s)
      ∧ (∀ pathsToWatch,
          statusParses (fireRefreshTimer (onWatcherSetupFinished pathsToWatch (fireRefreshTimer s)))
            = statusParses s)
      ∧ (∀ changedFiles stagedFiles path, s.m_settingUpWatcher = false →
          statusParses (fireRefreshTimer (onFileChanged path
              (onParseStatusFinished changedFiles stagedFiles true (fireRefreshTimer s))))
            = statusParses s ++ [(s.m_repoPath, false)]) := by
  have hfire : fireRefreshTimer s = { s with refreshTimerActive := false } := by
    rcases hguard with hl | hw
    · simp [fireRefreshTimer, onRefreshTimeout, ha, hp, hl]
    · simp [fireRefreshTimer, onRefreshTimeout, ha, hp, hw]
  refine ⟨hfire, ?_, ?_, ?_⟩
  · intro changedFiles stagedFiles
    rw [hfire]
    cases hl : s.m_isLoading <;>
      simp [onParseStatusFinished, setLoading, emit, fireRefreshTimer, statusParses, hl]
  · intro pathsToWatch
    rw [hfire]
    simp [onWatcherSetupFinished, fireRefreshTimer, statusParses]
  · intro changedFiles stagedFiles path hw
    rw [hfire]
    cases hl : s.m_isLoading <;>
      simp [onParseStatusFinished, setLoading, emit, onFileChanged, fireRefreshTimer,
        onRefreshTimeout, parseStatusAsync, statusParses, hl, hw, List.filterMap_append]

theorem timer_under_guard_witness :
    fireRefreshTimer refreshingExample = { refreshingExample with refreshTimerActive := false }
      ∧ statusParses (fireRefreshTimer (onFileChanged (qs "/r/.git/index")
          (onParseStatusFinished [] [] true (fireRefreshTimer refreshingExample))))
        = [(qs "/r", false)] :=
  have h := timer_under_guard refreshingExample rfl rfl (Or.inl rfl)
  ⟨h.1, h.2.2.2 [] [] (qs "/r/.git/index") rfl⟩

theorem onDirectoryChanged_guarded (path : QString) (s : GitManager)
    (hguard : s.m_settingUpWatcher = true ∨ s.m_bulkOperationMode = true) :
    onDirectoryChanged path s = s := by
  rcases hguard with h | h <;> simp [onDirectoryChanged, h]

/-- C13 fails on the code for file-change events: the `fileChanged` handler
tests no guard.  In bulk-operation mode, or while the watcher is being set up,
a change of the watched `.git/index` sets the pending flag and starts the
debounce timer, and in bulk mode the timer then issues a status parse.  The
`directoryChanged` handler, its sibling, ignores the event in both states. -/
theorem onFileChanged_ignores_guards :
    (onFileChanged (qs "/r/.git/index") bulkExample).m_pendingRefresh = true
      ∧ (onFileChanged (qs "/r/.git/index") bulkExample).refreshTimerActive = true
      ∧ statusParses (fireRefreshTimer (onFileChanged (qs "/r/.git/index") bulkExample))
          = [(qs "/r", false)]
      ∧ (onFileChanged (qs "/r/.git/index") settingUpExample).m_pendingRefresh = true
      ∧ (onFileChanged (qs "/r/.git/index") settingUpExample).refreshTimerActive = true
      ∧ onDirectoryChanged (qs "/r") bulkExample = bulkExample
      ∧ onDirectoryChanged (qs "/r") settingUpExample = settingUpExample := by
  decide

/-! ## Theorems: completions of refresh and of the status parse -/

/-- C14 fails on the code when a refresh completes late: `/r` is opened (a
refresh worker is queued), the path is set back to empty (validity flag
cleared), then the worker of the first refresh completes and reports a valid
repository: the validity flag is true while the repository path is empty. -/
theorem late_refresh_breaks_validity :
    (setRepoPath examplePlatform (qs "/r") initialState).tasks = [Task.refreshWorker (qs "/r")]
      ∧ (setRepoPath examplePlatform []
          (setRepoPath examplePlatform (qs "/r") initialState)).m_repoPath = []
      ∧ (setRepoPath examplePlatform []
          (setRepoPath examplePlatform (qs "/r") initialState)).m_isValidRepo = false
      ∧ (onRefreshFinished validResult (setRepoPath examplePlatform []
          (setRepoPath examplePlatform (qs "/r") initialState))).m_repoPath = []
      ∧ (onRefreshFinished validResult (setRepoPath examplePlatform []
          (setRepoPath examplePlatform (qs "/r") initialState))).m_isValidRepo = true := by
  decide

/-- C15, as stated, fails: two parses are issued; the newer one completes
first and publishes its result; then the older one completes and its stale
result replaces the newer one. -/
theorem stale_parse_counterexample :
    statusParses (parseStatusAsync true (parseStatusAsync true idleExample))
        = [(qs "/r", true), (qs "/r", true)]
      ∧ (onParseStatusFinished [exampleEntry (qs "new.txt")] [] true
          (parseStatusAsync true (parseStatusAsync true idleExample))).m_changedFiles
        = [exampleEntry (qs "new.txt")]
      ∧ (onParseStatusFinished [exampleEntry (qs "old.txt")] [] true
          (onParseStatusFinished [exampleEntry (qs "new.txt")] [] true
            (parseStatusAsync true (parseStatusAsync true idleExample)))).m_changedFiles
        = [exampleEntry (qs "old.txt")] := by
  decide

/-- C15 (amended): the completion of a status parse applies its result
unconditionally, whatever has been issued since: the changed-files and
staged-files collections become the lists of the completing parse.  The
published collections are those of the parse that completed last. -/
theorem onParseStatusFinished_applies (changedFiles stagedFiles : List FileInfo)
    (showLoading : Bool) (s : GitManager) :
    (onParseStatusFinished changedFiles stagedFiles showLoading s).m_changedFiles = changedFiles
      ∧ (onParseStatusFinished changedFiles stagedFiles showLoading s).m_stagedFiles = stagedFiles
      ∧ (onParseStatusFinished changedFiles stagedFiles showLoading s).tasks = s.tasks := by
  unfold onParseStatusFinished setLoading
  cases showLoading <;> cases hl : s.m_isLoading <;> simp [emit, hl]

theorem translateGitError_msgInvalidRepo : translateGitError msgInvalidRepo = msgInvalidRepo := by
  decide

/-- C16: when a refresh completes with an invalid root, the state changes in
the validity flag (false), the error (the invalid-repository message) and the
loading flag (false) only; every other member, in particular the current
branch, the three branch lists, the user name and email and both file
collections, is what it was; no task is queued. -/
theorem onRefreshFinished_invalid (r : RefreshResult) (s : GitManager)
    (hinvalid : r.isValidRepo = false) :
    onRefreshFinished r s
      = { s with
          m_isValidRepo := false
          m_lastError := msgInvalidRepo
          m_isLoading := false
          emitted := s.emitted
            ++ [Signal.isValidRepoChanged, Signal.lastErrorChanged,
                Signal.operationFailed msgInvalidRepo]
            ++ (if s.m_isLoading then [Signal.isLoadingChanged] else []) } := by
  have hne : msgInvalidRepo ≠ [] := by decide
  unfold onRefreshFinished setError
  simp only [hinvalid, translateGitError_msgInvalidRepo]
  cases hl : s.m_isLoading <;> simp [setLoading, emit, hl, hne]

theorem onRefreshFinished_invalid_witness :
    (onRefreshFinished { validResult with isValidRepo := false } busyExample).m_currentBranch
        = qs "main"
      ∧ (onRefreshFinished { validResult with isValidRepo := false } busyExample).m_stagedFiles
        = busyExample.m_stagedFiles
      ∧ (onRefreshFinished { validResult with isValidRepo := false } busyExample).m_isValidRepo
        = false :=
  have h := onRefreshFinished_invalid { validResult with isValidRepo := false } busyExample rfl
  ⟨by rw [h]; rfl, by rw [h], by rw [h]⟩

/-! ## Theorems: the escape decoder applied twice -/

theorem hasOctalEscape_of_no_backslash (s : QString) (hb : chBackslash ∉ s) :
    hasOctalEscape s = false := by
  induction s with
  | nil => rfl
  | cons c t ih =>
    have hc : c ≠ chBackslash := fun h => hb (h ▸ List.mem_cons_self c t)
    have ht : chBackslash ∉ t := fun h => hb (List.mem_cons_of_mem c h)
    simp [hasOctalEscape, hc, ih ht]

theorem replaceAux_of_no_backslash (x : Nat) (after s : QString) (hb : chBackslash ∉ s) :
    replaceAux [chBackslash, x] after 0 s = s := by
  induction s with
  | nil => rfl
  | cons c t ih =>
    have hc : chBackslash ≠ c := fun h => hb (h ▸ List.mem_cons_self chBackslash t)
    have ht : chBackslash ∉ t := fun h => hb (List.mem_cons_of_mem c h)
    simp [replaceAux, List.isPrefixOf, hc, ih ht]

theorem simpleEscapes_of_no_backslash (s : QString) (hb : chBackslash ∉ s) :
    simpleEscapes s = s := by
  have h := fun x after => replaceAux_of_no_backslash x after s hb
  have h1 := h 110 [10]
  have h2 := h 116 [9]
  have h3 := h 114 [13]
  have h4 := h 34 [34]
  have h5 := h 92 [92]
  simp only [chBackslash] at h1 h2 h3 h4 h5
  simp only [simpleEscapes, replace, h1, h2, h3, h4, h5]

theorem decodeOctalEscapes_of_no_backslash (s : QString) (hb : chBackslash ∉ s) :
    decodeOctalEscapes s = stripQuotes s := by
  have hs : chBackslash ∉ stripQuotes s := by
    unfold stripQuotes
    split
    · intro h
      exact hb (List.mem_of_mem_drop (List.mem_of_mem_take h))
    · exact hb
  unfold decodeOctalEscapes
  simp only [hasOctalEscape_of_no_backslash _ hs, Bool.not_false, if_true]
  exact simpleEscapes_of_no_backslash _ hs

theorem stripQuotes_of_not_wrapped (t : QString)
    (h : (startsWithChar t chQuote && endsWithChar t chQuote) = false) : stripQuotes t = t := by
  unfold stripQuotes
  rw [h]
  rfl

/-- C18, as stated, fails: the decoder's output can itself hold an escape or
a quoted string.  Four backslashes (ASCII) decode to two, and those decode to
one; a doubly quoted `a` loses one pair of quotes per call. -/
theorem decodeOctalEscapes_twice_counterexample :
    decodeOctalEscapes [92, 92, 92, 92] = [92, 92]
      ∧ decodeOctalEscapes (decodeOctalEscapes [92, 92, 92, 92]) = [92]
      ∧ decodeOctalEscapes [34, 34, 97, 34, 34] = [34, 97, 34]
      ∧ decodeOctalEscapes (decodeOctalEscapes [34, 34, 97, 34, 34]) = [97] := by
  decide

/-- C18 (amended): on text that holds no backslash and that, once its
surrounding quotes are stripped, is not wrapped in double quotes again, the
decoder is idempotent; on such text that is not wrapped in double quotes at all
it is the identity. -/
theorem decodeOctalEscapes_idempotent (s : QString) (hb : chBackslash ∉ s)
    (hq : (startsWithChar (stripQuotes s) chQuote && endsWithChar (stripQuotes s) chQuote)
      = false) :
    decodeOctalEscapes (decodeOctalEscapes s) = decodeOctalEscapes s
      ∧ ((startsWithChar s chQuote && endsWithChar s chQuote) = false
          → decodeOctalEscapes s = s) := by
  have hs : chBackslash ∉ stripQuotes s := by
    unfold stripQuotes
    split
    · intro h
      exact hb (List.mem_of_mem_drop (List.mem_of_mem_take h))
    · exact hb
  have h1 := decodeOctalEscapes_of_no_backslash s hb
  have h2 := decodeOctalEscapes_of_no_backslash (stripQuotes s) hs
  have h3 : stripQuotes (stripQuotes s) = stripQuotes s :=
    stripQuotes_of_not_wrapped (stripQuotes s) hq
  constructor
  · rw [h1, h2, h3]
  · intro hn
    rw [h1]
    exact stripQuotes_of_not_wrapped s hn

theorem decodeOctalEscapes_idempotent_witness :
    decodeOctalEscapes (decodeOctalEscapes (qs "src/main.cpp")) = decodeOctalEscapes (qs "src/main.cpp")
      ∧ decodeOctalEscapes (qs "src/main.cpp") = qs "src/main.cpp" :=
  have h := decodeOctalEscapes_idempotent (qs "src/main.cpp") (by decide) (by decide)
  ⟨h.1, h.2 (by decide)⟩

/-! ## Theorems: diff parser -/

theorem diffLoop_delete (line : QString) (rest : List QString) (o n : Int)
    (h1 : isDiffHeaderLine line = false) (h2 : (qs "@@").isPrefixOf line = false)
    (h3 : (qs "-").isPrefixOf line = true) :
    diffLoop (line :: rest) o n
      = { type := qs "delete", content := line.drop 1, lineNum := o }
          :: diffLoop rest (wrapInt32 (o + 1)) n := by
  simp [diffLoop, h1, h2, h3]

theorem diffLoop_add (line : QString) (rest : List QString) (o n : Int)
    (h1 : isDiffHeaderLine line = false) (h2 : (qs "@@").isPrefixOf line = false)
    (h3 : (qs "-").isPrefixOf line = false) (h4 : (qs "+").isPrefixOf line = true) :
    diffLoop (line :: rest) o n
      = { type := qs "add", content := line.drop 1, lineNum := n }
          :: diffLoop rest o (wrapInt32 (n + 1)) := by
  simp [diffLoop, h1, h2, h3, h4]

theorem diffLoop_context (line : QString) (rest : List QString) (o n : Int)
    (h1 : isDiffHeaderLine line = false) (h2 : (qs "@@").isPrefixOf line = false)
    (h3 : (qs "-").isPrefixOf line = false) (h4 : (qs "+").isPrefixOf line = false)
    (h5 : (qs " ").isPrefixOf line = true) :
    diffLoop (line :: rest) o n
      = { type := qs "context", content := line.drop 1, lineNum := n }
          :: diffLoop rest (wrapInt32 (o + 1)) (wrapInt32 (n + 1)) := by
  simp [diffLoop, h1, h2, h3, h4, h5]

theorem diffLoop_skip (line : QString) (rest : List QString) (o n : Int)
    (h : isDiffHeaderLine line = true
      ∨ (isDiffHeaderLine line = false ∧ (qs "@@").isPrefixOf line = false
          ∧ (qs "-").isPrefixOf line = false ∧ (qs "+").isPrefixOf line = false
          ∧ (qs " ").isPrefixOf line = false)) :
    diffLoop (line :: rest) o n = diffLoop rest o n := by
  rcases h with h | ⟨h1, h2, h3, h4, h5⟩
  · simp [diffLoop, h]
  · simp [diffLoop, h1, h2, h3, h4, h5]

theorem diffLoop_hunk (line : QString) (rest : List QString) (o n : Int) (a c : Nat)
    (hh : isHunkHeaderLine line = true) (hs : hunkStart line = some (a, c)) :
    diffLoop (line :: rest) o n
      = { type := qs "header", content := line, lineNum := 0 }
          :: diffLoop rest (a : Int) (c : Int) := by
  have h1 : isDiffHeaderLine line = false := by
    simp only [isHunkHeaderLine, Bool.and_eq_true, Bool.not_eq_true'] at hh
    exact hh.1
  have h2 : (qs "@@").isPrefixOf line = true := by
    simp only [isHunkHeaderLine, Bool.and_eq_true] at hh
    exact hh.2
  simp [diffLoop, h1, h2, hs]

/-- The four shapes of the loop step on a line that opens no hunk. -/
theorem diffLoop_cases (line : QString) (rest : List QString) (o n : Int)
    (hh : isHunkHeaderLine line = false) :
    diffLoop (line :: rest) o n = diffLoop rest o n
      ∨ diffLoop (line :: rest) o n
          = { type := qs "delete", content := line.drop 1, lineNum := o }
              :: diffLoop rest (wrapInt32 (o + 1)) n
      ∨ diffLoop (line :: rest) o n
          = { type := qs "add", content := line.drop 1, lineNum := n }
              :: diffLoop rest o (wrapInt32 (n + 1))
      ∨ diffLoop (line :: rest) o n
          = { type := qs "context", content := line.drop 1, lineNum := n }
              :: diffLoop rest (wrapInt32 (o + 1)) (wrapInt32 (n + 1)) := by
  cases h1 : isDiffHeaderLine line
  · have h2 : (qs "@@").isPrefixOf line = false := by
      simpa [isHunkHeaderLine, h1] using hh
    cases h3 : (qs "-").isPrefixOf line
    · cases h4 : (qs "+").isPrefixOf line
      · cases h5 : (qs " ").isPrefixOf line
        · exact Or.inl (diffLoop_skip line rest o n (Or.inr ⟨h1, h2, h3, h4, h5⟩))
        · exact Or.inr (Or.inr (Or.inr (diffLoop_context line rest o n h1 h2 h3 h4 h5)))
      · exact Or.inr (Or.inr (Or.inl (diffLoop_add line rest o n h1 h2 h3 h4)))
    · exact Or.inr (Or.inl (diffLoop_delete line rest o n h1 h2 h3))
  · exact Or.inl (diffLoop_skip line rest o n (Or.inl h1))

theorem entry_kinds :
    (∀ c k, isNewSide { type := qs "delete", content := c, lineNum := k } = false)
      ∧ (∀ c k, isNewSide { type := qs "add", content := c, lineNum := k } = true)
      ∧ (∀ c k, isNewSide { type := qs "context", content := c, lineNum := k } = true)
      ∧ (∀ c k, isOldSide { type := qs "delete", content := c, lineNum := k } = true)
      ∧ (∀ c k, isOldSide { type := qs "add", content := c, lineNum := k } = false)
      ∧ (∀ c k, isOldSide { type := qs "context", content := c, lineNum := k } = true)
      ∧ (∀ c k, isDeleteEntry { type := qs "delete", content := c, lineNum := k } = true)
      ∧ (∀ c k, isDeleteEntry { type := qs "add", content := c, lineNum := k } = false)
      ∧ (∀ c k, isDeleteEntry { type := qs "context", content := c, lineNum := k } = false) := by
  refine ⟨?_, ?_, ?_, ?_, ?_, ?_, ?_, ?_, ?_⟩ <;> intro c k
  · show (qs "delete" == qs "add" || qs "delete" == qs "context") = false; decide
  · show (qs "add" == qs "add" || qs "add" == qs "context") = true; decide
  · show (qs "context" == qs "add" || qs "context" == qs "context") = true; decide
  · show (qs "delete" == qs "delete" || qs "delete" == qs "context") = true; decide
  · show (qs "add" == qs "delete" || qs "add" == qs "context") = false; decide
  · show (qs "context" == qs "delete" || qs "context" == qs "context") = true; decide
  · show (qs "delete" == qs "delete") = true; decide
  · show (qs "add" == qs "delete") = false; decide
  · show (qs "context" == qs "delete") = false; decide

theorem wrapInt32_range (v : Int) :
    -2147483648 ≤ wrapInt32 v ∧ wrapInt32 v ≤ 2147483647 := by
  unfold wrapInt32
  omega

theorem wrapInt32_natSucc (n : Nat) (h : n + 1 ≤ 2147483647) :
    wrapInt32 ((n : Int) + 1) = ((n + 1 : Nat) : Int) := by
  unfold wrapInt32
  push_cast
  omega

theorem toIntDec_le (ds : QString) : toIntDec ds ≤ 2147483647 := by
  unfold toIntDec
  simp only []
  split
  · assumption
  · omega

/-- The number of an entry, for every hunk body and counters in the `int`
range: the counter at the start of the body plus the number of entries before
it that advance that counter, in `int` arithmetic. -/
theorem diffLoop_positions (body : List QString) :
    ∀ o n : Int, (-2147483648 ≤ o ∧ o ≤ 2147483647) → (-2147483648 ≤ n ∧ n ≤ 2147483647) →
      (∀ l ∈ body, isHunkHeaderLine l = false) →
      ∀ (i : Nat) (e : DiffLine), (diffLoop body o n)[i]? = some e →
        (isDeleteEntry e = true
            → e.lineNum = wrapInt32 (o + (((diffLoop body o n).take i).countP isOldSide : Nat)))
          ∧ (isNewSide e = true
            → e.lineNum
                = wrapInt32 (n + (((diffLoop body o n).take i).countP isNewSide : Nat))) := by
  obtain ⟨k1, k2, k3, k4, k5, k6, k7, k8, k9⟩ := entry_kinds
  induction body with
  | nil => intro o n _ _ _ i e he; simp [diffLoop] at he
  | cons line rest ih =>
    intro o n ho hn hb i e he
    have hl : isHunkHeaderLine line = false := hb line (List.mem_cons_self line rest)
    have hr : ∀ l ∈ rest, isHunkHeaderLine l = false :=
      fun l hl => hb l (List.mem_cons_of_mem line hl)
    have ho1 := wrapInt32_range (o + 1)
    have hn1 := wrapInt32_range (n + 1)
    rcases diffLoop_cases line rest o n hl with h | h | h | h
    · rw [h] at he ⊢
      exact ih o n ho hn hr i e he
    · rw [h] at he ⊢
      cases i with
      | zero =>
        simp only [List.getElem?_cons_zero, Option.some.injEq] at he
        subst he
        simp only [k1, List.take_zero, List.countP_nil, Bool.false_eq_true, false_implies,
          and_true]
        intro _
        unfold wrapInt32
        push_cast
        omega
      | succ j =>
        simp only [List.getElem?_cons_succ] at he
        obtain ⟨p1, p2⟩ := ih (wrapInt32 (o + 1)) n ho1 hn hr j e he
        simp only [List.take_succ_cons, List.countP_cons, k1, k4, if_true, Bool.false_eq_true,
          if_false]
        constructor
        · intro hd; rw [p1 hd]; unfold wrapInt32; push_cast; omega
        · intro hn; rw [p2 hn]; unfold wrapInt32; push_cast; omega
    · rw [h] at he ⊢
      cases i with
      | zero =>
        simp only [List.getElem?_cons_zero, Option.some.injEq] at he
        subst he
        simp only [k8, List.take_zero, List.countP_nil, Bool.false_eq_true, false_implies,
          true_and]
        intro _
        unfold wrapInt32
        push_cast
        omega
      | succ j =>
        simp only [List.getElem?_cons_succ] at he
        obtain ⟨p1, p2⟩ := ih o (wrapInt32 (n + 1)) ho hn1 hr j e he
        simp only [List.take_succ_cons, List.countP_cons, k2, k5, if_true, Bool.false_eq_true,
          if_false]
        constructor
        · intro hd; rw [p1 hd]; unfold wrapInt32; push_cast; omega
        · intro hn; rw [p2 hn]; unfold wrapInt32; push_cast; omega
    · rw [h] at he ⊢
      cases i with
      | zero =>
        simp only [List.getElem?_cons_zero, Option.some.injEq] at he
        subst he
        simp only [k9, List.take_zero, List.countP_nil, Bool.false_eq_true, false_implies,
          true_and]
        intro _
        unfold wrapInt32
        push_cast
        omega
      | succ j =>
        simp only [List.getElem?_cons_succ] at he
        obtain ⟨p1, p2⟩ := ih (wrapInt32 (o + 1)) (wrapInt32 (n + 1)) ho1 hn1 hr j e he
        simp only [List.take_succ_cons, List.countP_cons, k3, k6, if_true, Bool.false_eq_true,
          if_false]
        constructor
        · intro hd; rw [p1 hd]; unfold wrapInt32; push_cast; omega
        · intro hn; rw [p2 hn]; unfold wrapInt32; push_cast; omega

/-- While the new-side counter cannot pass 2147483647 in the body, the
add/context entries are numbered n, n+1, n+2, ... -/
theorem diffLoop_newSide_range (body : List QString) :
    ∀ (o : Int) (n : Nat), n + body.length ≤ 2147483647 →
      (∀ l ∈ body, isHunkHeaderLine l = false) →
      ((diffLoop body o n).filter isNewSide).map (fun e => e.lineNum)
        = (List.range' n ((diffLoop body o n).filter isNewSide).length).map Int.ofNat := by
  obtain ⟨k1, k2, k3, -, -, -, -, -, -⟩ := entry_kinds
  induction body with
  | nil => intro o n _ _; simp [diffLoop]
  | cons line rest ih =>
    intro o n hbound hb
    have hl : isHunkHeaderLine line = false := hb line (List.mem_cons_self line rest)
    have hr : ∀ l ∈ rest, isHunkHeaderLine l = false :=
      fun l hl => hb l (List.mem_cons_of_mem line hl)
    rw [List.length_cons] at hbound
    have hw := wrapInt32_natSucc n (by omega)
    rcases diffLoop_cases line rest o n hl with h | h | h | h
    · rw [h]; exact ih o n (by omega) hr
    · rw [h]
      simp only [List.filter_cons, k1, Bool.false_eq_true, if_false]
      exact ih (wrapInt32 (o + 1)) n (by omega) hr
    · rw [h, hw]
      simp only [List.filter_cons, k2, if_true, List.map_cons, List.length_cons,
        List.range'_succ]
      rw [ih o (n + 1) (by omega) hr]
      rfl
    · rw [h, hw]
      simp only [List.filter_cons, k3, if_true, List.map_cons, List.length_cons,
        List.range'_succ]
      rw [ih (wrapInt32 (o + 1)) (n + 1) (by omega) hr]
      rfl

/-- While the old-side counter cannot pass 2147483647 in the body, the numbers
of the delete entries are at least the counter and strictly increasing. -/
theorem diffLoop_delete_increasing (body : List QString) :
    ∀ (o : Nat) (n : Int), o + body.length ≤ 2147483647 →
      (∀ l ∈ body, isHunkHeaderLine l = false) →
      (∀ x ∈ ((diffLoop body o n).filter isDeleteEntry).map (fun e => e.lineNum), (o : Int) ≤ x)
        ∧ List.Pairwise (fun x y => x < y)
            (((diffLoop body o n).filter isDeleteEntry).map (fun e => e.lineNum)) := by
  obtain ⟨-, -, -, -, -, -, k7, k8, k9⟩ := entry_kinds
  induction body with
  | nil => intro o n _ _; simp [diffLoop]
  | cons line rest ih =>
    intro o n hbound hb
    have hl : isHunkHeaderLine line = false := hb line (List.mem_cons_self line rest)
    have hr : ∀ l ∈ rest, isHunkHeaderLine l = false :=
      fun l hl => hb l (List.mem_cons_of_mem line hl)
    rw [List.length_cons] at hbound
    have hw := wrapInt32_natSucc o (by omega)
    rcases diffLoop_cases line rest o n hl with h | h | h | h
    · rw [h]; exact ih o n (by omega) hr
    · rw [h, hw]
      obtain ⟨q1, q2⟩ := ih (o + 1) n (by omega) hr
      simp only [List.filter_cons, k7, if_true, List.map_cons, List.pairwise_cons,
        List.mem_cons, forall_eq_or_imp]
      refine ⟨⟨Int.le_refl _, fun x hx => ?_⟩, ?_, q2⟩
      · have := q1 x hx
        push_cast at this
        omega
      · intro x hx
        have := q1 x hx
        push_cast at this
        omega
    · rw [h]
      simp only [List.filter_cons, k8, Bool.false_eq_true, if_false]
      exact ih o (wrapInt32 (n + 1)) (by omega) hr
    · rw [h, hw]
      obtain ⟨q1, q2⟩ := ih (o + 1) (wrapInt32 (n + 1)) (by omega) hr
      simp only [List.filter_cons, k9, Bool.false_eq_true, if_false]
      refine ⟨fun x hx => ?_, q2⟩
      have := q1 x hx
      push_cast at this
      omega

theorem diffLoop_header_zero (lines : List QString) :
    ∀ o n : Int, ∀ e ∈ diffLoop lines o n, e.type = qs "header" → e.lineNum = 0 := by
  have d1 : qs "delete" ≠ qs "header" := by decide
  have d2 : qs "add" ≠ qs "header" := by decide
  have d3 : qs "context" ≠ qs "header" := by decide
  induction lines with
  | nil => intro o n e he; simp [diffLoop] at he
  | cons line rest ih =>
    intro o n e he ht
    cases hh : isHunkHeaderLine line
    · rcases diffLoop_cases line rest o n hh with h | h | h | h <;> rw [h] at he
      · exact ih o n e he ht
      · rcases List.mem_cons.mp he with rfl | he2
        · exact absurd ht d1
        · exact ih _ _ e he2 ht
      · rcases List.mem_cons.mp he with rfl | he2
        · exact absurd ht d2
        · exact ih _ _ e he2 ht
      · rcases List.mem_cons.mp he with rfl | he2
        · exact absurd ht d3
        · exact ih _ _ e he2 ht
    · have h1 : isDiffHeaderLine line = false := by
        simp only [isHunkHeaderLine, Bool.and_eq_true, Bool.not_eq_true'] at hh
        exact hh.1
      have h2 : (qs "@@").isPrefixOf line = true := by
        simp only [isHunkHeaderLine, Bool.and_eq_true] at hh
        exact hh.2
      cases hs : hunkStart line with
      | none =>
        have h : diffLoop (line :: rest) o n
            = { type := qs "header", content := line, lineNum := 0 } :: diffLoop rest o n := by
          simp [diffLoop, h1, h2, hs]
        rw [h] at he
        rcases List.mem_cons.mp he with rfl | he2
        · rfl
        · exact ih _ _ e he2 ht
      | some ac =>
        have h := diffLoop_hunk line rest o n ac.1 ac.2 hh hs
        rw [h] at he
        rcases List.mem_cons.mp he with rfl | he2
        · rfl
        · exact ih _ _ e he2 ht

theorem takeWhile_number (ds rest : QString) (hd : ds.all isDigit = true)
    (hr : ∀ x t, rest = x :: t → isDigit x = false) :
    (ds ++ rest).takeWhile isDigit = ds ∧ (ds ++ rest).dropWhile isDigit = rest := by
  induction ds with
  | nil =>
    cases rest with
    | nil => simp
    | cons x t => simp [List.takeWhile, List.dropWhile, hr x t rfl]
  | cons y ys ih =>
    simp only [List.all_cons, Bool.and_eq_true] at hd
    obtain ⟨i1, i2⟩ := ih hd.2
    simp [List.takeWhile, List.dropWhile, hd.1, i1, i2]

theorem skipCount_optCount (b : Option QString) (t : QString) (hb : isOptNumber b = true) :
    skipCount (optCount b ++ 32 :: t) = 32 :: t := by
  cases b with
  | none => simp [optCount, skipCount]
  | some ds =>
    simp only [isOptNumber, isNumber, Bool.and_eq_true, Bool.not_eq_true'] at hb
    obtain ⟨i1, i2⟩ := takeWhile_number ds (32 :: t) hb.2
      (fun x t2 h => by
        have hx : x = 32 := (List.cons.inj h).1.symm
        rw [hx]; decide)
    have hne : ds ++ 32 :: t ≠ [] := by simp
    simp only [optCount, List.cons_append, skipCount, i1, i2, hb.1, Bool.false_eq_true, if_false]

theorem optCount_head (b : Option QString) (t : QString) :
    ∀ x t2, optCount b ++ 32 :: t = x :: t2 → isDigit x = false := by
  intro x t2 h
  cases b with
  | none =>
    have hx : x = 32 := (List.cons.inj h).1.symm
    rw [hx]; decide
  | some ds =>
    have hx : x = 44 := (List.cons.inj h).1.symm
    rw [hx]; decide

theorem matchHunkAt_hunkHeaderText (a : QString) (b : Option QString) (c : QString)
    (d : Option QString) (tail : QString) (ha : isNumber a = true) (hb : isOptNumber b = true)
    (hc : isNumber c = true) (hd : isOptNumber d = true) :
    matchHunkAt (hunkHeaderText a b c d tail) = some (a, c) := by
  have e1 : qs "@@ -" = [64, 64, 32, 45] := by decide
  have e2 : qs " +" = [32, 43] := by decide
  have e3 : qs " @@" = [32, 64, 64] := by decide
  simp only [isNumber, Bool.and_eq_true, Bool.not_eq_true'] at ha hc
  obtain ⟨a1, a2⟩ := takeWhile_number a (optCount b ++ 32 :: (43 :: (c ++ (optCount d
    ++ 32 :: (64 :: 64 :: tail))))) ha.2 (optCount_head b _)
  obtain ⟨c1, c2⟩ := takeWhile_number c (optCount d ++ 32 :: (64 :: 64 :: tail)) hc.2
    (optCount_head d _)
  have s1 := skipCount_optCount b (43 :: (c ++ (optCount d ++ 32 :: (64 :: 64 :: tail)))) hb
  have s2 := skipCount_optCount d (64 :: 64 :: tail) hd
  unfold matchHunkAt hunkHeaderText
  rw [e1, e2, e3]
  simp only [List.cons_append, List.nil_append, List.isPrefixOf, beq_self_eq_true,
    Bool.and_self, Bool.true_and, if_true, List.drop_succ_cons, List.drop_zero, a1, a2, c1, c2,
    s1, s2, ha.1, hc.1, Bool.false_eq_true, if_false]

theorem hunkStart_hunkHeaderText (a : QString) (b : Option QString) (c : QString)
    (d : Option QString) (tail : QString) (ha : isNumber a = true) (hb : isOptNumber b = true)
    (hc : isNumber c = true) (hd : isOptNumber d = true) :
    hunkStart (hunkHeaderText a b c d tail) = some (toIntDec a, toIntDec c) := by
  have hm := matchHunkAt_hunkHeaderText a b c d tail ha hb hc hd
  have e1 : qs "@@ -" = [64, 64, 32, 45] := by decide
  have hcons : ∃ t, hunkHeaderText a b c d tail = 64 :: t := by
    unfold hunkHeaderText
    rw [e1]
    exact ⟨_, rfl⟩
  obtain ⟨t, ht⟩ := hcons
  unfold hunkStart
  rw [ht] at hm ⊢
  simp only [List.tails, List.findSome?, hm]

theorem isHunkHeaderLine_hunkHeaderText (a : QString) (b : Option QString) (c : QString)
    (d : Option QString) (tail : QString) :
    isHunkHeaderLine (hunkHeaderText a b c d tail) = true := by
  have e1 : qs "@@ -" = [64, 64, 32, 45] := by decide
  have e2 : qs "@@" = [64, 64] := by decide
  have e3 : qs "diff --git" = [100, 105, 102, 102, 32, 45, 45, 103, 105, 116] := by decide
  have e4 : qs "index " = [105, 110, 100, 101, 120, 32] := by decide
  have e5 : qs "---" = [45, 45, 45] := by decide
  have e6 : qs "+++" = [43, 43, 43] := by decide
  unfold isHunkHeaderLine isDiffHeaderLine hunkHeaderText
  rw [e1, e2, e3, e4, e5, e6]
  simp [List.isPrefixOf]

/-- C17, as stated, fails in its last clause: in the hunk `-old one`, ` keep`,
`-old two`, `+new one`, `+new two` after `@@ -5,4 +5,4 @@` the two delete
entries are numbered 5 and 7, not 5 and 6, because the context entry between
them advances the old-side counter too. -/
theorem getFileDiff_delete_numbers_counterexample :
    ((getFileDiff diffPlatform (qs "a.txt") false idleExample).filter isDeleteEntry).map
        (fun e => e.lineNum) = [5, 7]
      ∧ ((getFileDiff diffPlatform (qs "a.txt") false idleExample).filter isNewSide).map
        (fun e => e.lineNum) = [5, 6, 7] := by
  decide

theorem diffLoop_counter_wraps :
    diffLoop [qs "@@ -2147483647,2 +1,2 @@", qs "-a", qs "-b"] 0 0
      = [{ type := qs "header", content := qs "@@ -2147483647,2 +1,2 @@", lineNum := 0 },
         { type := qs "delete", content := qs "a", lineNum := 2147483647 },
         { type := qs "delete", content := qs "b", lineNum := -2147483648 }] := by
  decide

/-- C17 (amended): for a hunk opened by a header `@@ -a[,b] +c[,d] @@...` and
every list of following lines up to the next hunk header, the header entry has
number 0 and the counters start at old := a, new := c (each read with
`toInt()`); a delete entry is numbered with the old-side counter, which the
delete and context entries before it have advanced; an add or context entry is
numbered with the new-side counter, which the add and context entries before it
have advanced; the counters are `int` and wrap around past 2147483647.  So,
when c plus the number of lines of the hunk stays within 2147483647, the
numbers of the add/context entries of the hunk are c, c+1, c+2, ..., and when
a plus the number of lines of the hunk stays within 2147483647, the numbers of
its delete entries are strictly increasing.  In every diff every header entry
has number 0. -/
theorem diffLoop_hunk_numbering (a : QString) (b : Option QString) (c : QString)
    (d : Option QString) (tail : QString) (body : List QString) (o n : Int)
    (ha : isNumber a = true) (hb : isOptNumber b = true) (hc : isNumber c = true)
    (hd : isOptNumber d = true) (hbody : ∀ l ∈ body, isHunkHeaderLine l = false) :
    diffLoop (hunkHeaderText a b c d tail :: body) o n
        = { type := qs "header", content := hunkHeaderText a b c d tail, lineNum := 0 }
            :: diffLoop body (toIntDec a) (toIntDec c)
      ∧ (∀ (i : Nat) (e : DiffLine), (diffLoop body (toIntDec a) (toIntDec c))[i]? = some e →
          (isDeleteEntry e = true → e.lineNum = wrapInt32 ((toIntDec a : Int)
              + (((diffLoop body (toIntDec a) (toIntDec c)).take i).countP isOldSide : Nat)))
            ∧ (isNewSide e = true → e.lineNum = wrapInt32 ((toIntDec c : Int)
              + (((diffLoop body (toIntDec a) (toIntDec c)).take i).countP isNewSide : Nat))))
      ∧ (toIntDec c + body.length ≤ 2147483647 →
          ((diffLoop body (toIntDec a) (toIntDec c)).filter isNewSide).map (fun e => e.lineNum)
            = (List.range' (toIntDec c)
                ((diffLoop body (toIntDec a) (toIntDec c)).filter isNewSide).length).map
                Int.ofNat)
      ∧ (toIntDec a + body.length ≤ 2147483647 →
          List.Pairwise (fun x y => x < y)
            (((diffLoop body (toIntDec a) (toIntDec c)).filter isDeleteEntry).map
              (fun e => e.lineNum)))
      ∧ (∀ (lines : List QString) (o2 n2 : Int), ∀ e ∈ diffLoop lines o2 n2,
          e.type = qs "header" → e.lineNum = 0) :=
  have ra := toIntDec_le a
  have rc := toIntDec_le c
  ⟨diffLoop_hunk _ body o n _ _ (isHunkHeaderLine_hunkHeaderText a b c d tail)
      (hunkStart_hunkHeaderText a b c d tail ha hb hc hd),
    diffLoop_positions body _ _ (by omega) (by omega) hbody,
    fun hnew => diffLoop_newSide_range body _ _ hnew hbody,
    fun hold => (diffLoop_delete_increasing body _ _ hold hbody).2,
    fun lines o2 n2 => diffLoop_header_zero lines o2 n2⟩

theorem diffLoop_hunk_numbering_witness :
    hunkHeaderText (qs "5") (some (qs "4")) (qs "5") (some (qs "4")) (qs " int main()")
        = qs "@@ -5,4 +5,4 @@ int main()"
      ∧ diffLoop
          (hunkHeaderText (qs "5") (some (qs "4")) (qs "5") (some (qs "4")) (qs " int main()")
            :: [qs "-old one", qs " keep", qs "-old two", qs "+new one", qs "+new two"]) 0 0
        = [{ type := qs "header", content := qs "@@ -5,4 +5,4 @@ int main()", lineNum := 0 },
           { type := qs "delete", content := qs "old one", lineNum := 5 },
           { type := qs "context", content := qs "keep", lineNum := 5 },
           { type := qs "delete", content := qs "old two", lineNum := 7 },
           { type := qs "add", content := qs "new one", lineNum := 6 },
           { type := qs "add", content := qs "new two", lineNum := 7 }]
      ∧ toIntDec (qs "5") + 5 ≤ 2147483647
      ∧ List.Pairwise (fun x y => x < y)
          (((diffLoop [qs "-old one", qs " keep", qs "-old two", qs "+new one", qs "+new two"]
              (toIntDec (qs "5")) (toIntDec (qs "5"))).filter isDeleteEntry).map
            (fun e => e.lineNum)) :=
  have h := diffLoop_hunk_numbering (qs "5") (some (qs "4")) (qs "5") (some (qs "4"))
    (qs " int main()")
    [qs "-old one", qs " keep", qs "-old two", qs "+new one", qs "+new two"] 0 0
    (by decide) (by decide) (by decide) (by decide) (by decide)
  ⟨by decide, h.1.trans (by decide), by decide, h.2.2.2.1 (by decide)⟩

/-! ## Theorems: `quickSync` whose push step fails -/

/-- C19 fails on the code.  `switchBranch("dev")` whose `git checkout dev` exits
with code 1 because local changes would be overwritten emits `operationFailed`
and then, the error branch lacking a `return`, also `operationSuccess`: two
notifications.  `discardChanges("a.txt")` whose `git checkout -- a.txt` exits
with code 1 emits `operationSuccess` and no `operationFailed`; so does the
completion of `unstageFile`, which never sees the exit code. -/
theorem switchBranch_notifies_twice :
    (conflictPlatform.git (qs "/r") [qs "checkout", qs "dev"]).exitCode = 1
      ∧ notifications (switchBranch conflictPlatform (qs "dev") idleExample)
          = [Signal.operationFailed msgSwitchUncommitted,
             Signal.operationSuccess (qs "已切换到分支: main")]
      ∧ (conflictPlatform.git (qs "/r") [qs "checkout", qs "--", qs "a.txt"]).exitCode = 1
      ∧ notifications (discardChanges conflictPlatform (qs "a.txt") idleExample)
          = [Signal.operationSuccess (qs "已撤销更改: a.txt")]
      ∧ notifications (onUnstageFileFinished (qs "a.txt") (unstageFile (qs "a.txt") idleExample))
          = [Signal.operationSuccess (qs "已取消暂存: a.txt")] := by
  decide

/-! ## Theorems: `runGitCommand` -/

theorem chopTrailing_split (output : QString) :
    ∃ suffix : QString, output = chopTrailing output ++ suffix
      ∧ ∀ c ∈ suffix, isChopped c = true := by
  refine ⟨(output.reverse.takeWhile isChopped).reverse, ?_, ?_⟩
  · have h := List.takeWhile_append_dropWhile isChopped output.reverse
    have h2 := congrArg List.reverse h
    rw [List.reverse_append, List.reverse_reverse] at h2
    exact h2.symm
  · intro c hc
    exact List.mem_takeWhile_imp (List.mem_reverse.mp hc)

theorem chopTrailing_last (output : QString) :
    ∀ c, (chopTrailing output).getLast? = some c → isChopped c = false := by
  intro c hc
  have h := List.head?_dropWhile_not isChopped output.reverse
  have hc2 : (output.reverse.dropWhile isChopped).head? = some c := by
    rw [← List.getLast?_reverse]
    exact hc
  rw [hc2] at h
  exact h

theorem runGitCommand_success (env : Platform) (args : List QString) (s : GitManager)
    (hrepo : s.m_repoPath ≠ []) (hexit : (env.git s.m_repoPath args).exitCode = 0) :
    (runGitCommand env args s).1
      = chopTrailing (decodeOutput env (env.git s.m_repoPath args).stdout) := by
  have hx : ((0 : Int) != 0) = false := by decide
  simp [runGitCommand, isEmpty_eq_false_of_ne_nil _ hrepo, hexit, hx]

/-- C21, as stated, fails: only newline, carriage return and blank are
chopped.  The output `a`, tab, newline of a successful command is returned as
`a`, tab, which ends with a whitespace character. -/
theorem runGitCommand_keeps_tab_counterexample :
    (runGitCommand
        (outcomePlatform examplePlatform (ProcOutcome.exited 0 (asciiBytes "a\t\n") []))
        [qs "show", qs "HEAD:a.txt"] idleExample).1 = [97, 9]
      ∧ isSpaceChar 9 = true := by
  decide

/-- C21 (amended): for a successfully finished command `runGitCommand`
returns the decoded output without its trailing newlines, carriage returns and
blanks and with everything else unchanged: the result is a prefix of the
output (so leading whitespace is kept), the removed suffix consists only of
those three characters, and the result does not end with one of them. -/
theorem runGitCommand_chops_trailing (env : Platform) (args : List QString) (s : GitManager)
    (hrepo : s.m_repoPath ≠ []) (hexit : (env.git s.m_repoPath args).exitCode = 0) :
    (∃ suffix : QString,
        decodeOutput env (env.git s.m_repoPath args).stdout
            = (runGitCommand env args s).1 ++ suffix
          ∧ ∀ c ∈ suffix, c = 10 ∨ c = 13 ∨ c = 32)
      ∧ (∀ c, (runGitCommand env args s).1.getLast? = some c → c ≠ 10 ∧ c ≠ 13 ∧ c ≠ 32) := by
  rw [runGitCommand_success env args s hrepo hexit]
  constructor
  · obtain ⟨suffix, h1, h2⟩ := chopTrailing_split
      (decodeOutput env (env.git s.m_repoPath args).stdout)
    refine ⟨suffix, h1, ?_⟩
    intro c hc
    have h := h2 c hc
    simpa [isChopped, or_assoc] using h
  · intro c hc
    have h := chopTrailing_last _ c hc
    simpa [isChopped, and_assoc] using h

theorem runGitCommand_chops_trailing_witness :
    (runGitCommand
        (outcomePlatform examplePlatform (ProcOutcome.exited 0 (asciiBytes "  main \r\n\n") []))
        [qs "branch", qs "--show-current"] idleExample).1 = qs "  main"
      ∧ ∀ c, (runGitCommand
          (outcomePlatform examplePlatform (ProcOutcome.exited 0 (asciiBytes "  main \r\n\n") []))
          [qs "branch", qs "--show-current"] idleExample).1.getLast? = some c
        → c ≠ 10 ∧ c ≠ 13 ∧ c ≠ 32 :=
  ⟨by decide,
    (runGitCommand_chops_trailing
      (outcomePlatform examplePlatform (ProcOutcome.exited 0 (asciiBytes "  main \r\n\n") []))
      [qs "branch", qs "--show-current"] idleExample (by decide) (by decide)).2⟩

theorem decodeOutput_nil (env : Platform) : decodeOutput env [] = [] := by
  simp [decodeOutput, fromUtf8, fromUtf8Aux]

/-- C22, as stated, fails: a command that exits with code 1, a command that
times out before writing anything, and a command that succeeds with empty
output all make `runGitCommand` return the same empty text. -/
theorem runGitCommand_outcomes_counterexample :
    (runGitCommand
        (outcomePlatform examplePlatform
          (ProcOutcome.exited 1 [] (asciiBytes "fatal: bad revision")))
        [qs "revert", qs "--no-edit", qs "abc1234"] idleExample).1 = []
      ∧ (runGitCommand (outcomePlatform examplePlatform (ProcOutcome.timedOut [] []))
        [qs "revert", qs "--no-edit", qs "abc1234"] idleExample).1 = []
      ∧ (runGitCommand (outcomePlatform examplePlatform (ProcOutcome.exited 0 [] []))
        [qs "revert", qs "--no-edit", qs "abc1234"] idleExample).1 = [] := by
  decide

/-- C22 (amended): `runGitCommand` returns only a text.  Every non-zero exit
gives the empty text, whatever the process wrote; so do a successful run with
empty output and a time-out before any output; and a time-out gives the same
text as an exit with code 0 and the same output.  The caller cannot tell the
three outcomes apart from the result. -/
theorem runGitCommand_outcomes (env : Platform) (args : List QString) (s : GitManager) :
    (∀ (exitCode : Int) (stdout stderr : QByteArray), exitCode ≠ 0 →
        (runGitCommand (outcomePlatform env (ProcOutcome.exited exitCode stdout stderr))
          args s).1 = [])
      ∧ (∀ stderr : QByteArray,
        (runGitCommand (outcomePlatform env (ProcOutcome.exited 0 [] stderr)) args s).1 = [])
      ∧ (∀ stderr : QByteArray,
        (runGitCommand (outcomePlatform env (ProcOutcome.timedOut [] stderr)) args s).1 = [])
      ∧ (∀ stdout stderr : QByteArray,
        (runGitCommand (outcomePlatform env (ProcOutcome.timedOut stdout stderr)) args s).1
          = (runGitCommand (outcomePlatform env (ProcOutcome.exited 0 stdout stderr))
              args s).1) := by
  have hx : ((0 : Int) != 0) = false := by decide
  have hnil : chopTrailing [] = [] := rfl
  refine ⟨?_, ?_, ?_, ?_⟩
  · intro exitCode stdout stderr hne
    have hx2 : (exitCode != 0) = true := by simp [hne]
    unfold runGitCommand
    split
    · rfl
    · simp [outcomePlatform, reported, hx2]
  · intro stderr
    unfold runGitCommand
    split
    · rfl
    · simp [outcomePlatform, reported, hx, decodeOutput, fromUtf8, fromUtf8Aux, hnil]
  · intro stderr
    unfold runGitCommand
    split
    · rfl
    · simp [outcomePlatform, reported, hx, decodeOutput, fromUtf8, fromUtf8Aux, hnil]
  · intro stdout stderr
    rfl

theorem runGitCommand_outcomes_witness :
    (runGitCommand
        (outcomePlatform examplePlatform
          (ProcOutcome.exited 128 (asciiBytes "partial") (asciiBytes "fatal: bad revision")))
        [qs "revert", qs "--no-edit", qs "abc1234"] idleExample).1 = [] :=
  (runGitCommand_outcomes examplePlatform [qs "revert", qs "--no-edit", qs "abc1234"]
    idleExample).1 128 (asciiBytes "partial") (asciiBytes "fatal: bad revision") (by decide)

/-! ## Theorems: the remote branch list -/

theorem remoteBranchesOf_eq_foldl (remoteOutput : QString) (localBranches : List QString) :
    remoteBranchesOf remoteOutput localBranches
      = (splitSkipEmpty remoteOutput [10]).foldl (remoteStep localBranches) [] := rfl

theorem remoteCandidates_cons (line : QString) (rest : List QString)
    (localBranches : List QString) :
    remoteCandidates (line :: rest) localBranches
      = if isRemoteEntry line && !localBranches.contains (remoteNameOf line) then
          remoteNameOf line :: remoteCandidates rest localBranches
        else remoteCandidates rest localBranches := by
  unfold remoteCandidates
  cases h1 : isRemoteEntry line <;> cases h2 : localBranches.contains (remoteNameOf line) <;>
    simp only [List.filter_cons, List.map_cons, h1, h2, Bool.not_false, Bool.not_true,
      Bool.and_self, Bool.and_true, Bool.and_false, Bool.false_and, Bool.true_and,
      Bool.false_eq_true, if_true, if_false]

theorem remoteFold_props (localBranches : List QString) (lines : List QString) :
    ∀ acc : List QString, acc.Nodup → (∀ b ∈ acc, b ∉ localBranches) →
      (lines.foldl (remoteStep localBranches) acc).Nodup
        ∧ (∀ b ∈ lines.foldl (remoteStep localBranches) acc, b ∉ localBranches)
        ∧ (∀ b, b ∈ lines.foldl (remoteStep localBranches) acc
            ↔ b ∈ acc ∨ b ∈ remoteCandidates lines localBranches)
        ∧ ∃ extra, lines.foldl (remoteStep localBranches) acc = acc ++ extra
            ∧ extra.Sublist (remoteCandidates lines localBranches) := by
  induction lines with
  | nil =>
    intro acc hnd hloc
    refine ⟨hnd, hloc, ?_, [], by simp, ?_⟩
    · intro b; simp [remoteCandidates]
    · simp [remoteCandidates]
  | cons line rest ih =>
    intro acc hnd hloc
    rw [List.foldl_cons, remoteCandidates_cons]
    cases h1 : isRemoteEntry line
    · -- the line is not taken
      have hstep : remoteStep localBranches acc line = acc := by
        unfold remoteStep
        rw [h1]
        rfl
      rw [hstep]
      simpa using ih acc hnd hloc
    · cases h2 : localBranches.contains (remoteNameOf line)
      · cases h3 : acc.contains (remoteNameOf line)
        · -- a new name
          have hstep : remoteStep localBranches acc line = acc ++ [remoteNameOf line] := by
            unfold remoteStep
            rw [h1, h2, h3]
            rfl
          have hna : remoteNameOf line ∉ acc := by
            intro hm
            have : acc.contains (remoteNameOf line) = true := List.elem_iff.mpr hm
            rw [h3] at this
            exact absurd this (by decide)
          have hnl : remoteNameOf line ∉ localBranches := by
            intro hm
            have : localBranches.contains (remoteNameOf line) = true :=
              List.elem_iff.mpr hm
            rw [h2] at this
            exact absurd this (by decide)
          have hnd2 : (acc ++ [remoteNameOf line]).Nodup := by
            rw [List.nodup_append]
            refine ⟨hnd, List.nodup_singleton _, ?_⟩
            intro x hx1 hx2
            rw [List.mem_singleton] at hx2
            exact hna (hx2 ▸ hx1)
          have hloc2 : ∀ b ∈ acc ++ [remoteNameOf line], b ∉ localBranches := by
            intro b hb
            rcases List.mem_append.mp hb with hb | hb
            · exact hloc b hb
            · rw [List.mem_singleton] at hb
              rw [hb]; exact hnl
          obtain ⟨i1, i2, i3, extra, i4, i5⟩ := ih (acc ++ [remoteNameOf line]) hnd2 hloc2
          rw [hstep]
          refine ⟨i1, i2, ?_, remoteNameOf line :: extra, ?_, ?_⟩
          · intro b
            rw [i3 b]
            simp [or_assoc]
          · rw [i4]; simp
          · simpa using i5
        · -- the name was taken before
          have hstep : remoteStep localBranches acc line = acc := by
            unfold remoteStep
            rw [h1, h2, h3]
            rfl
          have hma : remoteNameOf line ∈ acc := List.elem_iff.mp h3
          obtain ⟨i1, i2, i3, extra, i4, i5⟩ := ih acc hnd hloc
          rw [hstep]
          refine ⟨i1, i2, ?_, extra, i4, ?_⟩
          · intro b
            rw [i3 b]
            simp only [Bool.not_false, Bool.and_self, if_true, List.mem_cons]
            constructor
            · rintro (h | h)
              · exact Or.inl h
              · exact Or.inr (Or.inr h)
            · rintro (h | h | h)
              · exact Or.inl h
              · exact Or.inl (h ▸ hma)
              · exact Or.inr h
          · simp only [Bool.not_false, Bool.and_self, if_true]
            exact i5.trans (List.sublist_cons_self _ _)
      · -- the name is a local branch
        have hstep : remoteStep localBranches acc line = acc := by
          unfold remoteStep
          rw [h1, h2]
          simp
        rw [hstep]
        simpa using ih acc hnd hloc

theorem remoteBranchesOf_props (remoteOutput : QString) (localBranches : List QString) :
    (remoteBranchesOf remoteOutput localBranches).Nodup
      ∧ (∀ b ∈ remoteBranchesOf remoteOutput localBranches, b ∉ localBranches)
      ∧ (∀ b, b ∈ remoteBranchesOf remoteOutput localBranches
          ↔ b ∈ remoteCandidates (splitSkipEmpty remoteOutput [10]) localBranches)
      ∧ (remoteBranchesOf remoteOutput localBranches).Sublist
          (remoteCandidates (splitSkipEmpty remoteOutput [10]) localBranches) := by
  obtain ⟨i1, i2, i3, extra, i4, i5⟩ :=
    remoteFold_props localBranches (splitSkipEmpty remoteOutput [10]) [] List.nodup_nil
      (by intro b hb; simp at hb)
  rw [remoteBranchesOf_eq_foldl]
  refine ⟨i1, i2, ?_, ?_⟩
  · intro b; rw [i3 b]; simp
  · rw [i4]; simpa using i5

theorem refreshWorker_branches (env : Platform) (repoPath : QString)
    (hvalid : (env.git repoPath [qs "rev-parse", qs "--git-dir"]).exitCode = 0)
    (hremote : (env.git repoPath [qs "branch", qs "-r"]).exitCode = 0) :
    (refreshWorker env repoPath).isValidRepo = true
      ∧ (refreshWorker env repoPath).remoteBranches
          = remoteBranchesOf (fromUtf8 (env.git repoPath [qs "branch", qs "-r"]).stdout)
              (refreshWorker env repoPath).localBranches := by
  unfold refreshWorker
  simp only [hvalid, hremote]
  exact ⟨rfl, rfl⟩

theorem parseStatusAsync_branches (b : Bool) (s : GitManager) :
    (parseStatusAsync b s).m_localBranches = s.m_localBranches
      ∧ (parseStatusAsync b s).m_remoteBranches = s.m_remoteBranches
      ∧ (parseStatusAsync b s).m_branches = s.m_branches := by
  unfold parseStatusAsync setLoading
  cases b
  · exact ⟨rfl, rfl, rfl⟩
  · simp only [if_true]
    split <;> exact ⟨rfl, rfl, rfl⟩

theorem onRefreshFinished_branches (r : RefreshResult) (s : GitManager)
    (hvalid : r.isValidRepo = true) :
    (onRefreshFinished r s).m_localBranches = r.localBranches
      ∧ (onRefreshFinished r s).m_remoteBranches = r.remoteBranches
      ∧ (onRefreshFinished r s).m_branches = r.localBranches ++ r.remoteBranches := by
  unfold onRefreshFinished
  simp only [hvalid, Bool.not_true, Bool.false_eq_true, if_false]
  refine ⟨?_, ?_, ?_⟩
  · exact (parseStatusAsync_branches true _).1
  · exact (parseStatusAsync_branches true _).2.1
  · exact (parseStatusAsync_branches true _).2.2

/-- C23 (counterexample): only the prefix `origin/` is stripped from a remote
line. With the local branch `main` and a remote listing of `origin/HEAD ->
origin/main`, `origin/main` and `upstream/dev`, the published remote list is
`upstream/dev`, with the remote name kept, and not `dev`. -/
theorem remote_branches_keep_other_remote_counterexample :
    remoteBranchesOf (qs "  origin/HEAD -> origin/main\n  origin/main\n  upstream/dev\n")
        [qs "main"] = [qs "upstream/dev"]
      ∧ remoteBranchesOf (qs "  origin/HEAD -> origin/main\n  origin/main\n  upstream/dev\n")
        [qs "main"] ≠ [qs "dev"] := by
  decide

/-- C23 (amended): when the repository probe and `git branch -r` succeed, the
remote list computed by the worker of `refresh` has no duplicates and no local
branch name, holds exactly the names of the lines taken (trimmed, without a
leading `origin/`, lines containing `->` and blank lines left out) that are not
local names, in listing order, and the completion publishes it together with
the combined list of local names followed by remote names. -/
theorem refresh_remote_branches (env : Platform) (repoPath : QString) (s : GitManager)
    (hvalid : (env.git repoPath [qs "rev-parse", qs "--git-dir"]).exitCode = 0)
    (hremote : (env.git repoPath [qs "branch", qs "-r"]).exitCode = 0) :
    (refreshWorker env repoPath).remoteBranches.Nodup
      ∧ (∀ b ∈ (refreshWorker env repoPath).remoteBranches,
          b ∉ (refreshWorker env repoPath).localBranches)
      ∧ (∀ b, b ∈ (refreshWorker env repoPath).remoteBranches
          ↔ b ∈ remoteCandidates
              (splitSkipEmpty (fromUtf8 (env.git repoPath [qs "branch", qs "-r"]).stdout) [10])
              (refreshWorker env repoPath).localBranches)
      ∧ (refreshWorker env repoPath).remoteBranches.Sublist
          (remoteCandidates
            (splitSkipEmpty (fromUtf8 (env.git repoPath [qs "branch", qs "-r"]).stdout) [10])
            (refreshWorker env repoPath).localBranches)
      ∧ (onRefreshFinished (refreshWorker env repoPath) s).m_remoteBranches
          = (refreshWorker env repoPath).remoteBranches
      ∧ (onRefreshFinished (refreshWorker env repoPath) s).m_branches
          = (refreshWorker env repoPath).localBranches
              ++ (refreshWorker env repoPath).remoteBranches := by
  obtain ⟨hv, hr⟩ := refreshWorker_branches env repoPath hvalid hremote
  obtain ⟨_, p2, p3⟩ := onRefreshFinished_branches (refreshWorker env repoPath) s hv
  obtain ⟨q1, q2, q3, q4⟩ :=
    remoteBranchesOf_props (fromUtf8 (env.git repoPath [qs "branch", qs "-r"]).stdout)
      (refreshWorker env repoPath).localBranches
  rw [← hr] at q1 q2 q3 q4
  exact ⟨q1, q2, q3, q4, p2, p3⟩

theorem refresh_remote_branches_witness :
    (branchPlatform.git (qs "/r") [qs "rev-parse", qs "--git-dir"]).exitCode = 0
      ∧ (branchPlatform.git (qs "/r") [qs "branch", qs "-r"]).exitCode = 0
      ∧ (refreshWorker branchPlatform (qs "/r")).localBranches = [qs "dev", qs "main"]
      ∧ (refreshWorker branchPlatform (qs "/r")).remoteBranches
          = [qs "feature", qs "upstream/dev", qs "upstream/topic"]
      ∧ (onRefreshFinished (refreshWorker branchPlatform (qs "/r")) idleExample).m_branches
          = (refreshWorker branchPlatform (qs "/r")).localBranches
              ++ (refreshWorker branchPlatform (qs "/r")).remoteBranches :=
  ⟨by decide, by decide, by decide, by decide,
    (refresh_remote_branches branchPlatform (qs "/r") idleExample (by decide) (by decide)).2.2.2.2.2⟩

/-! ## Theorems: the recent-repository list -/

theorem addRecentRepo_list (p : QString) (s : GitManager) (hp : p ≠ []) :
    (addRecentRepo p s).recentRepos
      = p :: (s.recentRepos.filter (fun r => r != p)).take 9 := by
  unfold addRecentRepo
  rw [isEmpty_eq_false_of_ne_nil p hp]
  rfl

theorem not_mem_take_filter_ne (p : QString) (l : List QString) (n : Nat) :
    p ∉ (l.filter (fun r => r != p)).take n := by
  intro hm
  have h1 := List.mem_of_mem_take hm
  rw [List.mem_filter] at h1
  simp at h1

/-- C24: for a non-empty path `p`, `addRecentRepo p` stores `p` followed by
the previous entries other than `p`, in their previous order, cut after nine
of them: the list starts with `p`, holds `p` exactly once and has at most ten
entries; a second call stores the same list; and an empty path changes
nothing. -/
theorem addRecentRepo_capped_recent_first (p : QString) (s : GitManager) (hp : p ≠ []) :
    (addRecentRepo p s).recentRepos.head? = some p
      ∧ (addRecentRepo p s).recentRepos.count p = 1
      ∧ (addRecentRepo p s).recentRepos.length ≤ 10
      ∧ (addRecentRepo p s).recentRepos.tail
          = (s.recentRepos.filter (fun r => r != p)).take 9
      ∧ (addRecentRepo p (addRecentRepo p s)).recentRepos = (addRecentRepo p s).recentRepos
      ∧ addRecentRepo [] s = s := by
  have h1 := addRecentRepo_list p s hp
  have h2 := addRecentRepo_list p (addRecentRepo p s) hp
  refine ⟨?_, ?_, ?_, ?_, ?_, rfl⟩
  · rw [h1]; rfl
  · rw [h1, List.count_cons_self, List.count_eq_zero_of_not_mem (not_mem_take_filter_ne p _ 9)]
  · rw [h1, List.length_cons, List.length_take]
    omega
  · rw [h1]; rfl
  · rw [h2, h1]
    have hf : ((p :: (s.recentRepos.filter (fun r => r != p)).take 9).filter (fun r => r != p))
        = (s.recentRepos.filter (fun r => r != p)).take 9 := by
      rw [List.filter_cons]
      have hpp : (p != p) = false := by simp
      rw [hpp]
      simp only [Bool.false_eq_true, if_false]
      rw [List.filter_eq_self]
      intro a ha
      have := List.mem_of_mem_take ha
      rw [List.mem_filter] at this
      exact this.2
    rw [hf, List.take_take]
    simp

theorem addRecentRepo_capped_recent_first_witness :
    qs "/r/b" ≠ []
      ∧ (addRecentRepo (qs "/r/b")
            { idleExample with recentRepos := [qs "/r/a", qs "/r/b", qs "/r/c"] }).recentRepos
          = [qs "/r/b", qs "/r/a", qs "/r/c"]
      ∧ (addRecentRepo (qs "/r/b")
            { idleExample with recentRepos := [qs "/r/a", qs "/r/b", qs "/r/c"] }).recentRepos.count
          (qs "/r/b") = 1 :=
  ⟨by decide, by decide,
    (addRecentRepo_capped_recent_first (qs "/r/b")
      { idleExample with recentRepos := [qs "/r/a", qs "/r/b", qs "/r/c"] } (by decide)).2.1⟩

/-! ## Theorems: unknown escapes and the two decoding paths -/

/-- C25 (divergence): an unknown escape whose second character is not ASCII is
kept by the replacement path but not by the byte loop. The text `\é` alone
decodes to itself; followed by the octal escapes of `中` the loop writes the
Latin-1 byte of `é`, which is malformed UTF-8, and the text decodes to `\`,
U+FFFD, `中`; with `中` itself after the backslash the loop writes a zero byte.
An ASCII second character is kept on both paths. -/
theorem decodeOctalEscapes_unknown_escape_non_ascii :
    decodeOctalEscapes [92, 0xE9] = [92, 0xE9]
      ∧ decodeOctalEscapes ([92, 0xE9] ++ octalEscape 0xE4 ++ octalEscape 0xB8 ++ octalEscape 0xAD)
          = [92, 0xFFFD, 0x4E2D]
      ∧ decodeOctalEscapes [92, 0x4E2D] = [92, 0x4E2D]
      ∧ decodeOctalEscapes
            ([92, 0x4E2D] ++ octalEscape 0xE4 ++ octalEscape 0xB8 ++ octalEscape 0xAD)
          = [92, 0, 0x4E2D]
      ∧ decodeOctalEscapes [92, 120] = [92, 120]
      ∧ decodeOctalEscapes ([92, 120] ++ octalEscape 0xE4 ++ octalEscape 0xB8 ++ octalEscape 0xAD)
          = [92, 120, 0x4E2D] := by
  decide

/-- C27 (divergence): the two paths disagree on an escaped backslash followed
by `n`. The text `a\\nb` (the characters a, backslash, backslash, n, b) has
no octal escape; the replacement path first replaces the backslash-n pair and
returns a, backslash, line feed, b, while the byte loop returns a, backslash,
n, b; with the octal escapes of `中` appended the function takes the loop and
the same five characters decode the second way. -/
theorem decode_paths_disagree_on_escaped_backslash :
    hasOctalEscape [97, 92, 92, 110, 98] = false
      ∧ decodeOctalEscapes [97, 92, 92, 110, 98] = [97, 92, 10, 98]
      ∧ fromUtf8 (decodeLoop 0 [97, 92, 92, 110, 98]) = [97, 92, 110, 98]
      ∧ decodeOctalEscapes
            ([97, 92, 92, 110, 98] ++ octalEscape 0xE4 ++ octalEscape 0xB8 ++ octalEscape 0xAD)
          = [97, 92, 110, 98, 0x4E2D] := by
  decide

/-! ## Theorems: header lines inside a hunk -/

/-- C26 (divergence): a line inside a hunk that starts with `---` or `+++` is
skipped as a header line. For a hunk at old line 3 that keeps `x = 0;`, deletes
the line `--x;`, adds the line `++x;` and keeps `return x;`, the parser returns
the hunk header and the two context entries only, and numbers `return x;` 4
instead of 5. -/
theorem getFileDiff_skips_in_hunk_lines :
    getFileDiff decrementDiffPlatform (qs "a.c") false idleExample
        = [{ type := qs "header", content := qs "@@ -3,3 +3,3 @@", lineNum := 0 },
           { type := qs "context", content := qs "x = 0;", lineNum := 3 },
           { type := qs "context", content := qs "return x;", lineNum := 4 }]
      ∧ diffLoop [qs "@@ -3,3 +3,3 @@", qs "---x;"] 0 0
        = [{ type := qs "header", content := qs "@@ -3,3 +3,3 @@", lineNum := 0 }]
      ∧ diffLoop [qs "@@ -3,3 +3,3 @@", qs "+++x;"] 0 0
        = [{ type := qs "header", content := qs "@@ -3,3 +3,3 @@", lineNum := 0 }]
      ∧ diffLoop [qs "@@ -3,3 +3,3 @@", qs "-y;"] 0 0
        = [{ type := qs "header", content := qs "@@ -3,3 +3,3 @@", lineNum := 0 },
           { type := qs "delete", content := qs "y;", lineNum := 3 }] := by
  decide

/-! ## Theorems: requests rejected as busy -/

/-- C29 (divergence): `cloneRepo` writes the clone target path before it tests
the async process. With a clone of `a.git` into `/home/u` in flight, a second
`cloneRepo` of `b.git` into `/tmp` is rejected as busy, starts nothing and
leaves the stored messages alone, but the stored target path is now `/tmp/b`,
and the first clone, on success, opens `/tmp/b` instead of `/home/u/a`.
Rejected `unstageAll` and `runAsyncGitCommand` requests leave all three stored
values unchanged. -/
theorem cloneRepo_busy_overwrites_target :
    cloningExample.asyncState = ProcessState.Running
      ∧ notifications (cloneRepo (qs "https://gitee.com/u/b.git") (qs "/tmp") cloningExample)
          = [Signal.operationFailed msgBusy]
      ∧ (cloneRepo (qs "https://gitee.com/u/b.git") (qs "/tmp") cloningExample).started
          = cloningExample.started
      ∧ (cloneRepo (qs "https://gitee.com/u/b.git") (qs "/tmp") cloningExample).m_asyncSuccessMsg
          = cloningExample.m_asyncSuccessMsg
      ∧ (cloneRepo (qs "https://gitee.com/u/b.git") (qs "/tmp") cloningExample).m_asyncErrorPrefix
          = cloningExample.m_asyncErrorPrefix
      ∧ cloningExample.m_cloneTargetPath = qs "/home/u/a"
      ∧ (cloneRepo (qs "https://gitee.com/u/b.git") (qs "/tmp") cloningExample).m_cloneTargetPath
          = qs "/tmp/b"
      ∧ (onAsyncFinished examplePlatform 0 [] [] cloningExample).m_repoPath = qs "/home/u/a"
      ∧ (onAsyncFinished examplePlatform 0 [] []
            (cloneRepo (qs "https://gitee.com/u/b.git") (qs "/tmp") cloningExample)).m_repoPath
          = qs "/tmp/b"
      ∧ notifications (unstageAll examplePlatform busyExample) = [Signal.operationFailed msgBusy]
      ∧ (unstageAll examplePlatform busyExample).m_asyncSuccessMsg = busyExample.m_asyncSuccessMsg
      ∧ (unstageAll examplePlatform busyExample).m_asyncErrorPrefix
          = busyExample.m_asyncErrorPrefix
      ∧ (unstageAll examplePlatform busyExample).m_cloneTargetPath
          = busyExample.m_cloneTargetPath
      ∧ (runAsyncGitCommand [qs "pull"] (qs "拉取成功") (qs "拉取失败") busyExample).m_asyncSuccessMsg
          = busyExample.m_asyncSuccessMsg
      ∧ (runAsyncGitCommand [qs "pull"] (qs "拉取成功") (qs "拉取失败") busyExample).m_asyncErrorPrefix
          = busyExample.m_asyncErrorPrefix
      ∧ (runAsyncGitCommand [qs "pull"] (qs "拉取成功") (qs "拉取失败") busyExample).m_cloneTargetPath
          = busyExample.m_cloneTargetPath := by
  decide

/-! ## Theorems: the last error after a failed async operation -/

theorem setError_lastError (error : QString) (s : GitManager) :
    (setError error s).m_lastError = translateGitError error := by
  unfold setError
  cases h : (translateGitError error).isEmpty <;> simp [h, emit]

theorem refresh_lastError (s : GitManager) :
    (refresh s).m_lastError = if s.m_repoPath.isEmpty then s.m_lastError else [] := by
  unfold refresh
  cases hp : s.m_repoPath.isEmpty
  · simp only [Bool.false_eq_true, if_false]
    exact (setError_lastError [] (setLoading true s)).trans translateGitError_nil
  · rfl

theorem finished_prelude_repoPath (s : GitManager) :
    (if (setLoading false { s with asyncState := ProcessState.NotRunning }).m_bulkOperationMode
        then setBulkOperationMode false
          (setLoading false { s with asyncState := ProcessState.NotRunning })
        else setLoading false { s with asyncState := ProcessState.NotRunning }).m_repoPath
      = s.m_repoPath := by
  unfold setBulkOperationMode setLoading
  cases hl : s.m_isLoading <;> cases hb : s.m_bulkOperationMode <;> simp [hl, hb, emit]

/-- C30 (counterexample): with repository `/r` open and a push in flight that
exits with code 1 and `fatal: boom` on its error stream, the handler delivers
the classified message with `operationFailed`, and when it returns `lastError`
is empty: the closing `refresh` has cleared it. -/
theorem lastError_cleared_counterexample :
    busyExample.m_repoPath ≠ []
      ∧ notifications (onAsyncFinished examplePlatform 1 (asciiBytes "fatal: boom") [] busyExample)
          = [Signal.operationFailed (qs "Git错误：推送失败: fatal: boom")]
      ∧ (onAsyncFinished examplePlatform 1 (asciiBytes "fatal: boom") [] busyExample).m_lastError
          = [] := by
  decide

/-- C30 (amended): after an async operation exits non-zero and its completion
is handled, the classified message has been delivered with `operationFailed`;
`lastError` holds that message only when no repository is open, and is empty
when the repository path is non-empty, because the closing `refresh` clears
it. -/
theorem lastError_after_failed_async (env : Platform) (exitCode : Int)
    (stderrBytes stdoutBytes : QByteArray) (s : GitManager) (hx : exitCode ≠ 0) :
    notifications (onAsyncFinished env exitCode stderrBytes stdoutBytes s)
        = notifications s
            ++ [Signal.operationFailed
                  (translateGitError
                    (s.m_asyncErrorPrefix ++ qs ": " ++ asyncErrorText stderrBytes stdoutBytes))]
      ∧ (onAsyncFinished env exitCode stderrBytes stdoutBytes s).m_lastError
          = (if s.m_repoPath.isEmpty then
              translateGitError
                (s.m_asyncErrorPrefix ++ qs ": " ++ asyncErrorText stderrBytes stdoutBytes)
            else []) := by
  constructor
  · have h := (onAsyncFinished_props env exitCode stderrBytes stdoutBytes s).1
    rw [if_neg hx] at h
    exact h
  · unfold onAsyncFinished
    simp only []
    have hx2 : (exitCode != 0) = true := by simp [hx]
    simp only [hx2, if_true]
    rw [refresh_lastError, setError_lastError, (setError_props _ _).2.2.1,
      finished_prelude_repoPath]
    obtain ⟨-, -, e2, -⟩ := finished_prelude s _ rfl
    rw [e2]

theorem lastError_after_failed_async_witness :
    (1 : Int) ≠ 0
      ∧ (onAsyncFinished examplePlatform 1 (asciiBytes "fatal: boom") [] cloningExample).m_lastError
          = qs "Git错误：克隆失败: fatal: boom"
      ∧ notifications
          (onAsyncFinished examplePlatform 1 (asciiBytes "fatal: boom") [] cloningExample)
          = notifications cloningExample
            ++ [Signal.operationFailed
                  (translateGitError
                    (cloningExample.m_asyncErrorPrefix ++ qs ": "
                      ++ asyncErrorText (asciiBytes "fatal: boom") []))] :=
  ⟨by decide, by decide,
    (lastError_after_failed_async examplePlatform 1 (asciiBytes "fatal: boom") [] cloningExample
      (by decide)).1⟩

/-! ## Theorems: the two status parsers -/

theorem toLatin1_beq (c k : Nat) (hk : 0 < k) (hk2 : k ≤ 255) :
    (toLatin1 c == k) = (c == k) := by
  have h := toLatin1_bne c k hk hk2
  simp only [bne] at h
  cases h1 : toLatin1 c == k <;> cases h2 : c == k <;> simp [h1, h2] at h ⊢

theorem ite_chain_agree (sA sM sD sR sU : QString) (a1 a2 m1 m2 d1 d2 r1 q1 q2 : Bool)
    (h : (a1 || (!a2 && !q2 &&
      (if (m1 || m2) = true then !(d1 || d2 || r1) else (d1 || d2 || r1 || !q1))))
        = true) :
    (if (a1 || a2) = true then sA
      else if (m1 || m2) = true then sM
      else if (d1 || d2) = true then sD
      else if r1 = true then sR
      else if (q1 || q2) = true then sU
      else sM)
      = (if (a1 || q2) = true then sA
      else if (d1 || d2) = true then sD
      else if r1 = true then sR
      else sM) := by
  cases a1 <;> cases a2 <;> cases m1 <;> cases m2 <;> cases d1 <;> cases d2 <;> cases r1 <;>
    cases q1 <;> cases q2 <;> simp at h ⊢

theorem statusOf_eq_statusTypeOf (x y : Nat) (h : sameStatusPair x y = true) :
    statusOf (toLatin1 x) (toLatin1 y) = statusTypeOf x y := by
  unfold statusOf statusTypeOf
  rw [toLatin1_beq x 65 (by decide) (by decide), toLatin1_beq y 65 (by decide) (by decide),
    toLatin1_beq x 77 (by decide) (by decide), toLatin1_beq y 77 (by decide) (by decide),
    toLatin1_beq x 68 (by decide) (by decide), toLatin1_beq y 68 (by decide) (by decide),
    toLatin1_beq x 82 (by decide) (by decide), toLatin1_beq x 63 (by decide) (by decide),
    toLatin1_beq y 63 (by decide) (by decide)]
  apply ite_chain_agree
  unfold sameStatusPair at h
  simpa [bne] using h

theorem decodeOctalEscapes_of_needsNoDecoding (p : QString) (h : needsNoDecoding p = true) :
    decodeOctalEscapes p = p := by
  unfold needsNoDecoding at h
  rw [Bool.and_eq_true, Bool.not_eq_true', Bool.not_eq_true'] at h
  have hb : chBackslash ∉ p := by
    intro hm
    have : p.contains chBackslash = true := List.elem_iff.mpr hm
    rw [h.2] at this
    exact absurd this (by decide)
  rw [decodeOctalEscapes_of_no_backslash p hb, stripQuotes_of_not_wrapped p h.1]

theorem paths_agree (p : QString) (hne : p ≠ []) (h : plainPathField p = true) :
    syncPathOf p = asyncPathOf p ∧ syncPathOf p ≠ [] := by
  unfold plainPathField at h
  unfold syncPathOf asyncPathOf
  cases hw : (startsWithChar p chQuote && endsWithChar p chQuote)
  · -- not wrapped in quotes
    rw [hw] at h
    simp only [Bool.false_eq_true, if_false] at h ⊢
    cases ha : contains p (qs " -> ")
    · rw [ha] at h
      simp only [Bool.false_eq_true, if_false] at h ⊢
      rw [decodeOctalEscapes_of_needsNoDecoding p h]
      exact ⟨rfl, hne⟩
    · rw [ha] at h
      simp only [if_true] at h ⊢
      rw [Bool.and_eq_true, Bool.not_eq_true'] at h
      rw [decodeOctalEscapes_of_needsNoDecoding _ h.2]
      refine ⟨rfl, ?_⟩
      intro he
      have h1 := h.1
      unfold sectionLast at h1
      rw [he] at h1
      exact absurd h1 (by decide)
  · -- wrapped in quotes
    rw [hw] at h
    simp only [if_true] at h ⊢
    rw [Bool.and_eq_true, Bool.and_eq_true, Bool.not_eq_true', Bool.not_eq_true',
      Bool.not_eq_true'] at h
    obtain ⟨⟨h1, h2⟩, h3⟩ := h
    rw [h1, h3]
    refine ⟨rfl, ?_⟩
    intro he
    have he2 : decodeOctalEscapes p = [] := he
    rw [he2] at h2
    exact absurd h2 (by decide)

theorem statusFileInfo_view (env : Platform) (repoPath : QString) (x y : Nat)
    (pathField : QString) (b : Bool) :
    (statusFileInfo env repoPath x y pathField b).path = asyncPathOf pathField
      ∧ (statusFileInfo env repoPath x y pathField b).name = fileNameOf (asyncPathOf pathField)
      ∧ (statusFileInfo env repoPath x y pathField b).status
          = statusOf (toLatin1 x) (toLatin1 y)
      ∧ (statusFileInfo env repoPath x y pathField b).staged = b := by
  unfold statusFileInfo asyncPathOf
  simp only []
  cases (env.fileSize (repoPath ++ qs "/" ++ decodeOctalEscapes
      (if contains pathField (qs " -> ") = true then sectionLast pathField (qs " -> ")
        else pathField))).isSome
      && statusOf (toLatin1 x) (toLatin1 y) != qs "deleted" <;>
    exact ⟨rfl, rfl, rfl, rfl⟩

theorem parseStatusLoop_cons (x y z c : Nat) (more : QString) (rest : List QString)
    (changedFiles stagedFiles : List FileInfo) :
    parseStatusLoop ((x :: y :: z :: c :: more) :: rest) (changedFiles, stagedFiles)
      = if (syncPathOf (c :: more)).isEmpty then parseStatusLoop rest (changedFiles, stagedFiles)
        else parseStatusLoop rest
          (if y != 32 then changedFiles ++ [syncFileInfo false (x :: y :: z :: c :: more)]
            else changedFiles,
           if x != 32 && x != 63 then stagedFiles ++ [syncFileInfo true (x :: y :: z :: c :: more)]
            else stagedFiles) := rfl

theorem parseStatusLoop_eq_filter (lines : List QString)
    (hplain : ∀ line ∈ lines, plainStatusLine line = true) :
    ∀ changedFiles stagedFiles : List FileInfo,
      parseStatusLoop lines (changedFiles, stagedFiles)
        = (changedFiles ++ (lines.filter contributesUnstaged).map (syncFileInfo false),
           stagedFiles ++ (lines.filter contributesStaged).map (syncFileInfo true)) := by
  induction lines with
  | nil => intro c s; simp [parseStatusLoop]
  | cons line rest ih =>
    intro c s
    have ih2 := ih (fun l hl => hplain l (List.mem_cons_of_mem _ hl))
    have hline := hplain line (List.mem_cons_self _ _)
    match line, hline with
    | [], _ => simp [parseStatusLoop, ih2, contributesUnstaged, contributesStaged]
    | [_], _ => simp [parseStatusLoop, ih2, contributesUnstaged, contributesStaged]
    | [_, _], _ => simp [parseStatusLoop, ih2, contributesUnstaged, contributesStaged]
    | [_, _, _], h3 => simp [plainStatusLine] at h3
    | x :: y :: z :: ch :: more, h4 =>
      have hp : plainPathField (ch :: more) = true := by
        have h5 : more.length + 1 + 1 + 1 + 1 < 3 ∨ plainPathField (ch :: more) = true := by
          simpa [plainStatusLine] using h4
        rcases h5 with h5 | h5
        · omega
        · exact h5
      have hne := (paths_agree (ch :: more) (by simp) hp).2
      rw [parseStatusLoop_cons, isEmpty_eq_false_of_ne_nil _ hne]
      simp only [Bool.false_eq_true, if_false]
      rw [ih2]
      have hs : contributesStaged (x :: y :: z :: ch :: more) = (x != 32 && x != 63) := by
        simp [contributesStaged, indexChar]
      have hu : contributesUnstaged (x :: y :: z :: ch :: more) = (y != 32) := by
        simp [contributesUnstaged, workTreeChar]
      simp only [List.filter_cons, hs, hu]
      cases (x != 32 && x != 63) <;> cases (y != 32) <;> simp

theorem contributes_length (line : QString)
    (h : contributesUnstaged line = true ∨ contributesStaged line = true) : 3 ≤ line.length := by
  unfold contributesUnstaged contributesStaged at h
  rcases h with h | h
  · simp only [Bool.and_eq_true, decide_eq_true_eq] at h
    exact h.1
  · simp only [Bool.and_eq_true, decide_eq_true_eq] at h
    exact h.1.1

theorem plainStatusLine_paths (line : QString) (hplain : plainStatusLine line = true)
    (hlen : 3 ≤ line.length) : syncPathOf (line.drop 3) = asyncPathOf (line.drop 3) := by
  unfold plainStatusLine at hplain
  simp only [Bool.or_eq_true, Bool.and_eq_true, decide_eq_true_eq] at hplain
  rcases hplain with h | ⟨h4, hp⟩
  · omega
  · have hne : line.drop 3 ≠ [] := by
      intro he
      have := congrArg List.length he
      rw [List.length_drop] at this
      simp at this
      omega
    exact (paths_agree _ hne hp).1

theorem line_key_agree (env : Platform) (repoPath : QString) (b : Bool) (line : QString)
    (hplain : plainStatusLine line = true) (hlen : 3 ≤ line.length) :
    entryKey (syncFileInfo b line) = entryKey (lineFileInfo env repoPath b line) := by
  obtain ⟨v1, v2, -, v4⟩ :=
    statusFileInfo_view env repoPath (indexChar line) (workTreeChar line) (line.drop 3) b
  have hp := plainStatusLine_paths line hplain hlen
  unfold entryKey lineFileInfo
  rw [v1, v2, v4, ← hp]
  rfl

theorem line_view_agree (env : Platform) (repoPath : QString) (b : Bool) (line : QString)
    (hplain : plainStatusLine line = true) (hlen : 3 ≤ line.length)
    (hstatus : sameStatusPair (indexChar line) (workTreeChar line) = true) :
    entryView (syncFileInfo b line) = entryView (lineFileInfo env repoPath b line) := by
  obtain ⟨v1, v2, v3, v4⟩ :=
    statusFileInfo_view env repoPath (indexChar line) (workTreeChar line) (line.drop 3) b
  have hp := plainStatusLine_paths line hplain hlen
  unfold entryView lineFileInfo
  rw [v1, v2, v3, v4, ← hp, statusOf_eq_statusTypeOf _ _ hstatus]
  rfl

theorem map_filter_congr {α β γ : Type} (l : List α) (p : α → Bool) (f g : α → β) (k : β → γ)
    (h : ∀ a ∈ l, p a = true → k (f a) = k (g a)) :
    ((l.filter p).map f).map k = ((l.filter p).map g).map k := by
  rw [List.map_map, List.map_map]
  apply List.map_congr_left
  intro a ha
  rw [List.mem_filter] at ha
  exact h a ha.1 ha.2

theorem parseStatus_lists (env : Platform) (s : GitManager)
    (hraw : isBlankOutput
      (env.git s.m_repoPath [qs "status", qs "--porcelain=v1", qs "-uall"]).stdout = false) :
    (parseStatus env s).m_changedFiles
        = (parseStatusLoop
            (statusLines env
              (env.git s.m_repoPath [qs "status", qs "--porcelain=v1", qs "-uall"]).stdout)
            ([], [])).1
      ∧ (parseStatus env s).m_stagedFiles
        = (parseStatusLoop
            (statusLines env
              (env.git s.m_repoPath [qs "status", qs "--porcelain=v1", qs "-uall"]).stdout)
            ([], [])).2 := by
  unfold parseStatus
  simp only [hraw, Bool.false_eq_true, if_false]
  exact ⟨rfl, rfl⟩

/-- C28 (counterexample): for the status output of one untracked file,
`?? a.txt`, the synchronous parser gives the entry the status `added` and the
asynchronous parser gives it `untracked`. The paths differ too when a rename
has a quoted new name: for `R  old.txt -> "new name.txt"` the synchronous
parser keeps the quotes in the path and the asynchronous parser removes
them. -/
theorem parsers_differ_counterexample :
    isBlankOutput (asciiBytes "?? a.txt\n") = false
      ∧ (parseStatus untrackedPlatform idleExample).m_changedFiles.map entryView
          = [(qs "a.txt", qs "a.txt", qs "added", false)]
      ∧ (parseStatusOutput untrackedPlatform (qs "/r") (asciiBytes "?? a.txt\n") []).1.map entryView
          = [(qs "a.txt", qs "a.txt", qs "untracked", false)]
      ∧ (parseStatusLoop [qs "R  old.txt -> " ++ [chQuote] ++ qs "new name.txt" ++ [chQuote]]
            ([], [])).2.map entryView
          = [([chQuote] ++ qs "new name.txt" ++ [chQuote],
              [chQuote] ++ qs "new name.txt" ++ [chQuote], qs "renamed", true)]
      ∧ (statusLoop examplePlatform (qs "/r")
            [qs "R  old.txt -> " ++ [chQuote] ++ qs "new name.txt" ++ [chQuote]]
            ([], [])).2.map entryView
          = [(qs "new name.txt", qs "new name.txt", qs "renamed", true)] := by
  refine ⟨?_, ?_, ?_, ?_, ?_⟩ <;> decide

/-- C28 (amended): for a status output that is not blank and whose lines are
all plain (shorter than three characters, or with a non-empty path field on
which decoding and rename splitting commute), the synchronous `parseStatus`
and the worker of `parseStatusAsync` build unstaged and staged collections
with the same entries in the same order as to path, display name and staged
flag; the statuses agree as well when every line has a pair of status
characters on which the two status chains coincide. -/
theorem parsers_agree_on_plain_lines (env : Platform) (s : GitManager)
    (untrackedOutput : QByteArray)
    (hraw : isBlankOutput
      (env.git s.m_repoPath [qs "status", qs "--porcelain=v1", qs "-uall"]).stdout = false)
    (hplain : ∀ line ∈ statusLines env
        (env.git s.m_repoPath [qs "status", qs "--porcelain=v1", qs "-uall"]).stdout,
      plainStatusLine line = true) :
    (parseStatus env s).m_changedFiles.map entryKey
        = (parseStatusOutput env s.m_repoPath
            (env.git s.m_repoPath [qs "status", qs "--porcelain=v1", qs "-uall"]).stdout
            untrackedOutput).1.map entryKey
      ∧ (parseStatus env s).m_stagedFiles.map entryKey
        = (parseStatusOutput env s.m_repoPath
            (env.git s.m_repoPath [qs "status", qs "--porcelain=v1", qs "-uall"]).stdout
            untrackedOutput).2.map entryKey
      ∧ ((∀ line ∈ statusLines env
            (env.git s.m_repoPath [qs "status", qs "--porcelain=v1", qs "-uall"]).stdout,
          sameStatusPair (indexChar line) (workTreeChar line) = true) →
        (parseStatus env s).m_changedFiles.map entryView
            = (parseStatusOutput env s.m_repoPath
                (env.git s.m_repoPath [qs "status", qs "--porcelain=v1", qs "-uall"]).stdout
                untrackedOutput).1.map entryView
          ∧ (parseStatus env s).m_stagedFiles.map entryView
            = (parseStatusOutput env s.m_repoPath
                (env.git s.m_repoPath [qs "status", qs "--porcelain=v1", qs "-uall"]).stdout
                untrackedOutput).2.map entryView) := by
  obtain ⟨hc, hs⟩ := parseStatus_lists env s hraw
  have hsync := parseStatusLoop_eq_filter _ hplain [] []
  have hasync : parseStatusOutput env s.m_repoPath
      (env.git s.m_repoPath [qs "status", qs "--porcelain=v1", qs "-uall"]).stdout
      untrackedOutput
      = statusLoop env s.m_repoPath
          (statusLines env
            (env.git s.m_repoPath [qs "status", qs "--porcelain=v1", qs "-uall"]).stdout)
          ([], []) := by
    unfold parseStatusOutput
    rw [hraw]
    rfl
  rw [hc, hs, hasync, hsync, statusLoop_eq_filter]
  simp only [List.nil_append]
  refine ⟨?_, ?_, ?_⟩
  · apply map_filter_congr
    intro line hl hcu
    exact line_key_agree env s.m_repoPath false line (hplain line hl)
      (contributes_length line (Or.inl hcu))
  · apply map_filter_congr
    intro line hl hcs
    exact line_key_agree env s.m_repoPath true line (hplain line hl)
      (contributes_length line (Or.inr hcs))
  · intro hstatus
    constructor
    · apply map_filter_congr
      intro line hl hcu
      exact line_view_agree env s.m_repoPath false line (hplain line hl)
        (contributes_length line (Or.inl hcu)) (hstatus line hl)
    · apply map_filter_congr
      intro line hl hcs
      exact line_view_agree env s.m_repoPath true line (hplain line hl)
        (contributes_length line (Or.inr hcs)) (hstatus line hl)

theorem parsers_agree_on_plain_lines_witness :
    isBlankOutput
        (mixedStatusPlatform.git idleExample.m_repoPath
          [qs "status", qs "--porcelain=v1", qs "-uall"]).stdout = false
      ∧ (parseStatus mixedStatusPlatform idleExample).m_stagedFiles.map entryView
          = [(qs "a.txt", qs "a.txt", qs "modified", true),
             (qs "new.txt", qs "new.txt", qs "renamed", true),
             (qs "c d.txt", qs "c d.txt", qs "added", true)]
      ∧ (parseStatus mixedStatusPlatform idleExample).m_changedFiles.map entryView
          = (parseStatusOutput mixedStatusPlatform idleExample.m_repoPath
              (mixedStatusPlatform.git idleExample.m_repoPath
                [qs "status", qs "--porcelain=v1", qs "-uall"]).stdout []).1.map entryView
      ∧ (parseStatus mixedStatusPlatform idleExample).m_stagedFiles.map entryView
          = (parseStatusOutput mixedStatusPlatform idleExample.m_repoPath
              (mixedStatusPlatform.git idleExample.m_repoPath
                [qs "status", qs "--porcelain=v1", qs "-uall"]).stdout []).2.map entryView :=
  ⟨by decide, by decide,
    (parsers_agree_on_plain_lines mixedStatusPlatform idleExample [] (by decide)
      (by decide)).2.2 (by decide)⟩

end GitPushTool
